import Mathlib

/-!
Wayland backend of the compositor: buffer pool, outputs, repaint and input.

A shallow embedding of the parts of `libweston/compositor-wayland.c` that manage the
shared-memory buffer pool of an output (`wayland_output_get_shm_buffer`, `buffer_release`,
`wayland_shm_buffer_destroy`, `wayland_output_resize_surface`), the life of an output
(`wayland_output_create`, `wayland_output_configure`, `wayland_output_enable`,
`wayland_output_disable`, `wayland_output_destroy`), the choice of a mode
(`wayland_output_choose_mode`) and the mode switch (`wayland_output_switch_mode`), the
repaint (`wayland_output_repaint_pixman`, `wayland_output_repaint_gl`), the host output
descriptors (`wayland_backend_register_output`, `registry_handle_global_remove`) and the
pointer, keyboard and touch handlers of a seat.

Pointers are identifiers into explicit stores; a `NULL` pointer is `none`.  Every operation
returns an `Option`: `none` stands for a memory fault of the C program (a dereference of
`NULL` or of freed memory), or for a wait that never ends.  The intrusive `wl_list`s are
lists of identifiers, head first: `wl_list_insert (list, elm)` is `elm :: list`.
Requests sent to the host are appended to a log, so that their order can be stated.
-/

namespace Weston

/-! ## Data model -/

/-- Identifier of a `struct wayland_output`. -/
abbrev OutId := Nat
/-- Identifier of a `struct wayland_shm_buffer`. -/
abbrev BufId := Nat
/-- Identifier of a `struct weston_mode`. -/
abbrev ModeId := Nat
/-- Identifier of a host `wl_surface`. -/
abbrev SurfId := Nat
/-- Identifier of a renderer context (`base.renderer_state`). -/
abbrev CtxId := Nat
/-- Identifier of a `wl_egl_window`. -/
abbrev EglId := Nat

/-- The fields of `struct weston_mode` that the backend reads and writes. -/
structure weston_mode where
  flags : Nat
  width : Int
  height : Int
  refresh : Nat
deriving DecidableEq, Repr

/-- The value of `WL_OUTPUT_MODE_CURRENT`. -/
def WL_OUTPUT_MODE_CURRENT : Nat := 1
/-- The value of `WL_OUTPUT_MODE_PREFERRED`. -/
def WL_OUTPUT_MODE_PREFERRED : Nat := 2

/-- Modelled from the spec: the decoration library (`struct frame`, `frame_width`,
`frame_height`, `frame_resize_inside`) is not under src/.  A decoration has a full size
and draws chrome of a fixed extent around an interior. -/
structure frame where
  width : Int
  height : Int
  decoration_width : Int
  decoration_height : Int
  title : String := ""
  status_repaint : Bool := false
  interior_x : Int := 0
  interior_y : Int := 0
  active : Bool := false
deriving DecidableEq, Repr

/-- Full width of the decoration, `frame_width`. -/
def frame_width (f : frame) : Int := f.width

/-- Full height of the decoration, `frame_height`. -/
def frame_height (f : frame) : Int := f.height

/-- Resize so that the interior is `width` by `height`, `frame_resize_inside`. -/
def frame_resize_inside (f : frame) (width height : Int) : frame :=
  { f with width := width + f.decoration_width, height := height + f.decoration_height }

/-- A rectangle of a damage region. -/
structure damage_rect where
  x : Int
  y : Int
  width : Int
  height : Int
deriving DecidableEq, Repr

/-- A `pixman_region32_t`, as a list of rectangles whose union it is;
`pixman_region32_union` is the concatenation. -/
abbrev region := List damage_rect

/-- The fields of `struct wayland_shm_buffer`; `width`, `height` and `stride` are the
geometry given to `wl_shm_pool_create_buffer`, `damage` is the pending damage, and
`cleared` tells that the mapped pixels are all zero (nothing was painted since the
`memset` of the allocation). -/
structure wayland_shm_buffer where
  output : Option OutId
  width : Int
  height : Int
  stride : Int
  size : Int
  frame_damaged : Bool
  damage : region := []
  cleared : Bool := true
deriving DecidableEq, Repr

/-- The fields of `struct wayland_output` read or written by the embedded functions.
`buffers` is `shm.buffers`, `free_buffers` is `shm.free_buffers`; `renderer_state` is the
renderer context of the output (`base.renderer_state`); `mode` is the address of the
embedded `struct weston_mode mode`; `base_scale`, `width`, `height`, `mm_width`,
`mm_height`, `make` and `model` are the fields of `base` with these names; `configured`
tells that `wayland_output_configure` installed the callbacks of the output
(`base.repaint`, `base.start_repaint_loop`, `base.switch_mode`); `frame_pending` and
`repaint_needed` belong to the repaint scheduler of the generic layer. -/
structure wayland_output where
  enabled : Bool
  current_mode : ModeId
  mode_list : List ModeId
  draw_initial_frame : Bool
  surface : Option SurfId
  parent_output : Option Nat
  shell_surface : Option Nat
  frame : Option frame
  egl_window : Option EglId
  renderer_state : Option CtxId
  buffers : List BufId
  free_buffers : List BufId
  mode : ModeId := 0
  poutput_mode : Option ModeId := none
  user_data : Option Nat := none
  name : Option String := none
  keyboard_count : Nat := 0
  base_scale : Int := 1
  scale : Int := 0
  width : Int := 0
  height : Int := 0
  mm_width : Int := 0
  mm_height : Int := 0
  make : String := ""
  model : String := ""
  configured : Bool := false
  frame_pending : Bool := false
  repaint_needed : Bool := false
  base_name : Option String := none
deriving DecidableEq, Repr

/-- Input events forwarded to the seat of the compositor, the update of its keyboard
state, and the requests for the current and for a new serial of its display. -/
inductive seat_call where
  | display_get_serial
  | display_next_serial
  | notify_motion_absolute (time : Nat) (x y : Rat)
  | notify_pointer_frame
  | notify_button (time button state : Nat)
  | notify_key (time key : Nat) (pressed : Bool)
  | xkb_state_update_mask (depressed latched locked group : Nat)
  | notify_modifiers (serial : Nat)
  | notify_touch (time : Nat) (id : Int) (x y : Rat) (touch_type : Nat)
  | notify_touch_frame
  | notify_touch_cancel
deriving DecidableEq, Repr

/-- Requests made to the host, the renderer, the decoration library and the allocator,
and notifications given to the compositor, in program order. -/
inductive host_call where
  | surface_create (s : SurfId)
  | surface_destroy (s : Option SurfId)
  | surface_set_input_region (s : Option SurfId)
  | surface_set_opaque_region (s : Option SurfId)
  | surface_attach (s : Option SurfId) (b : BufId)
  | surface_damage (s : Option SurfId) (x y w h : Int)
  | surface_frame (s : Option SurfId)
  | surface_commit (s : Option SurfId)
  | display_flush
  | shm_create_buffer (b : BufId) (width height stride : Int)
  | buffer_destroy (b : BufId)
  | egl_window_create (w : EglId) (s : Option SurfId) (width height : Int)
  | egl_window_resize (w : EglId) (width height : Int)
  | egl_window_destroy (w : Option EglId)
  | renderer_output_create (c : CtxId)
  | renderer_output_destroy (c : Option CtxId)
  | renderer_reset_borders
  | shell_surface_destroy (s : Nat)
  | frame_destroy
  | present_surface_for_mode (s : Option SurfId) (target : Option Nat) (refresh : Nat)
  | mode_feedback_destroy
  | schedule_repaint (o : OutId)
  | output_free (o : OutId)
  | shell_surface_create (sh : Nat) (s : Option SurfId)
  | shell_surface_set_fullscreen (sh : Option Nat)
  | shell_surface_set_toplevel (sh : Option Nat)
  | display_roundtrip
  | present_surface (s : Option SurfId) (target : Option Nat)
  | theme_create
  | frame_create (title : String)
  | frame_repaint (b : BufId)
  | pixman_set_buffer (o : OutId) (b : BufId)
  | renderer_repaint_output (o : OutId) (damage : region)
  | surface_damage_buffer (s : Option SurfId) (damage : region) (frame_damaged : Bool)
  | callback_destroy
  | finish_frame (o : OutId)
  | notify_pointer_focus (output : Option OutId) (x y : Rat)
  | pointer_set_cursor (serial : Nat) (with_surface : Bool)
  | cursor_surface_commit
  | renderer_output_set_border (o : OutId)
  | shell_surface_move (sh : Option Nat) (serial : Nat)
  | compositor_exit
  | wl_output_destroy (global : Option Nat)
  | output_init_pending (o : OutId)
  | seat (c : seat_call)
deriving DecidableEq, Repr

/-- The fields of `struct wayland_parent_output`, the descriptor of a host output: the
output created for it, the host object, the name of the global, the mode list and the
two mode pointers. -/
structure wayland_parent_output where
  output : Option OutId
  global : Option Nat
  id : Nat
  make : String := ""
  model : String := ""
  mode_list : List ModeId
  preferred_mode : Option ModeId
  current_mode : Option ModeId
deriving DecidableEq, Repr

/-- The backend with its stores: `struct wayland_backend` together with the heap of
outputs, buffers and modes it reaches.  `shell` and `fshell` tell whether `parent.shell`
and `parent.fshell` are bound, `theme` whether the theme of the decorations exists,
`cursor` whether a cursor was loaded, `cursor_buffer` whether
`wl_cursor_image_get_buffer` gives a buffer for its first image; `parent_outputs` holds
the descriptors that `parent_output_list`, the list `parent.output_list`, links. -/
structure wayland_backend where
  use_pixman : Bool
  fshell : Bool
  outputs : OutId → Option wayland_output
  shm_buffers : BufId → Option wayland_shm_buffer
  modes : ModeId → weston_mode
  next_buffer : BufId
  next_surface : SurfId
  next_egl_window : EglId
  next_renderer_state : CtxId
  log : List host_call
  shell : Bool := false
  sprawl_across_outputs : Bool := false
  fullscreen : Bool := false
  theme : Bool := false
  cursor : Bool := false
  next_shell_surface : Nat := 0
  next_mode : ModeId := 0
  cursor_buffer : Bool := false
  parent_outputs : Nat → Option wayland_parent_output := fun _ => none
  parent_output_list : List Nat := []

/-- Store `out` at `o`. -/
def set_output (s : wayland_backend) (o : OutId) (out : wayland_output) : wayland_backend :=
  { s with outputs := Function.update s.outputs o (some out) }

/-- Store `sb` at `b`. -/
def set_buffer (s : wayland_backend) (b : BufId) (sb : wayland_shm_buffer) :
    wayland_backend :=
  { s with shm_buffers := Function.update s.shm_buffers b (some sb) }

/-- Append a request to the log. -/
def emit (s : wayland_backend) (c : host_call) : wayland_backend :=
  { s with log := s.log ++ [c] }

/-! ## Buffer pool -/

/-- Unlink buffer `b` from the lists of an output: `wl_list_remove` of `link` and of
`free_link`.  A `wl_list_remove` needs no list head, it unlinks the element from whichever
list holds it; an element is in at most one list, so the removal is applied to every
output and changes only the lists that hold `b`. -/
def unlink_buffer (b : BufId) (out : wayland_output) : wayland_output :=
  { out with buffers := out.buffers.filter (fun x => x ≠ b),
             free_buffers := out.free_buffers.filter (fun x => x ≠ b) }

/-- The function `wayland_shm_buffer_destroy`: the host buffer is destroyed, the buffer is
unlinked from the list that holds its `link` and from the list that holds its `free_link`
(a self-linked `free_link` is in no list), and the record is freed. -/
def wayland_shm_buffer_destroy (s : wayland_backend) (b : BufId) : Option wayland_backend :=
  match s.shm_buffers b with
  | none => none
  | some _ =>
    some { s with
      shm_buffers := Function.update s.shm_buffers b none
      outputs := fun o => (s.outputs o).map (unlink_buffer b)
      log := s.log ++ [host_call.buffer_destroy b] }

/-- The function `buffer_release`, the host's release event for buffer `b`. -/
def buffer_release (s : wayland_backend) (b : BufId) : Option wayland_backend :=
  match s.shm_buffers b with
  | none => none
  | some sb =>
    match sb.output with
    | some o =>
      match s.outputs o with
      | none => none
      | some out => some (set_output s o { out with free_buffers := b :: out.free_buffers })
    | none => wayland_shm_buffer_destroy s b

/-- Outcome of the three allocations of `wayland_output_get_shm_buffer`:
`os_create_anonymous_file`, `mmap` and `zalloc`. -/
structure shm_alloc where
  fd_ok : Bool
  mmap_ok : Bool
  zalloc_ok : Bool
deriving DecidableEq, Repr

/-- Modelled from the spec: `cairo_format_stride_for_width (CAIRO_FORMAT_ARGB32, width)` is
not under src/; a pixel of that format takes four bytes. -/
def cairo_format_stride_for_width (width : Int) : Int := 4 * width

/-- The function `wayland_output_get_shm_buffer`.  The result is the returned buffer
(`none` for `NULL`) and the new state. -/
def wayland_output_get_shm_buffer (s : wayland_backend) (o : OutId) (a : shm_alloc) :
    Option (Option BufId × wayland_backend) :=
  match s.outputs o with
  | none => none
  | some out =>
    match out.free_buffers with
    | sb :: rest => some (some sb, set_output s o { out with free_buffers := rest })
    | [] =>
      let width := match out.frame with
        | some f => frame_width f
        | none => (s.modes out.current_mode).width
      let height := match out.frame with
        | some f => frame_height f
        | none => (s.modes out.current_mode).height
      let stride := cairo_format_stride_for_width width
      if a.fd_ok = false then some (none, s)
      else if a.mmap_ok = false then some (none, s)
      else if a.zalloc_ok = false then some (none, s)
      else
        let sb := s.next_buffer
        let s1 := set_buffer s sb
          { output := some o, width := width, height := height, stride := stride,
            size := height * stride, frame_damaged := true,
            damage := [{ x := 0, y := 0, width := out.width, height := out.height }],
            cleared := true }
        let s2 := set_output s1 o { out with buffers := sb :: out.buffers }
        some (some sb, emit { s2 with next_buffer := sb + 1 }
          (host_call.shm_create_buffer sb width height stride))

/-- Destroy the buffers of a list one after the other, the loop
`wl_list_for_each_safe (buffer, next, &output->shm.free_buffers, free_link)`. -/
def destroy_buffers : wayland_backend → List BufId → Option wayland_backend
  | s, [] => some s
  | s, b :: bs =>
    match wayland_shm_buffer_destroy s b with
    | none => none
    | some s1 => destroy_buffers s1 bs

/-- Clear the owner of the buffers of a list, the loop
`wl_list_for_each (buffer, &output->shm.buffers, link) buffer->output = NULL`. -/
def orphan_buffers : wayland_backend → List BufId → Option wayland_backend
  | s, [] => some s
  | s, b :: bs =>
    match s.shm_buffers b with
    | none => none
    | some sb => orphan_buffers (set_buffer s b { sb with output := none }) bs

/-- First part of `wayland_output_resize_surface`: the decoration is resized around the
current mode, the input and opaque regions of the surface are set, and the native window
of the accelerated renderer, if there is one, is resized and its borders are dropped. -/
def resize_surface_geometry (s : wayland_backend) (o : OutId) (out : wayland_output) :
    wayland_backend :=
  let mode := s.modes out.current_mode
  let frame1 := out.frame.map (fun f => frame_resize_inside f mode.width mode.height)
  let width := match frame1 with
    | some f => frame_width f
    | none => mode.width
  let height := match frame1 with
    | some f => frame_height f
    | none => mode.height
  let s1 := set_output s o { out with frame := frame1 }
  let s2 := emit (emit s1 (host_call.surface_set_input_region out.surface))
    (host_call.surface_set_opaque_region out.surface)
  match out.egl_window with
  | some w => emit (emit s2 (host_call.egl_window_resize w width height))
      host_call.renderer_reset_borders
  | none => s2

/-- The function `wayland_output_resize_surface`: after the geometry, the buffers of the
free list are destroyed and the owner of every buffer left in the buffer list is
cleared. -/
def wayland_output_resize_surface (s : wayland_backend) (o : OutId) :
    Option wayland_backend :=
  match s.outputs o with
  | none => none
  | some out =>
    match destroy_buffers (resize_surface_geometry s o out) out.free_buffers with
    | none => none
    | some s4 =>
      match s4.outputs o with
      | none => none
      | some out4 => orphan_buffers s4 out4.buffers

/-! ## Output teardown -/

/-- The function `wayland_output_disable`; it returns 0. -/
def wayland_output_disable (s : wayland_backend) (o : OutId) :
    Option (Int × wayland_backend) :=
  match s.outputs o with
  | none => none
  | some out =>
    if out.enabled = false then some (0, s)
    else
      let s1 := emit s (host_call.renderer_output_destroy out.renderer_state)
      let s2 := emit s1 (host_call.egl_window_destroy out.egl_window)
      let s3 := emit s2 (host_call.surface_destroy out.surface)
      let s4 := match out.shell_surface with
        | some sh => emit s3 (host_call.shell_surface_destroy sh)
        | none => s3
      let s5 := match out.frame with
        | some _ => emit s4 host_call.frame_destroy
        | none => s4
      some (0, s5)

/-- The function `wayland_output_destroy`: disable, then `weston_output_destroy` and
`free (output)`. -/
def wayland_output_destroy (s : wayland_backend) (o : OutId) : Option wayland_backend :=
  match wayland_output_disable s o with
  | none => none
  | some (_, s1) =>
    some (emit { s1 with outputs := Function.update s1.outputs o none }
      (host_call.output_free o))

/-! ## Repaint bootstrap -/

/-- The function `draw_initial_frame`. -/
def draw_initial_frame (s : wayland_backend) (o : OutId) (a : shm_alloc) :
    Option wayland_backend :=
  match wayland_output_get_shm_buffer s o a with
  | none => none
  | some (none, _) => none
  | some (some sb, s1) =>
    match s1.outputs o, s1.shm_buffers sb with
    | some out, some buf =>
      let s2 := if out.egl_window.isSome then set_buffer s1 sb { buf with output := none }
        else s1
      let mode := s2.modes out.current_mode
      some (emit (emit s2 (host_call.surface_attach out.surface sb))
        (host_call.surface_damage out.surface 0 0 mode.width mode.height))
    | _, _ => none

/-- The function `wayland_output_start_repaint_loop`. -/
def wayland_output_start_repaint_loop (s : wayland_backend) (o : OutId) (a : shm_alloc) :
    Option wayland_backend :=
  match s.outputs o with
  | none => none
  | some out =>
    let s1 : Option wayland_backend :=
      if out.draw_initial_frame then
        draw_initial_frame (set_output s o { out with draw_initial_frame := false }) o a
      else some s
    match s1 with
    | none => none
    | some s2 =>
      match s2.outputs o with
      | none => none
      | some out2 =>
        some (emit (emit (emit s2 (host_call.surface_frame out2.surface))
          (host_call.surface_commit out2.surface)) host_call.display_flush)

/-! ## Mode choice and mode switch -/

/-- First loop of `wayland_output_choose_mode`: the first mode of the list that equals the
reference in width, height and refresh. -/
def choose_mode_exact (modes : ModeId → weston_mode) (ref_mode : weston_mode) :
    List ModeId → Option ModeId
  | [] => none
  | mode :: rest =>
    if (modes mode).width = ref_mode.width ∧ (modes mode).height = ref_mode.height ∧
        (modes mode).refresh = ref_mode.refresh then some mode
    else choose_mode_exact modes ref_mode rest

/-- Second loop of `wayland_output_choose_mode`: the first mode of the list that equals the
reference in width and height. -/
def choose_mode_size (modes : ModeId → weston_mode) (ref_mode : weston_mode) :
    List ModeId → Option ModeId
  | [] => none
  | mode :: rest =>
    if (modes mode).width = ref_mode.width ∧ (modes mode).height = ref_mode.height then
      some mode
    else choose_mode_size modes ref_mode rest

/-- The function `wayland_output_choose_mode` on the mode list of an output. -/
def wayland_output_choose_mode (modes : ModeId → weston_mode) (mode_list : List ModeId)
    (ref_mode : weston_mode) : Option ModeId :=
  match choose_mode_exact modes ref_mode mode_list with
  | some mode => some mode
  | none => choose_mode_size modes ref_mode mode_list

/-- The values of `enum mode_status`. -/
inductive mode_status where
  | MODE_STATUS_UNKNOWN
  | MODE_STATUS_SUCCESS
  | MODE_STATUS_FAIL
  | MODE_STATUS_CANCEL
deriving DecidableEq, Repr

/-- Events the host delivers during a dispatch and that the embedded handlers react to:
the release of a buffer and the three answers to a mode-switch request.  Events of other
host objects (input devices, the registry, host outputs) are not part of the model. -/
inductive host_event where
  | release (b : BufId)
  | mode_feedback_successful
  | mode_feedback_failed
  | mode_feedback_cancelled
deriving DecidableEq, Repr

/-- One call of `wl_display_dispatch`: the events it delivers and its return value. -/
structure dispatch_result where
  events : List host_event
  ret : Int
deriving DecidableEq, Repr

/-- Run the handler of one event: `buffer_release`, `mode_feedback_successful`,
`mode_feedback_failed` or `mode_feedback_cancelled`. -/
def handle_event (s : wayland_backend) (st : mode_status) :
    host_event → Option (wayland_backend × mode_status)
  | host_event.release b => (buffer_release s b).map (fun s1 => (s1, st))
  | host_event.mode_feedback_successful => some (s, mode_status.MODE_STATUS_SUCCESS)
  | host_event.mode_feedback_failed => some (s, mode_status.MODE_STATUS_FAIL)
  | host_event.mode_feedback_cancelled => some (s, mode_status.MODE_STATUS_CANCEL)

/-- Run the handlers of the events of one dispatch, in delivery order. -/
def handle_events : wayland_backend → mode_status → List host_event →
    Option (wayland_backend × mode_status)
  | s, st, [] => some (s, st)
  | s, st, e :: es =>
    match handle_event s st e with
    | none => none
    | some (s1, st1) => handle_events s1 st1 es

/-- The loop `while (mode_status == MODE_STATUS_UNKNOWN && ret >= 0)
ret = wl_display_dispatch (...)` over the dispatches the host will serve.  The wait does
not end when the dispatches run out while the condition still holds. -/
def dispatch_loop : wayland_backend → mode_status → Int → List dispatch_result →
    Option (wayland_backend × mode_status × Int)
  | s, st, ret, [] =>
    if st = mode_status.MODE_STATUS_UNKNOWN ∧ 0 ≤ ret then none else some (s, st, ret)
  | s, st, ret, d :: ds =>
    if st = mode_status.MODE_STATUS_UNKNOWN ∧ 0 ≤ ret then
      match handle_events s st d.events with
      | none => none
      | some (s1, st1) => dispatch_loop s1 st1 d.ret ds
    else some (s, st, ret)

/-- Outcome of the creation of a renderer context: `wl_egl_window_create` and the
renderer's `output_create`. -/
structure renderer_outcome where
  egl_window_ok : Bool
  output_create_ok : Bool
deriving DecidableEq, Repr

/-- The function `wayland_output_init_pixman_renderer`. -/
def wayland_output_init_pixman_renderer (s : wayland_backend) (o : OutId)
    (r : renderer_outcome) : Option (Int × wayland_backend) :=
  match s.outputs o with
  | none => none
  | some out =>
    if r.output_create_ok then
      let c := s.next_renderer_state
      some (0, emit { set_output s o { out with renderer_state := some c } with
        next_renderer_state := c + 1 } (host_call.renderer_output_create c))
    else some (-1, s)

/-- The function `wayland_output_init_gl_renderer`. -/
def wayland_output_init_gl_renderer (s : wayland_backend) (o : OutId)
    (r : renderer_outcome) : Option (Int × wayland_backend) :=
  match s.outputs o with
  | none => none
  | some out =>
    let fwidth := match out.frame with
      | some f => frame_width f
      | none => (s.modes out.current_mode).width
    let fheight := match out.frame with
      | some f => frame_height f
      | none => (s.modes out.current_mode).height
    if r.egl_window_ok = false then
      some (-1, set_output s o { out with egl_window := none })
    else
      let w := s.next_egl_window
      let out1 := { out with egl_window := some w }
      let s1 := emit { set_output s o out1 with next_egl_window := w + 1 }
        (host_call.egl_window_create w out.surface fwidth fheight)
      if r.output_create_ok then
        let c := s1.next_renderer_state
        some (0, emit { set_output s1 o { out1 with renderer_state := some c } with
          next_renderer_state := c + 1 } (host_call.renderer_output_create c))
      else some (-1, emit s1 (host_call.egl_window_destroy (some w)))

/-- Write the flags of a mode. -/
def set_mode_flags (s : wayland_backend) (m : ModeId) (flags : Nat) : wayland_backend :=
  { s with modes := Function.update s.modes m { s.modes m with flags := flags } }

/-- Start of a mode switch: the chosen mode becomes the current mode and a newly created
surface replaces the old one. -/
def switch_mode_swapped (s : wayland_backend) (o : OutId) (out : wayland_output)
    (mode : ModeId) : wayland_backend :=
  emit { set_output s o { out with current_mode := mode, surface := some s.next_surface }
    with next_surface := s.next_surface + 1 } (host_call.surface_create s.next_surface)

/-- First part of `wayland_output_switch_mode`, up to the wait: the chosen mode becomes
the current mode, a new surface replaces the old one, the buffers are thrown away, the
switch is requested from the host and the repaint loop is restarted with a bootstrap
frame. -/
def switch_mode_request (s : wayland_backend) (o : OutId) (out : wayland_output)
    (mode : ModeId) (a : shm_alloc) : Option wayland_backend :=
  match wayland_output_resize_surface (switch_mode_swapped s o out mode) o with
  | none => none
  | some s2 =>
    let s3 := emit s2 (host_call.present_surface_for_mode (some s.next_surface)
      out.parent_output (s.modes mode).refresh)
    match s3.outputs o with
    | none => none
    | some out3 =>
      wayland_output_start_repaint_loop
        (set_output s3 o { out3 with draw_initial_frame := true }) o a

/-- The flip of the mode flags and the destruction of the old renderer context in
`wayland_output_switch_mode`: `old_mode->flags &= ~WL_OUTPUT_MODE_CURRENT`,
`output->base.current_mode->flags |= WL_OUTPUT_MODE_CURRENT`, then the renderer's
`output_destroy`. -/
def switch_mode_flipped (s6 : wayland_backend) (o : OutId) (out6 : wayland_output)
    (old_mode : ModeId) : wayland_backend :=
  let s7 := set_mode_flags s6 old_mode
    (Nat.land (s6.modes old_mode).flags (0xFFFFFFFF - WL_OUTPUT_MODE_CURRENT))
  let s8 := set_mode_flags s7 out6.current_mode
    (Nat.lor (s7.modes out6.current_mode).flags WL_OUTPUT_MODE_CURRENT)
  let s9 := emit s8 (host_call.renderer_output_destroy out6.renderer_state)
  set_output s9 o { out6 with renderer_state := none }

/-- Last part of `wayland_output_switch_mode`, after the wait: the rollback when the
host answered `MODE_STATUS_FAIL`, and otherwise the flip of the mode flags, the
replacement of the renderer context and the destruction of the old surface. -/
def switch_mode_finish (s5 : wayland_backend) (o : OutId) (old_mode : ModeId)
    (old_surface : Option SurfId) (status : mode_status) (r : renderer_outcome) :
    Option (Int × wayland_backend) :=
  let s6 := emit s5 host_call.mode_feedback_destroy
  match s6.outputs o with
  | none => none
  | some out6 =>
    if status = mode_status.MODE_STATUS_FAIL then
      let s7 := emit (set_output s6 o { out6 with current_mode := old_mode })
        (host_call.surface_destroy out6.surface)
      match wayland_output_resize_surface
          (set_output s7 o { out6 with current_mode := old_mode, surface := old_surface })
          o with
      | none => none
      | some s8 => some (-1, s8)
    else
      let s10 := switch_mode_flipped s6 o out6 old_mode
      let s11 := if s5.use_pixman then s10
        else emit s10 (host_call.egl_window_destroy out6.egl_window)
      let init := if s5.use_pixman then wayland_output_init_pixman_renderer s11 o r
        else wayland_output_init_gl_renderer s11 o r
      match init with
      | none => none
      | some (ret, s12) =>
        if ret < 0 then some (-1, s12)
        else
          some (0, emit (emit s12 (host_call.surface_destroy old_surface))
            (host_call.schedule_repaint o))

/-- The function `wayland_output_switch_mode`.  `output_base` and `mode` are the two
pointer arguments; `a` is the outcome of the allocation of the bootstrap buffer,
`dispatch` the dispatches the host serves during the wait, `r` the outcome of the
creation of the new renderer context. -/
def wayland_output_switch_mode (s : wayland_backend) (output_base : Option OutId)
    (mode : Option weston_mode) (a : shm_alloc) (dispatch : List dispatch_result)
    (r : renderer_outcome) : Option (Int × wayland_backend) :=
  match output_base with
  | none => some (-1, s)
  | some o =>
  match mode with
  | none => some (-1, s)
  | some ref_mode =>
  match s.outputs o with
  | none => none
  | some out =>
  if out.shell_surface.isSome ∨ s.fshell = false then some (-1, s) else
  match wayland_output_choose_mode s.modes out.mode_list ref_mode with
  | none => some (-1, s)
  | some mode =>
  if out.current_mode = mode then some (0, s) else
  match switch_mode_request s o out mode a with
  | none => none
  | some s4 =>
  match dispatch_loop s4 mode_status.MODE_STATUS_UNKNOWN 0 dispatch with
  | none => none
  | some (s5, status, _) =>
    switch_mode_finish s5 o out.current_mode out.surface status r

/-! ## Enabling an output -/

/-- The value of the macro `WINDOW_TITLE`. -/
def WINDOW_TITLE : String := "Weston Compositor"

/-- Outcome of the allocations of `wayland_output_set_windowed`: the `malloc` of the
title, `theme_create` and `frame_create`; the extent of the chrome of the created
decoration depends on the theme. -/
structure windowed_outcome where
  title_ok : Bool
  theme_ok : Bool
  frame_ok : Bool
  decoration_width : Int
  decoration_height : Int
deriving DecidableEq, Repr

/-- Modelled from the spec: `frame_create (theme, 100, 100, FRAME_BUTTON_CLOSE, title)` of
the decoration library is not under src/; a new decoration has the full size given, the
title given, and needs a repaint. -/
def frame_create (w : windowed_outcome) (title : String) : frame :=
  { width := 100, height := 100, decoration_width := w.decoration_width,
    decoration_height := w.decoration_height, title := title, status_repaint := true }

/-- The function `wayland_output_set_windowed`. -/
def wayland_output_set_windowed (s : wayland_backend) (o : OutId) (w : windowed_outcome) :
    Option (Int × wayland_backend) :=
  match s.outputs o with
  | none => none
  | some out =>
    if out.frame.isSome then some (0, s)
    else if out.name.isSome ∧ w.title_ok = false then some (-1, s)
    else
      let title := match out.name with
        | some name => WINDOW_TITLE ++ " - " ++ name
        | none => WINDOW_TITLE
      if s.theme = false ∧ w.theme_ok = false then some (-1, s)
      else
        let s1 := if s.theme = false then emit { s with theme := true } host_call.theme_create
          else s
        if w.frame_ok = false then some (-1, s1)
        else
          let f := frame_create w title
          let f1 := if out.keyboard_count ≠ 0 then { f with active := true } else f
          let s2 := emit (set_output s1 o { out with frame := some f1 })
            (host_call.frame_create title)
          match wayland_output_resize_surface s2 o with
          | none => none
          | some s3 => some (0, emit s3 (host_call.shell_surface_set_toplevel out.shell_surface))

/-- The function `wayland_output_set_fullscreen`; `target` is the host output. -/
def wayland_output_set_fullscreen (s : wayland_backend) (o : OutId) (target : Option Nat) :
    Option wayland_backend :=
  match s.outputs o with
  | none => none
  | some out =>
    let s1 := match out.frame with
      | some _ => emit (set_output s o { out with frame := none }) host_call.frame_destroy
      | none => s
    match wayland_output_resize_surface s1 o with
    | none => none
    | some s2 =>
      if out.shell_surface.isSome then
        some (emit s2 (host_call.shell_surface_set_fullscreen out.shell_surface))
      else if s.fshell then some (emit s2 (host_call.present_surface out.surface target))
      else some s2

/-- Outcome of the allocations of `wayland_output_enable`: the creation of the surface
and of the shell surface, of the renderer context, and of the decoration. -/
structure enable_outcome where
  surface_ok : Bool
  shell_surface_ok : Bool
  renderer : renderer_outcome
  windowed : windowed_outcome
deriving DecidableEq, Repr

/-- Last part of `wayland_output_enable`, after the renderer context was initialised
with result `init`: on failure the shell surface, if there is one, and the surface are
destroyed; otherwise the surface is presented as the configuration asks.  The result of
`wayland_output_set_windowed` is not looked at. -/
def enable_finish (s : wayland_backend) (o : OutId) (out4 : wayland_output)
    (e : enable_outcome) (init : Option (Int × wayland_backend)) :
    Option (Int × wayland_backend) :=
  match init with
  | none => none
  | some (ret, s5) =>
    if ret < 0 then
      let s6 := match out4.shell_surface with
        | some sh => emit s5 (host_call.shell_surface_destroy sh)
        | none => s5
      some (-1, emit s6 (host_call.surface_destroy out4.surface))
    else if s.sprawl_across_outputs then
      match out4.poutput_mode with
      | none => none
      | some pm =>
        match wayland_output_set_fullscreen s5 o out4.parent_output with
        | none => none
        | some s6 =>
          if out4.shell_surface.isSome then
            some (0, emit s6 (host_call.shell_surface_set_fullscreen out4.shell_surface))
          else if s.fshell then
            some (0, emit (emit (emit s6
              (host_call.present_surface out4.surface out4.parent_output))
              (host_call.present_surface_for_mode out4.surface out4.parent_output
                (s.modes pm).refresh)) host_call.mode_feedback_destroy)
          else some (0, s6)
    else if s.fullscreen then
      match wayland_output_set_fullscreen s5 o none with
      | none => none
      | some s6 => some (0, s6)
    else
      match wayland_output_set_windowed s5 o e.windowed with
      | none => none
      | some (_, s6) => some (0, s6)

/-- The function `wayland_output_enable`. -/
def wayland_output_enable (s : wayland_backend) (o : OutId) (e : enable_outcome) :
    Option (Int × wayland_backend) :=
  match s.outputs o with
  | none => none
  | some out =>
    if e.surface_ok = false then some (-1, set_output s o { out with surface := none })
    else
      let sf := s.next_surface
      let out1 := { out with surface := some sf, draw_initial_frame := true }
      let s1 := emit { set_output s o out1 with next_surface := sf + 1 }
        (host_call.surface_create sf)
      if s.shell = true ∧ e.shell_surface_ok = false then
        some (-1, emit (set_output s1 o { out1 with shell_surface := none })
          (host_call.surface_destroy (some sf)))
      else
        let out2 := if s.shell then { out1 with shell_surface := some s.next_shell_surface }
          else out1
        let s2 := if s.shell then
            emit { set_output s1 o out2 with next_shell_surface := s.next_shell_surface + 1 }
              (host_call.shell_surface_create s.next_shell_surface (some sf))
          else s1
        let s3 := if s.sprawl_across_outputs = false ∧ s.fullscreen = true ∧ s.shell = true
          then emit (emit s2 (host_call.shell_surface_set_fullscreen out2.shell_surface))
            host_call.display_roundtrip
          else s2
        let out4 := { out2 with buffers := [], free_buffers := [] }
        let s4 := set_output s3 o out4
        enable_finish s o out4 e
          (if s.use_pixman then wayland_output_init_pixman_renderer s4 o e.renderer
            else wayland_output_init_gl_renderer s4 o e.renderer)

/-! ## Repaint -/

/-- The loop `wl_list_for_each (sb, &output->shm.buffers, link) sb->frame_damaged = 1`. -/
def mark_frame_damaged : wayland_backend → List BufId → Option wayland_backend
  | s, [] => some s
  | s, b :: bs =>
    match s.shm_buffers b with
    | none => none
    | some sb => mark_frame_damaged (set_buffer s b { sb with frame_damaged := true }) bs

/-- The loop that adds the damage of a repaint to the pending damage of every buffer of
the list, `pixman_region32_union (&sb->damage, &sb->damage, damage)`; the union of two
regions is the concatenation of their rectangles. -/
def union_damage (damage : region) : wayland_backend → List BufId → Option wayland_backend
  | s, [] => some s
  | s, b :: bs =>
    match s.shm_buffers b with
    | none => none
    | some sb => union_damage damage (set_buffer s b { sb with damage := sb.damage ++ damage }) bs

/-- The function `wayland_output_update_shm_border`: the chrome is painted into the
buffer when its owner has a decoration and the buffer's chrome is out of date. -/
def wayland_output_update_shm_border (s : wayland_backend) (b : BufId) :
    Option wayland_backend :=
  match s.shm_buffers b with
  | none => none
  | some sb =>
    match sb.output with
    | none => none
    | some o =>
      match s.outputs o with
      | none => none
      | some out =>
        if out.frame.isNone ∨ sb.frame_damaged = false then some s
        else some (emit s (host_call.frame_repaint b))

/-- The function `wayland_shm_buffer_attach`: the buffer is attached to the surface of
its owner and the surface is damaged by the pending damage of the buffer, together with
the chrome when it was repainted. -/
def wayland_shm_buffer_attach (s : wayland_backend) (b : BufId) : Option wayland_backend :=
  match s.shm_buffers b with
  | none => none
  | some sb =>
    match sb.output with
    | none => none
    | some o =>
      match s.outputs o with
      | none => none
      | some out =>
        some (emit (emit s (host_call.surface_attach out.surface b))
          (host_call.surface_damage_buffer out.surface sb.damage
            (out.frame.isSome && sb.frame_damaged)))

/-- The function `wayland_output_repaint_pixman`; it returns 0.  The result of
`wayland_output_get_shm_buffer` is used without a test, so that a failed acquire is a
fault. -/
def wayland_output_repaint_pixman (s : wayland_backend) (o : OutId) (damage : region)
    (a : shm_alloc) : Option (Int × wayland_backend) :=
  match s.outputs o with
  | none => none
  | some out =>
    let marked := match out.frame with
      | some f => if f.status_repaint then mark_frame_damaged s out.buffers else some s
      | none => some s
    match marked with
    | none => none
    | some s1 =>
      match union_damage damage s1 out.buffers with
      | none => none
      | some s2 =>
        match wayland_output_get_shm_buffer s2 o a with
        | none => none
        | some (none, _) => none
        | some (some sb, s3) =>
          match wayland_output_update_shm_border s3 sb with
          | none => none
          | some s4 =>
            match s4.shm_buffers sb with
            | none => none
            | some buf =>
              let s5 := emit (emit (set_buffer s4 sb { buf with cleared := false })
                (host_call.pixman_set_buffer o sb))
                (host_call.renderer_repaint_output o buf.damage)
              match wayland_shm_buffer_attach s5 sb with
              | none => none
              | some s6 =>
                let s7 := emit (emit (emit s6 (host_call.surface_frame out.surface))
                  (host_call.surface_commit out.surface)) host_call.display_flush
                match s7.shm_buffers sb with
                | none => none
                | some buf7 =>
                  some (0, set_buffer s7 sb { buf7 with damage := [], frame_damaged := false })

/-- The function `wayland_output_update_gl_border`: the four border images are repainted
and handed to the renderer when the decoration asks for a repaint. -/
def wayland_output_update_gl_border (s : wayland_backend) (o : OutId) :
    Option wayland_backend :=
  match s.outputs o with
  | none => none
  | some out =>
    match out.frame with
    | none => some s
    | some f =>
      if f.status_repaint then some (emit s (host_call.renderer_output_set_border o))
      else some s

/-- The function `wayland_output_repaint_gl`; it returns 0. -/
def wayland_output_repaint_gl (s : wayland_backend) (o : OutId) (damage : region) :
    Option (Int × wayland_backend) :=
  match s.outputs o with
  | none => none
  | some out =>
    match wayland_output_update_gl_border (emit s (host_call.surface_frame out.surface)) o with
    | none => none
    | some s1 => some (0, emit s1 (host_call.renderer_repaint_output o damage))

/-- Modelled from the spec: the frame-finished notification of the generic renderer
layer, `weston_output_finish_frame`, which is not under src/.  The caller above is
informed that the frame has finished, so that it may issue the next repaint: the pending
frame of the output is over. -/
def weston_output_finish_frame (s : wayland_backend) (o : OutId) : Option wayland_backend :=
  match s.outputs o with
  | none => none
  | some out =>
    some (emit (set_output s o { out with frame_pending := false })
      (host_call.finish_frame o))

/-- The function `frame_done`, the listener of the frame callback of output `o`. -/
def frame_done (s : wayland_backend) (o : OutId) : Option wayland_backend :=
  weston_output_finish_frame (emit s host_call.callback_destroy) o

/-- Modelled from the spec: a repaint request of the generic renderer layer, which is
not under src/.  While a frame of the output is pending the request is queued and
nothing is painted; otherwise the repaint hook of the backend paints and submits, and
the frame is pending until its frame-complete signal. -/
def repaint_request (s : wayland_backend) (o : OutId) (damage : region) (a : shm_alloc) :
    Option wayland_backend :=
  match s.outputs o with
  | none => none
  | some out =>
    if out.frame_pending then some (set_output s o { out with repaint_needed := true })
    else
      let painted := if s.use_pixman then wayland_output_repaint_pixman s o damage a
        else wayland_output_repaint_gl s o damage
      match painted with
      | none => none
      | some (_, s1) =>
        match s1.outputs o with
        | none => none
        | some out1 =>
          some (set_output s1 o { out1 with frame_pending := true, repaint_needed := false })

/-! ## Configuration and host modes -/

/-- Store the descriptor `pout` at `p`. -/
def set_parent_output (s : wayland_backend) (p : Nat) (pout : wayland_parent_output) :
    wayland_backend :=
  { s with parent_outputs := Function.update s.parent_outputs p (some pout) }

/-- The largest value of a C `int`. -/
def INT_MAX : Int := 2147483647

/-- The product of two C `int`s; a product that is not a value of `int` is undefined
behaviour and has no result. -/
def int_mul (a b : Int) : Option Int :=
  if -INT_MAX - 1 ≤ a * b ∧ a * b ≤ INT_MAX then some (a * b) else none

/-- The function `wayland_output_configure`.  The field `configured` stands for the hooks
`repaint`, `start_repaint_loop` and `switch_mode`, which are assigned here. -/
def wayland_output_configure (s : wayland_backend) (o : OutId) (width height : Int) :
    Option (Int × wayland_backend) :=
  match s.outputs o with
  | none => none
  | some out =>
    if width < 1 then some (-1, s)
    else if height < 1 then some (-1, s)
    else
      match int_mul width out.base_scale, int_mul height out.base_scale with
      | some output_width, some output_height =>
        let mode : weston_mode :=
          { flags := Nat.lor WL_OUTPUT_MODE_CURRENT WL_OUTPUT_MODE_PREFERRED,
            width := output_width, height := output_height, refresh := 60000 }
        let s1 := { s with modes := Function.update s.modes out.mode mode }
        some (0, set_output s1 o
          { out with scale := out.base_scale, mode_list := [out.mode], mm_width := width,
                     mm_height := height, configured := true, current_mode := out.mode,
                     make := "wayland", model := "none" })
      | _, _ => none

/-- The functions `wayland_output_create_common` and `wayland_output_create`; the create
returns 0.  `alloc` is the result of `zalloc`, which is used without a test, and
`strdup_ok` tells whether the copy of the name can be made.  The name is stored in
`base.name`; the field `name` of the zeroed record stays null.  The record has its own
mode, which is a new mode; the model has no null mode pointer, so that the own mode
stands for the current mode of a record that was not configured. -/
def wayland_output_create (s : wayland_backend) (name : Option String)
    (alloc : Option OutId) (strdup_ok : Bool) : Option (Int × wayland_backend) :=
  match alloc with
  | none => none
  | some o =>
    let base_name := match name with
      | some n => if strdup_ok then some n else none
      | none => none
    let output : wayland_output :=
      { enabled := false, current_mode := s.next_mode, mode_list := [],
        draw_initial_frame := false, surface := none, parent_output := none,
        shell_surface := none, frame := none, egl_window := none, renderer_state := none,
        buffers := [], free_buffers := [], mode := s.next_mode, name := none,
        base_scale := 0, base_name := base_name }
    let zeroed : weston_mode := { flags := 0, width := 0, height := 0, refresh := 0 }
    let s1 := { s with modes := Function.update s.modes s.next_mode zeroed,
                       next_mode := s.next_mode + 1 }
    some (0, emit (set_output s1 o output) (host_call.output_init_pending o))

/-- The function `wayland_output_configure_hotplug`. -/
def wayland_output_configure_hotplug (s : wayland_backend) (o : OutId) :
    Option (Int × wayland_backend) :=
  match s.outputs o with
  | none => none
  | some out =>
    match out.user_data with
    | none => none
    | some p =>
      match s.parent_outputs p with
      | none => none
      | some poutput =>
        let chosen := match poutput.current_mode with
          | some m => some m
          | none =>
            match poutput.preferred_mode with
            | some m => some m
            | none => poutput.mode_list.head?
        match chosen with
        | none => some (-1, s)
        | some pm =>
          let s1 := set_output s o { out with poutput_mode := some pm }
          match wayland_output_configure s1 o (s1.modes pm).width (s1.modes pm).height with
          | none => none
          | some (ret, s2) =>
            if ret < 0 then some (-1, s2)
            else
              match s2.outputs o with
              | none => none
              | some out2 =>
                let s3 := set_output s2 o
                  { out2 with parent_output := poutput.global, make := poutput.make,
                              model := poutput.model, mode_list := poutput.mode_list }
                some (0, set_parent_output s3 p { poutput with mode_list := [] })

/-- The function `find_mode`: the first mode of the list with the given size and
refresh rate, or else a newly allocated mode put at the head of the list; the result is
the mode, if any, the list and the state. -/
def find_mode (s : wayland_backend) (list : List ModeId) (width height : Int)
    (refresh : Nat) (zalloc_ok : Bool) : Option ModeId × List ModeId × wayland_backend :=
  match list.find? (fun m => decide ((s.modes m).width = width)
      && decide ((s.modes m).height = height) && decide ((s.modes m).refresh = refresh)) with
  | some mode => (some mode, list, s)
  | none =>
    if zalloc_ok then
      let mode := s.next_mode
      let zeroed : weston_mode :=
        { flags := 0, width := width, height := height, refresh := refresh }
      (some mode, mode :: list,
        { s with modes := Function.update s.modes mode zeroed, next_mode := mode + 1 })
    else (none, list, s)

/-- The function `wayland_parent_output_mode`, the listener of the mode event of the
host output with descriptor `p`; the `int32_t` refresh rate is converted to the
`uint32_t` parameter of `find_mode`. -/
def wayland_parent_output_mode (s : wayland_backend) (p : Nat) (flags : Nat)
    (width height refresh : Int) (zalloc_ok : Bool) : Option wayland_backend :=
  match s.parent_outputs p with
  | none => none
  | some poutput =>
    match poutput.output with
    | some o =>
      match s.outputs o with
      | none => none
      | some out =>
        match find_mode s out.mode_list width height (refresh % 4294967296).toNat
          zalloc_ok with
        | (none, _, s1) => some s1
        | (some mode, list, s1) =>
          some (set_mode_flags (set_output s1 o { out with mode_list := list }) mode flags)
    | none =>
      match find_mode s poutput.mode_list width height (refresh % 4294967296).toNat
        zalloc_ok with
      | (none, _, s1) => some s1
      | (some mode, list, s1) =>
        let s2 := set_mode_flags s1 mode flags
        let current := if Nat.land flags WL_OUTPUT_MODE_CURRENT ≠ 0 then some mode
          else poutput.current_mode
        let preferred := if Nat.land flags WL_OUTPUT_MODE_PREFERRED ≠ 0 then some mode
          else poutput.preferred_mode
        some (set_parent_output s2 p
          { poutput with mode_list := list, current_mode := current,
                         preferred_mode := preferred })

/-! ## Pointer input -/

/-- Modelled from the spec: the classification of a point by the hit-test of the
decoration library, which is not under src/: the client content, for which the source
has the name `THEME_LOCATION_CLIENT_AREA`, or one of the affordances of the chrome. -/
inductive theme_location where
  | THEME_LOCATION_CLIENT_AREA
  | chrome (affordance : Nat)
deriving DecidableEq, Repr

/-- The fields of `struct wayland_input` that the handlers read and write. -/
structure wayland_input where
  enter_serial : Nat
  has_focus : Bool
  output : Option OutId
  key_serial : Nat := 0
  touch_points : Nat := 0
  touch_active : Bool := false
  touch_focus : Option OutId := none
  keyboard_focus : Option OutId := none
  seat_version : Nat := 0
deriving DecidableEq, Repr

/-- The function `input_set_cursor`: nothing is done when no cursor was loaded or when
its first image has no buffer; otherwise the cursor surface becomes the cursor of the
pointer and the image is attached to it and committed. -/
def input_set_cursor (s : wayland_backend) (input : wayland_input) : wayland_backend :=
  if s.cursor = false then s
  else if s.cursor_buffer = false then s
  else emit (emit s (host_call.pointer_set_cursor input.enter_serial true))
    host_call.cursor_surface_commit

/-- The function `input_handle_pointer_enter` for an enter event with serial `serial` on
the surface whose user data is `surface_output`.  The calls of the decoration library
and of the compositor core are parameters: `hit` is the result of `frame_pointer_enter`,
`repaint` says whether the decoration asks for a repaint after it, and `transform` is
`weston_output_transform_coordinate`.  The coordinates are the exact values of the
doubles. -/
def input_handle_pointer_enter (s : wayland_backend) (input : wayland_input) (serial : Nat)
    (surface_output : Option OutId) (fixed_x fixed_y : Int) (hit : theme_location)
    (repaint : Bool) (transform : OutId → Rat → Rat → Rat × Rat) :
    Option (wayland_backend × wayland_input) :=
  let x : Rat := (fixed_x : Rat) / 256
  let y : Rat := (fixed_y : Rat) / 256
  let input1 := { input with enter_serial := serial, output := surface_output }
  match surface_output with
  | none => none
  | some o =>
    match s.outputs o with
    | none => none
    | some out =>
      let entered : theme_location × Rat × Rat × wayland_backend :=
        match out.frame with
        | some f =>
          let s1 := set_output s o { out with frame := some { f with status_repaint := repaint } }
          (hit, x - f.interior_x, y - f.interior_y,
            if repaint then emit s1 (host_call.schedule_repaint o) else s1)
        | none => (theme_location.THEME_LOCATION_CLIENT_AREA, x, y, s)
      let location := entered.1
      let s2 := entered.2.2.2
      let xy := transform o entered.2.1 entered.2.2.1
      if location = theme_location.THEME_LOCATION_CLIENT_AREA then
        some (emit (emit s2 (host_call.notify_pointer_focus (some o) xy.1 xy.2))
          (host_call.pointer_set_cursor serial false), { input1 with has_focus := true })
      else
        some (input_set_cursor (emit s2 (host_call.notify_pointer_focus none 0 0))
          { input1 with has_focus := false }, { input1 with has_focus := false })

/-! ## Host outputs -/

/-- The function `wayland_output_create_for_parent_output`; it returns 0.  `alloc` is the
result of `zalloc`, which is used without a test.  The descriptor is written to the user
data of the output; the descriptor itself is not written. -/
def wayland_output_create_for_parent_output (s : wayland_backend) (p : Nat)
    (alloc : Option OutId) : Option (Int × wayland_backend) :=
  match alloc with
  | none => none
  | some o =>
    let output : wayland_output :=
      { enabled := false, current_mode := s.next_mode, mode_list := [],
        draw_initial_frame := false, surface := none, parent_output := none,
        shell_surface := none, frame := none, egl_window := none, renderer_state := none,
        buffers := [], free_buffers := [], mode := s.next_mode, name := none,
        base_scale := 0, base_name := none, user_data := some p }
    let zeroed : weston_mode := { flags := 0, width := 0, height := 0, refresh := 0 }
    let s1 := { s with modes := Function.update s.modes s.next_mode zeroed,
                       next_mode := s.next_mode + 1 }
    some (0, emit (set_output s1 o output) (host_call.output_init_pending o))

/-- The function `wayland_backend_register_output` for the global `id`: `alloc` is the
result of the `zalloc` of the descriptor, `global` the result of `wl_registry_bind`, and
`alloc_output` the result of the `zalloc` of the output of a sprawling backend. -/
def wayland_backend_register_output (s : wayland_backend) (id : Nat) (alloc : Option Nat)
    (global : Option Nat) (alloc_output : Option OutId) : Option wayland_backend :=
  match alloc with
  | none => some s
  | some p =>
    match global with
    | none => some s
    | some g =>
      let output : wayland_parent_output :=
        { output := none, global := some g, id := id, mode_list := [],
          preferred_mode := none, current_mode := none }
      let s1 := { set_parent_output s p output with
        parent_output_list := p :: s.parent_output_list }
      if s.sprawl_across_outputs then
        match wayland_output_create_for_parent_output
            (emit s1 host_call.display_roundtrip) p alloc_output with
        | none => none
        | some (_, s2) => some s2
      else some s1

/-- The function `wayland_parent_output_destroy`: the output of the descriptor, if the
descriptor has one, is destroyed, then the host object, and the modes of the
descriptor are freed. -/
def wayland_parent_output_destroy (s : wayland_backend) (p : Nat) : Option wayland_backend :=
  match s.parent_outputs p with
  | none => none
  | some output =>
    let destroyed := match output.output with
      | some o => wayland_output_destroy s o
      | none => some s
    match destroyed with
    | none => none
    | some s1 =>
      some (set_parent_output (emit s1 (host_call.wl_output_destroy output.global)) p
        { output with mode_list := [] })

/-- The loop of `registry_handle_global_remove` over the descriptors of a list. -/
def destroy_named (name : Nat) : wayland_backend → List Nat → Option wayland_backend
  | s, [] => some s
  | s, p :: rest =>
    match s.parent_outputs p with
    | none => none
    | some output =>
      if output.id = name then
        match wayland_parent_output_destroy s p with
        | none => none
        | some s1 => destroy_named name s1 rest
      else destroy_named name s rest

/-- The function `registry_handle_global_remove`. -/
def registry_handle_global_remove (s : wayland_backend) (name : Nat) :
    Option wayland_backend :=
  destroy_named name s s.parent_output_list

/-! ## Pointer motion and buttons -/

/-- The value of `WL_POINTER_FRAME_SINCE_VERSION`. -/
def WL_POINTER_FRAME_SINCE_VERSION : Nat := 5

/-- The status bits of a decoration that the handlers test after a call of the
decoration library: `FRAME_STATUS_REPAINT`, `FRAME_STATUS_MOVE` and
`FRAME_STATUS_CLOSE`. -/
structure frame_status where
  repaint : Bool
  move : Bool
  close : Bool
deriving DecidableEq, Repr

/-- The function `input_handle_motion`.  `hit` is the result of `frame_pointer_motion`,
`repaint` says whether the decoration asks for a repaint after it, and `transform` is
`weston_output_transform_coordinate`. -/
def input_handle_motion (s : wayland_backend) (input : wayland_input) (time : Nat)
    (fixed_x fixed_y : Int) (hit : theme_location) (repaint : Bool)
    (transform : OutId → Rat → Rat → Rat × Rat) :
    Option (wayland_backend × wayland_input) :=
  match input.output with
  | none => some (s, input)
  | some o =>
    match s.outputs o with
    | none => none
    | some out =>
      let x : Rat := (fixed_x : Rat) / 256
      let y : Rat := (fixed_y : Rat) / 256
      let moved : theme_location × Rat × Rat × wayland_backend :=
        match out.frame with
        | some f =>
          let s1 := set_output s o { out with frame := some { f with status_repaint := repaint } }
          (hit, x - f.interior_x, y - f.interior_y,
            if repaint then emit s1 (host_call.schedule_repaint o) else s1)
        | none => (theme_location.THEME_LOCATION_CLIENT_AREA, x, y, s)
      let location := moved.1
      let s2 := moved.2.2.2
      let xy := transform o moved.2.1 moved.2.2.1
      let focused : wayland_backend × wayland_input × Bool :=
        if input.has_focus = true ∧ location ≠ theme_location.THEME_LOCATION_CLIENT_AREA then
          (emit (input_set_cursor s2 input) (host_call.notify_pointer_focus none 0 0),
            { input with has_focus := false }, true)
        else if input.has_focus = false
            ∧ location = theme_location.THEME_LOCATION_CLIENT_AREA then
          (emit (emit s2 (host_call.pointer_set_cursor input.enter_serial false))
            (host_call.notify_pointer_focus (some o) xy.1 xy.2),
            { input with has_focus := true }, true)
        else (s2, input, false)
      let s3 := focused.1
      let moved_in : wayland_backend × Bool :=
        if location = theme_location.THEME_LOCATION_CLIENT_AREA then
          (emit s3 (host_call.seat (seat_call.notify_motion_absolute time xy.1 xy.2)), true)
        else (s3, focused.2.2)
      let s5 := if moved_in.2 = true ∧ input.seat_version < WL_POINTER_FRAME_SINCE_VERSION
        then emit moved_in.1 (host_call.seat seat_call.notify_pointer_frame)
        else moved_in.1
      some (s5, focused.2.1)

/-- Last part of `input_handle_button`: the button is forwarded when the location is
the client area. -/
def button_forward (s : wayland_backend) (input : wayland_input) (time button state : Nat)
    (location : theme_location) : wayland_backend :=
  if location = theme_location.THEME_LOCATION_CLIENT_AREA then
    let s1 := emit s (host_call.seat (seat_call.notify_button time button state))
    if input.seat_version < WL_POINTER_FRAME_SINCE_VERSION then
      emit s1 (host_call.seat seat_call.notify_pointer_frame)
    else s1
  else s

/-- The function `input_handle_button`.  `hit` is the result of `frame_pointer_button`,
`st` the status of the decoration after it, and `output_list_empty` the result of
`wl_list_empty (&compositor->output_list)` after the output was destroyed. -/
def input_handle_button (s : wayland_backend) (input : wayland_input)
    (serial time button state_w : Nat) (hit : theme_location) (st : frame_status)
    (output_list_empty : Bool) : Option (wayland_backend × wayland_input) :=
  match input.output with
  | none => some (s, input)
  | some o =>
    match s.outputs o with
    | none => none
    | some out =>
      match out.frame with
      | some f =>
        let s1 := set_output s o
          { out with frame := some { f with status_repaint := st.repaint } }
        if st.move then
          some (emit s1 (host_call.shell_surface_move out.shell_surface serial), input)
        else if st.close then
          match wayland_output_destroy s1 o with
          | none => none
          | some s2 =>
            some (if output_list_empty then emit s2 host_call.compositor_exit else s2,
              { input with output := none, keyboard_focus := none })
        else
          let s2 := if st.repaint then emit s1 (host_call.schedule_repaint o) else s1
          some (button_forward s2 input time button state_w hit, input)
      | none =>
        some (button_forward s input time button state_w
          theme_location.THEME_LOCATION_CLIENT_AREA, input)

/-! ## Touch input -/

/-- The value of `WL_TOUCH_DOWN`. -/
def WL_TOUCH_DOWN : Nat := 0

/-- The value of `WL_TOUCH_UP`. -/
def WL_TOUCH_UP : Nat := 1

/-- The value of `WL_TOUCH_MOTION`. -/
def WL_TOUCH_MOTION : Nat := 2

/-- The increment of a `uint32_t`. -/
def uint32_incr (n : Nat) : Nat := (n + 1) % 4294967296

/-- The decrement of a `uint32_t`. -/
def uint32_decr (n : Nat) : Nat := (n + 4294967295) % 4294967296

/-- The function `input_handle_touch_down` for a touch on the surface whose user data is
`surface_output`.  `hit` is the result of `frame_touch_down`, `st` the status of the
decoration after it, and `transform` is `weston_output_transform_coordinate`. -/
def input_handle_touch_down (s : wayland_backend) (input : wayland_input)
    (serial time : Nat) (surface_output : Option OutId) (id : Int) (fixed_x fixed_y : Int)
    (hit : theme_location) (st : frame_status)
    (transform : OutId → Rat → Rat → Rat × Rat) :
    Option (wayland_backend × wayland_input) :=
  let x : Rat := (fixed_x : Rat) / 256
  let y : Rat := (fixed_y : Rat) / 256
  let first_touch := decide (input.touch_points = 0)
  let input1 := { input with touch_points := uint32_incr input.touch_points,
                             touch_focus := surface_output }
  if first_touch = false ∧ input.touch_active = false then some (s, input1)
  else
    match surface_output with
    | none => none
    | some o =>
      match s.outputs o with
      | none => none
      | some out =>
        match out.frame with
        | some f =>
          let s1 := set_output s o
            { out with frame := some { f with status_repaint := st.repaint } }
          let s2 := if st.repaint then emit s1 (host_call.schedule_repaint o) else s1
          if first_touch = true ∧ st.move = true then
            some (emit s2 (host_call.shell_surface_move out.shell_surface serial),
              { input1 with touch_points := uint32_decr input1.touch_points })
          else if first_touch = true
              ∧ hit ≠ theme_location.THEME_LOCATION_CLIENT_AREA then
            some (s2, input1)
          else
            let xy := transform o (x - f.interior_x) (y - f.interior_y)
            some (emit s2 (host_call.seat
              (seat_call.notify_touch time id xy.1 xy.2 WL_TOUCH_DOWN)),
              { input1 with touch_active := true })
        | none =>
          let xy := transform o x y
          some (emit s (host_call.seat
            (seat_call.notify_touch time id xy.1 xy.2 WL_TOUCH_DOWN)),
            { input1 with touch_active := true })

/-- The function `input_handle_touch_up`.  `st` is the status of the decoration after
`frame_touch_up`, and `output_list_empty` the result of
`wl_list_empty (&compositor->output_list)` after the output was destroyed. -/
def input_handle_touch_up (s : wayland_backend) (input : wayland_input)
    (_serial time : Nat) (id : Int) (st : frame_status) (output_list_empty : Bool) :
    Option (wayland_backend × wayland_input) :=
  let output := input.touch_focus
  let active := input.touch_active
  let points := uint32_decr input.touch_points
  let input1 : wayland_input :=
    if points = 0 then
      { input with touch_points := points, touch_focus := none, touch_active := false }
    else { input with touch_points := points }
  match output with
  | none => some (s, input1)
  | some o =>
    match s.outputs o with
    | none => none
    | some out =>
      let forwarded (s3 : wayland_backend) : wayland_backend :=
        if active then
          emit s3 (host_call.seat (seat_call.notify_touch time id 0 0 WL_TOUCH_UP))
        else s3
      match out.frame with
      | some f =>
        let s1 := set_output s o
          { out with frame := some { f with status_repaint := st.repaint } }
        if st.close then
          match wayland_output_destroy s1 o with
          | none => none
          | some s2 =>
            some (if output_list_empty then emit s2 host_call.compositor_exit else s2,
              { input1 with touch_focus := none, keyboard_focus := none })
        else
          let s2 := if st.repaint then emit s1 (host_call.schedule_repaint o) else s1
          some (forwarded s2, input1)
      | none => some (forwarded s, input1)

/-- The function `input_handle_touch_motion`. -/
def input_handle_touch_motion (s : wayland_backend) (input : wayland_input) (time : Nat)
    (id : Int) (fixed_x fixed_y : Int) (transform : OutId → Rat → Rat → Rat × Rat) :
    Option (wayland_backend × wayland_input) :=
  let x : Rat := (fixed_x : Rat) / 256
  let y : Rat := (fixed_y : Rat) / 256
  match input.touch_focus with
  | none => some (s, input)
  | some o =>
    if input.touch_active = false then some (s, input)
    else
      match s.outputs o with
      | none => none
      | some out =>
        let xy := match out.frame with
          | some f => transform o (x - f.interior_x) (y - f.interior_y)
          | none => transform o x y
        some (emit s (host_call.seat
          (seat_call.notify_touch time id xy.1 xy.2 WL_TOUCH_MOTION)), input)

/-- The function `input_handle_touch_frame`. -/
def input_handle_touch_frame (s : wayland_backend) (input : wayland_input) :
    wayland_backend × wayland_input :=
  if input.touch_focus.isNone ∨ input.touch_active = false then (s, input)
  else (emit s (host_call.seat seat_call.notify_touch_frame), input)

/-- The function `input_handle_touch_cancel`. -/
def input_handle_touch_cancel (s : wayland_backend) (input : wayland_input) :
    wayland_backend × wayland_input :=
  if input.touch_focus.isNone ∨ input.touch_active = false then (s, input)
  else (emit s (host_call.seat seat_call.notify_touch_cancel), input)

/-- The touch events of the host, each with the answers of the decoration library and
of the compositor core that its handler asks for. -/
inductive touch_event where
  | down (serial time : Nat) (surface_output : Option OutId) (id : Int)
      (fixed_x fixed_y : Int) (hit : theme_location) (st : frame_status)
  | up (serial time : Nat) (id : Int) (st : frame_status) (output_list_empty : Bool)
  | motion (time : Nat) (id : Int) (fixed_x fixed_y : Int)
  | frame
  | cancel

/-- The dispatch of a touch event to its handler of `touch_listener`. -/
def touch_dispatch (transform : OutId → Rat → Rat → Rat × Rat)
    (c : wayland_backend × wayland_input) : touch_event →
    Option (wayland_backend × wayland_input)
  | touch_event.down serial time surface_output id fixed_x fixed_y hit st =>
    input_handle_touch_down c.1 c.2 serial time surface_output id fixed_x fixed_y hit st
      transform
  | touch_event.up serial time id st output_list_empty =>
    input_handle_touch_up c.1 c.2 serial time id st output_list_empty
  | touch_event.motion time id fixed_x fixed_y =>
    input_handle_touch_motion c.1 c.2 time id fixed_x fixed_y transform
  | touch_event.frame => some (input_handle_touch_frame c.1 c.2)
  | touch_event.cancel => some (input_handle_touch_cancel c.1 c.2)

/-! ## Keyboard input -/

/-- The function `input_handle_key`. -/
def input_handle_key (s : wayland_backend) (input : wayland_input)
    (serial time key state : Nat) : wayland_backend × wayland_input :=
  (emit s (host_call.seat (seat_call.notify_key time key (decide (state ≠ 0)))),
    { input with key_serial := serial })

/-- The function `input_handle_modifiers`.  `current_serial` and `next_serial` are what
`wl_display_get_serial` and `wl_display_next_serial` return when they are called, and
`has_keyboard` tells whether the seat has a keyboard, whose state is used without a
test. -/
def input_handle_modifiers (s : wayland_backend) (input : wayland_input)
    (serial_in mods_depressed mods_latched mods_locked group : Nat)
    (current_serial next_serial : Nat) (has_keyboard : Bool) : Option wayland_backend :=
  let asked : wayland_backend × Nat :=
    if serial_in = input.key_serial then
      (emit s (host_call.seat seat_call.display_get_serial), current_serial)
    else (emit s (host_call.seat seat_call.display_next_serial), next_serial)
  if has_keyboard then
    some (emit (emit asked.1 (host_call.seat
      (seat_call.xkb_state_update_mask mods_depressed mods_latched mods_locked group)))
      (host_call.seat (seat_call.notify_modifiers asked.2)))
  else none

/-! ## Predicates used by the statements -/

/-- Mode `m` equals the reference in width, height and refresh. -/
def mode_matches_exact (modes : ModeId → weston_mode) (ref_mode : weston_mode)
    (m : ModeId) : Prop :=
  (modes m).width = ref_mode.width ∧ (modes m).height = ref_mode.height ∧
    (modes m).refresh = ref_mode.refresh

/-- Mode `m` equals the reference in width and height. -/
def mode_matches_size (modes : ModeId → weston_mode) (ref_mode : weston_mode)
    (m : ModeId) : Prop :=
  (modes m).width = ref_mode.width ∧ (modes m).height = ref_mode.height

/-- Mode `m` is the first element of `l` that satisfies `p`. -/
def first_in_list (p : ModeId → Prop) (l : List ModeId) (m : ModeId) : Prop :=
  ∃ pre post, l = pre ++ m :: post ∧ p m ∧ ∀ x ∈ pre, ¬ p x

/-- The buffer with its owner reference cleared. -/
def orphaned (sb : wayland_shm_buffer) : wayland_shm_buffer := { sb with output := none }

/-- The output with the buffers of `bs` unlinked from both of its lists. -/
def remove_buffers (bs : List BufId) (out : wayland_output) : wayland_output :=
  { out with buffers := out.buffers.filter (fun x => x ∉ bs),
             free_buffers := out.free_buffers.filter (fun x => x ∉ bs) }

/-- A backend with one enabled output of 800 by 600 and an empty buffer pool. -/
def sample_output : wayland_output :=
  { enabled := true, current_mode := 0, mode_list := [0, 1], draw_initial_frame := false,
    surface := some 1, parent_output := some 7, shell_surface := none, frame := none,
    egl_window := none, renderer_state := some 1, buffers := [], free_buffers := [],
    width := 800, height := 600 }

/-- The modes of the sample backend: mode 0 is 800 by 600 and current, every other mode
is 1024 by 768. -/
def sample_modes (m : ModeId) : weston_mode :=
  if m = 0 then { flags := 3, width := 800, height := 600, refresh := 60000 }
  else { flags := 0, width := 1024, height := 768, refresh := 60000 }

/-- A backend on the software renderer whose host has a fullscreen shell, with
`sample_output` as output 0. -/
def sample_backend : wayland_backend :=
  { use_pixman := true, fshell := true,
    outputs := fun o => if o = 0 then some sample_output else none,
    shm_buffers := fun _ => none,
    modes := sample_modes,
    next_buffer := 0, next_surface := 2, next_egl_window := 0, next_renderer_state := 2,
    log := [] }

/-- The record that the allocating path of `wayland_output_get_shm_buffer` fills in for
output `o`. -/
def acquired_buffer (s : wayland_backend) (o : OutId) (out : wayland_output) :
    wayland_shm_buffer :=
  { output := some o,
    width := (match out.frame with
      | some f => frame_width f
      | none => (s.modes out.current_mode).width),
    height := (match out.frame with
      | some f => frame_height f
      | none => (s.modes out.current_mode).height),
    stride := cairo_format_stride_for_width (match out.frame with
      | some f => frame_width f
      | none => (s.modes out.current_mode).width),
    size := (match out.frame with
      | some f => frame_height f
      | none => (s.modes out.current_mode).height) *
        cairo_format_stride_for_width (match out.frame with
          | some f => frame_width f
          | none => (s.modes out.current_mode).width),
    frame_damaged := true,
    damage := [{ x := 0, y := 0, width := out.width, height := out.height }],
    cleared := true }

/-- The state in which the allocating path of `wayland_output_get_shm_buffer` ends. -/
def acquired_state (s : wayland_backend) (o : OutId) (out : wayland_output) :
    wayland_backend :=
  emit { set_output (set_buffer s s.next_buffer (acquired_buffer s o out)) o
      { out with buffers := s.next_buffer :: out.buffers }
    with next_buffer := s.next_buffer + 1 }
    (host_call.shm_create_buffer s.next_buffer (acquired_buffer s o out).width
      (acquired_buffer s o out).height (acquired_buffer s o out).stride)

/-- The state in which `wayland_shm_buffer_destroy` of a live buffer ends. -/
def destroyed_state (s : wayland_backend) (b : BufId) : wayland_backend :=
  { s with
    shm_buffers := Function.update s.shm_buffers b none
    outputs := fun o => (s.outputs o).map (unlink_buffer b)
    log := s.log ++ [host_call.buffer_destroy b] }

/-- The state in which `destroy_buffers` of live, distinct buffers ends. -/
def destroyed_all (s : wayland_backend) (bs : List BufId) : wayland_backend :=
  { s with
    shm_buffers := fun x => if x ∈ bs then none else s.shm_buffers x
    outputs := fun o => (s.outputs o).map (remove_buffers bs)
    log := s.log ++ bs.map host_call.buffer_destroy }

/-- The state in which `orphan_buffers` of live buffers ends. -/
def orphaned_all (s : wayland_backend) (bs : List BufId) : wayland_backend :=
  { s with
    shm_buffers := fun x => if x ∈ bs then (s.shm_buffers x).map orphaned
      else s.shm_buffers x }

/-- The state in which `wayland_output_resize_surface` ends on a well-formed pool. -/
def resized_state (s : wayland_backend) (o : OutId) (out : wayland_output) :
    wayland_backend :=
  orphaned_all (destroyed_all (resize_surface_geometry s o out) out.free_buffers)
    (out.buffers.filter (fun x => x ∉ out.free_buffers))

/-- Every buffer of the list is live. -/
def all_live (s : wayland_backend) (bs : List BufId) : Prop :=
  ∀ b ∈ bs, ∃ sb, s.shm_buffers b = some sb

/-- A buffer record with the geometry of the sample output and the given owner. -/
def sample_buffer (owner : Option OutId) : wayland_shm_buffer :=
  { output := owner, width := 800, height := 600, stride := 3200, size := 1920000,
    frame_damaged := false }

/-- The sample output with buffers 1 and 0 allocated; buffer 0 is on the free list and
buffer 1 is in use. -/
def sample_pool_output : wayland_output :=
  { sample_output with buffers := [1, 0], free_buffers := [0] }

/-- The sample backend with the pool of `sample_pool_output`. -/
def sample_pool : wayland_backend :=
  { sample_backend with
    outputs := fun o => if o = 0 then some sample_pool_output else none
    shm_buffers := fun b => if b < 2 then some (sample_buffer (some 0)) else none
    next_buffer := 2 }

/-- Well-formedness of the buffer pools of a backend: identifiers from the allocation
counter on are unused; a listed buffer is live and owned by the listing output or by
nobody; a buffer on a free list is listed by the same output and owned by it; a free list
has no repetition; the owner of a live buffer is a live output that lists it. -/
structure pool_inv (s : wayland_backend) : Prop where
  fresh : ∀ b, s.next_buffer ≤ b → s.shm_buffers b = none
  listed : ∀ o out, s.outputs o = some out → ∀ b ∈ out.buffers,
    ∃ sb, s.shm_buffers b = some sb ∧ (sb.output = none ∨ sb.output = some o)
  free_owned : ∀ o out, s.outputs o = some out → ∀ b ∈ out.free_buffers,
    b ∈ out.buffers ∧ ∃ sb, s.shm_buffers b = some sb ∧ sb.output = some o
  free_nodup : ∀ o out, s.outputs o = some out → out.free_buffers.Nodup
  owner_live : ∀ b sb o, s.shm_buffers b = some sb → sb.output = some o →
    ∃ out, s.outputs o = some out ∧ b ∈ out.buffers

/-- Buffer `b` is in use: it is live and on no free list. -/
def buffer_in_use (s : wayland_backend) (b : BufId) : Prop :=
  (∃ sb, s.shm_buffers b = some sb) ∧
    ∀ o out, s.outputs o = some out → b ∉ out.free_buffers

/-- No buffer exists and the lists of every output are empty. -/
def empty_pools (s : wayland_backend) : Prop :=
  (∀ b, s.shm_buffers b = none) ∧
    ∀ o out, s.outputs o = some out → out.buffers = [] ∧ out.free_buffers = []

/-- The states reached from `s0` by sequences of `wayland_output_get_shm_buffer`,
`buffer_release` of a buffer in use and `wayland_output_resize_surface`, on any output. -/
inductive pool_reachable (s0 : wayland_backend) : wayland_backend → Prop where
  | init : pool_reachable s0 s0
  | acquire (s : wayland_backend) (o : OutId) (a : shm_alloc)
      (r : Option BufId × wayland_backend) :
      pool_reachable s0 s → wayland_output_get_shm_buffer s o a = some r →
      pool_reachable s0 r.2
  | release (s : wayland_backend) (b : BufId) (s1 : wayland_backend) :
      pool_reachable s0 s → buffer_in_use s b → buffer_release s b = some s1 →
      pool_reachable s0 s1
  | resize (s : wayland_backend) (o : OutId) (s1 : wayland_backend) :
      pool_reachable s0 s → wayland_output_resize_surface s o = some s1 →
      pool_reachable s0 s1

/-- The two records of an output agree on every field but the buffer lists, the
decoration and the bootstrap flag. -/
structure same_identity (out out1 : wayland_output) : Prop where
  enabled : out1.enabled = out.enabled
  current_mode : out1.current_mode = out.current_mode
  mode_list : out1.mode_list = out.mode_list
  surface : out1.surface = out.surface
  parent_output : out1.parent_output = out.parent_output
  shell_surface : out1.shell_surface = out.shell_surface
  egl_window : out1.egl_window = out.egl_window
  renderer_state : out1.renderer_state = out.renderer_state

/-- From `s` to `s1` the modes and the configuration of the backend are unchanged,
output `o`, if live, stays live with the same identity, and the log only grows. -/
structure output_kept (o : OutId) (s s1 : wayland_backend) : Prop where
  modes : s1.modes = s.modes
  use_pixman : s1.use_pixman = s.use_pixman
  output : ∀ out, s.outputs o = some out →
    ∃ out1, s1.outputs o = some out1 ∧ same_identity out out1
  log : ∃ l, s1.log = s.log ++ l

/-- Every buffer released by the events of one dispatch is in use when its release is
delivered. -/
def events_valid : wayland_backend → mode_status → List host_event → Prop
  | _, _, [] => True
  | s, st, e :: es =>
    (match e with
      | host_event.release b => buffer_in_use s b
      | _ => True) ∧
    (match handle_event s st e with
      | none => True
      | some (s1, st1) => events_valid s1 st1 es)

/-- Every buffer released during the wait of `dispatch_loop` is in use when its release
is delivered. -/
def dispatch_valid : wayland_backend → mode_status → Int → List dispatch_result → Prop
  | _, _, _, [] => True
  | s, st, ret, d :: ds =>
    if st = mode_status.MODE_STATUS_UNKNOWN ∧ 0 ≤ ret then
      events_valid s st d.events ∧
      (match handle_events s st d.events with
        | none => True
        | some (s1, st1) => dispatch_valid s1 st1 d.ret ds)
    else True

/-- A request for a mode of 1024 by 768 at 60 Hz. -/
def sample_request : weston_mode :=
  { flags := 0, width := 1024, height := 768, refresh := 60000 }

/-- What a failed call has to preserve of an output: its current mode, its surface and
its renderer context. -/
def output_presentation (s : wayland_backend) (o : OutId) :
    Option (ModeId × Option SurfId × Option CtxId) :=
  (s.outputs o).map (fun out => (out.current_mode, out.surface, out.renderer_state))

/-- The sample backend after one acquire on output 0. -/
def sample_acquired : wayland_backend := acquired_state sample_backend 0 sample_output

/-- The sample backend after one acquire on output 0 and the release of the acquired
buffer: buffer 0 is on the free list of output 0. -/
def sample_recycled : wayland_backend :=
  set_output sample_acquired 0 { sample_output with buffers := [0], free_buffers := [0] }

/-- One dispatch in which the host answers the mode switch with a failure. -/
def dispatch_failed : List dispatch_result :=
  [{ events := [host_event.mode_feedback_failed], ret := 1 }]

/-- One dispatch in which the host answers the mode switch with a success. -/
def dispatch_successful : List dispatch_result :=
  [{ events := [host_event.mode_feedback_successful], ret := 1 }]

/-- The states reached from `s0` by sequences of `wayland_output_get_shm_buffer`,
`buffer_release` of a buffer in use other than `b` and `wayland_output_resize_surface`:
what can happen to the pools before the host releases buffer `b`. -/
inductive reachable_before_release (b : BufId) (s0 : wayland_backend) :
    wayland_backend → Prop where
  | init : reachable_before_release b s0 s0
  | acquire (s : wayland_backend) (o : OutId) (a : shm_alloc)
      (r : Option BufId × wayland_backend) :
      reachable_before_release b s0 s → wayland_output_get_shm_buffer s o a = some r →
      reachable_before_release b s0 r.2
  | release (s : wayland_backend) (b1 : BufId) (s1 : wayland_backend) :
      reachable_before_release b s0 s → b1 ≠ b → buffer_in_use s b1 →
      buffer_release s b1 = some s1 → reachable_before_release b s0 s1
  | resize (s : wayland_backend) (o : OutId) (s1 : wayland_backend) :
      reachable_before_release b s0 s → wayland_output_resize_surface s o = some s1 →
      reachable_before_release b s0 s1

/-- The mode carries the current flag: `flags & WL_OUTPUT_MODE_CURRENT` is not zero. -/
def mode_is_current (m : weston_mode) : Prop :=
  Nat.land m.flags WL_OUTPUT_MODE_CURRENT ≠ 0

/-- A request that neither destroys a surface nor creates a renderer context. -/
def quiet_call : host_call → Prop
  | host_call.surface_destroy _ => False
  | host_call.renderer_output_create _ => False
  | _ => True

/-- From `s` to `s1` the modes and the renderer choice of the backend are unchanged,
output `o`, if live, stays live with the same identity, and the log grows by requests
that neither destroy a surface nor create a renderer context. -/
structure switch_kept (o : OutId) (s s1 : wayland_backend) : Prop where
  modes : s1.modes = s.modes
  use_pixman : s1.use_pixman = s.use_pixman
  next_renderer_state : s1.next_renderer_state = s.next_renderer_state
  next_egl_window : s1.next_egl_window = s.next_egl_window
  output : ∀ out, s.outputs o = some out →
    ∃ out1, s1.outputs o = some out1 ∧ same_identity out out1
  log : ∃ l, s1.log = s.log ++ l ∧ ∀ c ∈ l, quiet_call c

/-- One dispatch that fails (the transport is down) before any answer of the host. -/
def dispatch_error : List dispatch_result :=
  [{ events := [], ret := -1 }]

/-- Both steps of the creation of a renderer context succeed. -/
def renderer_ok : renderer_outcome := { egl_window_ok := true, output_create_ok := true }

/-- An output that was configured but not enabled: no surface, no renderer context. -/
def sample_created_output : wayland_output :=
  { enabled := false, current_mode := 0, mode_list := [0], draw_initial_frame := false,
    surface := none, parent_output := none, shell_surface := none, frame := none,
    egl_window := none, renderer_state := none, buffers := [], free_buffers := [],
    width := 800, height := 600, configured := true }

/-- A windowed backend on the software renderer whose host has a desktop shell, with
`sample_created_output` as output 0. -/
def sample_created : wayland_backend :=
  { use_pixman := true, fshell := false, shell := true,
    outputs := fun o => if o = 0 then some sample_created_output else none,
    shm_buffers := fun _ => none,
    modes := sample_modes,
    next_buffer := 0, next_surface := 0, next_egl_window := 0, next_renderer_state := 0,
    log := [] }

/-- Every allocation of `wayland_output_set_windowed` succeeds; the chrome of the
decoration takes 64 by 96 pixels. -/
def windowed_ok : windowed_outcome :=
  { title_ok := true, theme_ok := true, frame_ok := true, decoration_width := 64,
    decoration_height := 96 }

/-- Every allocation of an enable succeeds. -/
def enable_ok : enable_outcome :=
  { surface_ok := true, shell_surface_ok := true, renderer := renderer_ok,
    windowed := windowed_ok }

/-- Only the creation of the decoration fails. -/
def decoration_fails : enable_outcome :=
  { enable_ok with windowed := { windowed_ok with frame_ok := false } }

/-- Only the creation of the renderer context fails. -/
def context_fails : enable_outcome :=
  { enable_ok with renderer := { egl_window_ok := true, output_create_ok := false } }

/-- The resources of the host and of the libraries that an output holds. -/
inductive resource_kind where
  | surface
  | shell_surface
  | renderer
  | decoration
deriving DecidableEq, Repr

/-- The resource that a request acquires, if it acquires one. -/
def acquired_kind : host_call → Option resource_kind
  | host_call.surface_create _ => some resource_kind.surface
  | host_call.shell_surface_create _ _ => some resource_kind.shell_surface
  | host_call.renderer_output_create _ => some resource_kind.renderer
  | host_call.frame_create _ => some resource_kind.decoration
  | _ => none

/-- The resource that a request releases, if it releases one. -/
def released_kind : host_call → Option resource_kind
  | host_call.surface_destroy _ => some resource_kind.surface
  | host_call.shell_surface_destroy _ => some resource_kind.shell_surface
  | host_call.renderer_output_destroy _ => some resource_kind.renderer
  | host_call.frame_destroy => some resource_kind.decoration
  | _ => none

/-- The requests with which `wayland_output_disable` tears an enabled output down. -/
def disable_calls (out : wayland_output) : List host_call :=
  [host_call.renderer_output_destroy out.renderer_state,
   host_call.egl_window_destroy out.egl_window,
   host_call.surface_destroy out.surface]
  ++ (match out.shell_surface with
    | some sh => [host_call.shell_surface_destroy sh]
    | none => [])
  ++ (match out.frame with
    | some _ => [host_call.frame_destroy]
    | none => [])

/-- The state after a successful `wayland_output_enable` of output 0 of the sample, with
the flag `enabled` set as the compositor core sets it after the hook returned 0. -/
def sample_enabled : Option wayland_backend :=
  match wayland_output_enable sample_created 0 enable_ok with
  | some (_, s) =>
    (s.outputs 0).map (fun out => set_output s 0 { out with enabled := true })
  | none => none

/-- The bootstrap frame of output `o` is not due: the flag `draw_initial_frame` is
clear. -/
def bootstrap_done (o : OutId) (s : wayland_backend) : Prop :=
  ∀ out, s.outputs o = some out → out.draw_initial_frame = false

/-- The states reached from `s0` by repaint loops, repaints, frame-complete signals,
buffer releases and resizes of the surface, on any output: everything but an enable and
a mode switch. -/
inductive after_bootstrap (s0 : wayland_backend) : wayland_backend → Prop where
  | init : after_bootstrap s0 s0
  | loop (s : wayland_backend) (o : OutId) (a : shm_alloc) (s1 : wayland_backend) :
      after_bootstrap s0 s → wayland_output_start_repaint_loop s o a = some s1 →
      after_bootstrap s0 s1
  | pixman (s : wayland_backend) (o : OutId) (damage : region) (a : shm_alloc)
      (r : Int × wayland_backend) :
      after_bootstrap s0 s → wayland_output_repaint_pixman s o damage a = some r →
      after_bootstrap s0 r.2
  | gl (s : wayland_backend) (o : OutId) (damage : region) (r : Int × wayland_backend) :
      after_bootstrap s0 s → wayland_output_repaint_gl s o damage = some r →
      after_bootstrap s0 r.2
  | frame (s : wayland_backend) (o : OutId) (s1 : wayland_backend) :
      after_bootstrap s0 s → frame_done s o = some s1 → after_bootstrap s0 s1
  | release (s : wayland_backend) (b : BufId) (s1 : wayland_backend) :
      after_bootstrap s0 s → buffer_release s b = some s1 → after_bootstrap s0 s1
  | resize (s : wayland_backend) (o : OutId) (s1 : wayland_backend) :
      after_bootstrap s0 s → wayland_output_resize_surface s o = some s1 →
      after_bootstrap s0 s1

/-- The requests of a repaint loop that draws the bootstrap frame into buffer `b`. -/
def bootstrap_calls (s : wayland_backend) (o : OutId) (out : wayland_output) (b : BufId) :
    List host_call :=
  [host_call.shm_create_buffer b (acquired_buffer s o out).width
      (acquired_buffer s o out).height (acquired_buffer s o out).stride,
   host_call.surface_attach out.surface b,
   host_call.surface_damage out.surface 0 0 (s.modes out.current_mode).width
      (s.modes out.current_mode).height,
   host_call.surface_frame out.surface,
   host_call.surface_commit out.surface,
   host_call.display_flush]

/-- The requests of a repaint loop that draws no bootstrap frame. -/
def loop_calls (out : wayland_output) : List host_call :=
  [host_call.surface_frame out.surface, host_call.surface_commit out.surface,
   host_call.display_flush]

/-- The bootstrap frame of output `o` is due and its pool is empty, as after
`wayland_output_enable`. -/
def bootstrap_due (o : OutId) (s : wayland_backend) : Prop :=
  ∃ out, s.outputs o = some out ∧ out.draw_initial_frame = true ∧ out.free_buffers = []
    ∧ out.buffers = []

/-- The state in which `wayland_output_enable` of output 0 of the sample ends when every
allocation succeeds. -/
def sample_enable_result : wayland_backend :=
  match wayland_output_enable sample_created 0 enable_ok with
  | some (_, s) => s
  | none => sample_created

/-- The backing file of an acquire cannot be created. -/
def alloc_no_file : shm_alloc := { fd_ok := false, mmap_ok := true, zalloc_ok := true }

/-- The backing file of an acquire cannot be mapped. -/
def alloc_no_mapping : shm_alloc := { fd_ok := true, mmap_ok := false, zalloc_ok := true }

/-- The damage of a repaint of the sample output: one rectangle of 10 by 10 pixels. -/
def sample_damage : region := [{ x := 0, y := 0, width := 10, height := 10 }]

/-- What a request changes in the number of frames of output `o` that were painted and
submitted and whose frame-complete signal was not yet handled: a paint of the output
adds one, the frame-finished notification of the output takes one away. -/
def frame_event (o : OutId) : host_call → Int
  | host_call.renderer_repaint_output o1 _ => if o1 = o then 1 else 0
  | host_call.finish_frame o1 => if o1 = o then -1 else 0
  | _ => 0

/-- The number of frames of output `o` in flight according to the log. -/
def in_flight_count (o : OutId) (log : List host_call) : Int :=
  (log.map (frame_event o)).sum

/-- The log agrees with the scheduler: a frame of output `o` is in flight exactly when
the output is marked as having a pending frame. -/
def in_flight (o : OutId) (s : wayland_backend) : Prop :=
  ∀ out, s.outputs o = some out →
    in_flight_count o s.log = if out.frame_pending then 1 else 0

/-- The states reached from `s0` by repaint requests for output `o` and by the
frame-complete signals that the host sends for its pending frames. -/
inductive scheduled (o : OutId) (s0 : wayland_backend) : wayland_backend → Prop where
  | init : scheduled o s0 s0
  | request (s : wayland_backend) (damage : region) (a : shm_alloc)
      (s1 : wayland_backend) :
      scheduled o s0 s → repaint_request s o damage a = some s1 → scheduled o s0 s1
  | done (s : wayland_backend) (out : wayland_output) (s1 : wayland_backend) :
      scheduled o s0 s → s.outputs o = some out → out.frame_pending = true →
      frame_done s o = some s1 → scheduled o s0 s1

/-- The modes among the current mode and the mode list of an output that carry the
current flag, each counted once. -/
def current_flagged (s : wayland_backend) (out : wayland_output) : List ModeId :=
  ((out.current_mode :: out.mode_list).dedup).filter
    (fun m => decide (Nat.land (s.modes m).flags WL_OUTPUT_MODE_CURRENT ≠ 0))

/-- An output created for a host output, as `wayland_output_create_for_parent_output`
leaves it: its own mode is mode 0 and its user data is descriptor 0. -/
def sample_hotplug_output : wayland_output :=
  { enabled := false, current_mode := 0, mode_list := [], draw_initial_frame := false,
    surface := none, parent_output := none, shell_surface := none, frame := none,
    egl_window := none, renderer_state := none, buffers := [], free_buffers := [],
    mode := 0, user_data := some 0 }

/-- A backend that sprawls across the outputs of the host, with one host output whose
modes were not yet announced and the output created for it. -/
def sample_hotplug : wayland_backend :=
  { use_pixman := true, fshell := true, sprawl_across_outputs := true,
    outputs := fun o => if o = 0 then some sample_hotplug_output else none,
    shm_buffers := fun _ => none,
    modes := fun _ => { flags := 0, width := 0, height := 0, refresh := 0 },
    next_buffer := 0, next_surface := 0, next_egl_window := 0, next_renderer_state := 0,
    log := [], next_mode := 1,
    parent_outputs := fun p => if p = 0 then
      some { output := none, global := some 7, id := 3, mode_list := [],
             preferred_mode := none, current_mode := none }
      else none }

/-- The location of the hit-test that decides a pointer enter on an output: the result
of the decoration library when the output has a decoration, the client area otherwise. -/
def enter_location (out : wayland_output) (hit : theme_location) : theme_location :=
  match out.frame with
  | some _ => hit
  | none => theme_location.THEME_LOCATION_CLIENT_AREA

/-- The request is a focus event that names an output. -/
def names_output : host_call → Prop
  | host_call.notify_pointer_focus (some _) _ _ => True
  | _ => False

/-- The record of output 0 of the sample after its enable. -/
def sample_enabled_output : wayland_output :=
  match sample_enable_result.outputs 0 with
  | some out => out
  | none => sample_created_output

/-- A device that has not yet entered any surface. -/
def sample_input : wayland_input := { enter_serial := 0, has_focus := false, output := none }

/-- The coordinate transformation of an output that is neither scaled, rotated nor
moved. -/
def identity_transform (_ : OutId) (x y : Rat) : Rat × Rat := (x, y)

/-- A windowed backend on the software renderer whose host has a desktop shell, with no
output. -/
def sample_empty : wayland_backend :=
  { use_pixman := true, fshell := false, shell := true,
    outputs := fun _ => none,
    shm_buffers := fun _ => none,
    modes := fun _ => { flags := 0, width := 0, height := 0, refresh := 0 },
    next_buffer := 0, next_surface := 0, next_egl_window := 0, next_renderer_state := 0,
    log := [] }

/-- The sample without outputs after the creation of output 0 with the name `W1`, the
choice of scale 1 by the caller, the configuration with 800 by 600 and the enable. -/
def sample_named : Option (Int × wayland_backend) :=
  match wayland_output_create sample_empty (some "W1") (some 0) true with
  | some (_, s1) =>
    match s1.outputs 0 with
    | some out =>
      match wayland_output_configure (set_output s1 0 { out with base_scale := 1 }) 0
          800 600 with
      | some (_, s2) => wayland_output_enable s2 0 enable_ok
      | none => none
    | none => none
  | none => none

/-- The named sample after a switch to fullscreen and back to windowed. -/
def sample_named_again : Option (Int × wayland_backend) :=
  match sample_named with
  | some (_, s) =>
    match wayland_output_set_fullscreen s 0 none with
    | some s1 => wayland_output_set_windowed s1 0 windowed_ok
    | none => none
  | none => none

/-- What the statements show of an output: the name given at its creation, the field
`name`, and the title of its decoration. -/
def output_title (r : Int × wayland_backend) (o : OutId) :
    Int × Option (Option String × Option String × Option String) :=
  (r.1, (r.2.outputs o).map (fun out => (out.base_name, out.name,
    out.frame.map (fun f => f.title))))

/-- A backend that sprawls across the outputs of the host, with no output and no
descriptor yet. -/
def sample_sprawl : wayland_backend :=
  { use_pixman := true, fshell := true, sprawl_across_outputs := true,
    outputs := fun _ => none,
    shm_buffers := fun _ => none,
    modes := fun _ => { flags := 0, width := 0, height := 0, refresh := 0 },
    next_buffer := 0, next_surface := 0, next_egl_window := 0, next_renderer_state := 0,
    log := [] }

/-- The request is a focus event of the pointer. -/
def is_focus : host_call → Bool
  | host_call.notify_pointer_focus _ _ _ => true
  | _ => false

/-- The request is a focus event of the pointer that names output `o`: a focus-in. -/
def is_focus_in (o : OutId) : host_call → Bool
  | host_call.notify_pointer_focus (some o1) _ _ => decide (o1 = o)
  | _ => false

/-- The request is a focus event of the pointer that names no output: a focus-out. -/
def is_focus_out : host_call → Bool
  | host_call.notify_pointer_focus none _ _ => true
  | _ => false

/-- The numbers of focus events, of focus-ins for output `o` and of focus-outs among
the requests of a list. -/
def focus_counts (o : OutId) (l : List host_call) : Nat × Nat × Nat :=
  (l.countP is_focus, l.countP (is_focus_in o), l.countP is_focus_out)

/-- The request forwards a button event. -/
def is_button : host_call → Bool
  | host_call.seat (seat_call.notify_button _ _ _) => true
  | _ => false

/-- The request forwards a touch event to the compositor. -/
def is_touch : host_call → Bool
  | host_call.seat (seat_call.notify_touch _ _ _ _ _) => true
  | host_call.seat seat_call.notify_touch_frame => true
  | host_call.seat seat_call.notify_touch_cancel => true
  | _ => false

/-- The states reached from `c0` by touch events each of which arrives while
`touch_points` is not 0. -/
inductive touch_sequence (transform : OutId → Rat → Rat → Rat × Rat)
    (c0 : wayland_backend × wayland_input) : wayland_backend × wayland_input → Prop where
  | init : touch_sequence transform c0 c0
  | step (c1 c2 : wayland_backend × wayland_input) (e : touch_event) :
      touch_sequence transform c0 c1 → c1.2.touch_points ≠ 0 →
      touch_dispatch transform c1 e = some c2 → touch_sequence transform c0 c2

/-- The decoration asks for nothing. -/
def status_none : frame_status := { repaint := false, move := false, close := false }

/-- The decoration asks for a move. -/
def status_move : frame_status := { repaint := false, move := true, close := false }

/-- The decoration asks for a close. -/
def status_close : frame_status := { repaint := false, move := false, close := true }

/-- A device whose pointer is on output 0, without content focus. -/
def sample_pointer : wayland_input := { enter_serial := 9, has_focus := false, output := some 0 }

/-- The decoration of output 0 of the sample after its enable. -/
def sample_enabled_frame : frame :=
  match sample_enabled_output.frame with
  | some f => f
  | none => frame_create windowed_ok WINDOW_TITLE

/-- All three allocations of an acquire succeed. -/
def alloc_ok : shm_alloc := { fd_ok := true, mmap_ok := true, zalloc_ok := true }

/-- The sample backend after one repaint request for output 0. -/
def sample_requested : wayland_backend :=
  match repaint_request sample_backend 0 sample_damage alloc_ok with
  | some s => s
  | none => sample_backend

/-- The record of output 0 after one repaint request. -/
def sample_requested_output : wayland_output :=
  match sample_requested.outputs 0 with
  | some out => out
  | none => sample_output

/-- The pending damage of a buffer, if the buffer is live. -/
def pending_damage (s : wayland_backend) (b : BufId) : Option region :=
  (s.shm_buffers b).map (fun sb => sb.damage)

/-- The flag `frame_damaged` of a buffer, if the buffer is live. -/
def chrome_damaged (s : wayland_backend) (b : BufId) : Option Bool :=
  (s.shm_buffers b).map (fun sb => sb.frame_damaged)

/-- The owner of a buffer, if the buffer is live. -/
def buffer_owner (s : wayland_backend) (b : BufId) : Option (Option OutId) :=
  (s.shm_buffers b).map (fun sb => sb.output)

/-- The requests that paint a buffer or hand it to the host: the repaint of the
renderer, the attach to a surface and the damage of a surface. -/
def is_damage_call : host_call → Bool
  | host_call.renderer_repaint_output _ _ => true
  | host_call.surface_attach _ _ => true
  | host_call.surface_damage_buffer _ _ _ => true
  | _ => false

/-- The requests of a list that paint a buffer or hand it to the host, in their order. -/
def damage_calls (l : List host_call) : List host_call := l.filter is_damage_call

/-- The buffer that a repaint of output `o` submits, if the repaint returns: the head of
the free list, or else a new buffer. -/
def submitted_buffer (s : wayland_backend) (o : OutId) : Option BufId :=
  match s.outputs o with
  | some out =>
    match out.free_buffers with
    | sb :: _ => some sb
    | [] => some s.next_buffer
  | none => none

/-- The whole output as a damage region. -/
def whole_output (out : wayland_output) : region :=
  [{ x := 0, y := 0, width := out.width, height := out.height }]

/-- The runs from `s0` of repaints in the software path, of any output, and of releases
of buffers in use, together with the damage of the repaints of output `o` since buffer
`b` was last submitted: nothing as long as no repaint of the run has submitted `b`, the
empty region right after a repaint that submits `b`, and from then on the union with the
damage of every further repaint of `o`. -/
inductive damage_since (o : OutId) (b : BufId) (s0 : wayland_backend) :
    Option region → wayland_backend → Prop where
  | init : damage_since o b s0 none s0
  | paint (acc : Option region) (s : wayland_backend) (o1 : OutId) (damage : region)
      (a : shm_alloc) (r : Int × wayland_backend) :
      damage_since o b s0 acc s →
      wayland_output_repaint_pixman s o1 damage a = some r →
      damage_since o b s0
        (if o1 = o then
          (if submitted_buffer s o = some b then some []
            else acc.map (fun d => d ++ damage))
          else acc) r.2
  | release (acc : Option region) (s : wayland_backend) (b1 : BufId)
      (s1 : wayland_backend) :
      damage_since o b s0 acc s → buffer_in_use s b1 →
      buffer_release s b1 = some s1 → damage_since o b s0 acc s1

/-- The buffer list of every output is without repetition. -/
def buffers_nodup (s : wayland_backend) : Prop :=
  ∀ o out, s.outputs o = some out → out.buffers.Nodup

/-- The damage of another repaint of the sample output: one rectangle of 5 by 5 pixels. -/
def sample_damage_late : region := [{ x := 20, y := 20, width := 5, height := 5 }]

/-- The sample backend after a first repaint in the software path, which allocates and
submits buffer 0. -/
def sample_painted_once : wayland_backend :=
  match wayland_output_repaint_pixman sample_backend 0 sample_damage alloc_ok with
  | some r => r.2
  | none => sample_backend

/-- The sample backend after a second repaint, which allocates and submits buffer 1 while
buffer 0 is with the host. -/
def sample_painted_twice : wayland_backend :=
  match wayland_output_repaint_pixman sample_painted_once 0 sample_damage_late alloc_ok with
  | some r => r.2
  | none => sample_painted_once

/-- The sample backend after the two repaints and the release of buffer 0. -/
def sample_painted_released : wayland_backend :=
  match buffer_release sample_painted_twice 0 with
  | some s => s
  | none => sample_painted_twice

/-- The sample backend after the third repaint, which recycles buffer 0. -/
def sample_painted_thrice : wayland_backend :=
  match wayland_output_repaint_pixman sample_painted_released 0 sample_damage alloc_ok with
  | some r => r.2
  | none => sample_painted_released

/-! ## Field lemmas -/

@[simp] theorem set_output_outputs (s : wayland_backend) (o : OutId) (out : wayland_output)
    (o1 : OutId) :
    (set_output s o out).outputs o1 = if o1 = o then some out else s.outputs o1 := by
  simp [set_output, Function.update_apply]

@[simp] theorem set_output_shm_buffers (s : wayland_backend) (o : OutId)
    (out : wayland_output) : (set_output s o out).shm_buffers = s.shm_buffers := rfl

@[simp] theorem set_output_modes (s : wayland_backend) (o : OutId) (out : wayland_output) :
    (set_output s o out).modes = s.modes := rfl

@[simp] theorem set_output_next_buffer (s : wayland_backend) (o : OutId)
    (out : wayland_output) : (set_output s o out).next_buffer = s.next_buffer := rfl

@[simp] theorem set_output_log (s : wayland_backend) (o : OutId) (out : wayland_output) :
    (set_output s o out).log = s.log := rfl

@[simp] theorem set_buffer_shm_buffers (s : wayland_backend) (b : BufId)
    (sb : wayland_shm_buffer) (b1 : BufId) :
    (set_buffer s b sb).shm_buffers b1 = if b1 = b then some sb else s.shm_buffers b1 := by
  simp [set_buffer, Function.update_apply]

@[simp] theorem set_buffer_outputs (s : wayland_backend) (b : BufId)
    (sb : wayland_shm_buffer) : (set_buffer s b sb).outputs = s.outputs := rfl

@[simp] theorem set_buffer_modes (s : wayland_backend) (b : BufId)
    (sb : wayland_shm_buffer) : (set_buffer s b sb).modes = s.modes := rfl

@[simp] theorem set_buffer_next_buffer (s : wayland_backend) (b : BufId)
    (sb : wayland_shm_buffer) : (set_buffer s b sb).next_buffer = s.next_buffer := rfl

@[simp] theorem set_buffer_log (s : wayland_backend) (b : BufId)
    (sb : wayland_shm_buffer) : (set_buffer s b sb).log = s.log := rfl

@[simp] theorem emit_outputs (s : wayland_backend) (c : host_call) :
    (emit s c).outputs = s.outputs := rfl

@[simp] theorem emit_shm_buffers (s : wayland_backend) (c : host_call) :
    (emit s c).shm_buffers = s.shm_buffers := rfl

@[simp] theorem emit_modes (s : wayland_backend) (c : host_call) :
    (emit s c).modes = s.modes := rfl

@[simp] theorem emit_next_buffer (s : wayland_backend) (c : host_call) :
    (emit s c).next_buffer = s.next_buffer := rfl

@[simp] theorem emit_log (s : wayland_backend) (c : host_call) :
    (emit s c).log = s.log ++ [c] := rfl

/-! ## Buffer pool: acquire and release -/

theorem get_shm_buffer_free (s : wayland_backend) (o : OutId) (a : shm_alloc)
    (out : wayland_output) (sb : BufId) (rest : List BufId)
    (hout : s.outputs o = some out) (hfree : out.free_buffers = sb :: rest) :
    wayland_output_get_shm_buffer s o a =
      some (some sb, set_output s o { out with free_buffers := rest }) := by
  simp [wayland_output_get_shm_buffer, hout, hfree]

theorem get_shm_buffer_new (s : wayland_backend) (o : OutId) (a : shm_alloc)
    (out : wayland_output)
    (hout : s.outputs o = some out) (hfree : out.free_buffers = [])
    (hfd : a.fd_ok = true) (hmap : a.mmap_ok = true) (hrec : a.zalloc_ok = true) :
    wayland_output_get_shm_buffer s o a =
      some (some s.next_buffer, acquired_state s o out) := by
  obtain ⟨fd, mm, za⟩ := a
  cases out
  simp only at hfd hmap hrec hfree
  subst hfd hmap hrec hfree
  simp only [wayland_output_get_shm_buffer, hout]
  rfl

theorem shm_buffer_destroy_live (s : wayland_backend) (b : BufId) (sb : wayland_shm_buffer)
    (hb : s.shm_buffers b = some sb) :
    wayland_shm_buffer_destroy s b = some (destroyed_state s b) := by
  simp only [wayland_shm_buffer_destroy, hb]
  rfl

theorem buffer_release_owned (s : wayland_backend) (b : BufId) (sb : wayland_shm_buffer)
    (o : OutId) (out : wayland_output)
    (hb : s.shm_buffers b = some sb) (ho : sb.output = some o)
    (hout : s.outputs o = some out) :
    buffer_release s b =
      some (set_output s o { out with free_buffers := b :: out.free_buffers }) := by
  simp [buffer_release, hb, ho, hout]

theorem buffer_release_orphan (s : wayland_backend) (b : BufId) (sb : wayland_shm_buffer)
    (hb : s.shm_buffers b = some sb) (ho : sb.output = none) :
    buffer_release s b = some (destroyed_state s b) := by
  simp only [buffer_release, hb, ho]
  exact shm_buffer_destroy_live s b sb hb

theorem destroyed_state_not_linked (s : wayland_backend) (b : BufId) (o1 : OutId)
    (out1 : wayland_output) (h1 : (destroyed_state s b).outputs o1 = some out1) :
    b ∉ out1.buffers ∧ b ∉ out1.free_buffers := by
  simp only [destroyed_state] at h1
  cases hs : s.outputs o1 with
  | none => simp [hs] at h1
  | some out0 =>
    simp only [hs, Option.map_some', Option.some.injEq] at h1
    subst h1
    simp [unlink_buffer]

/-- C1: when the free list of an output is not empty, `wayland_output_get_shm_buffer`
returns the buffer at its head, the free list loses exactly that head, and nothing is
allocated: the list of all buffers, the buffer store, the allocation counter and the log
of host requests are unchanged. -/
theorem get_shm_buffer_reuses_free_head (s : wayland_backend) (o : OutId) (a : shm_alloc)
    (out : wayland_output) (sb : BufId) (rest : List BufId)
    (hout : s.outputs o = some out) (hfree : out.free_buffers = sb :: rest) :
    ∃ s1 out1, wayland_output_get_shm_buffer s o a = some (some sb, s1) ∧
      s1.outputs o = some out1 ∧
      out.free_buffers = sb :: out1.free_buffers ∧
      out1.buffers = out.buffers ∧
      s1.shm_buffers = s.shm_buffers ∧
      s1.next_buffer = s.next_buffer ∧
      s1.log = s.log ∧
      ∀ o1, o1 ≠ o → s1.outputs o1 = s.outputs o1 := by
  refine ⟨set_output s o { out with free_buffers := rest },
    { out with free_buffers := rest }, ?_, by simp, hfree, rfl, rfl, rfl, rfl, ?_⟩
  · simp [wayland_output_get_shm_buffer, hout, hfree]
  · intro o1 h1
    simp [h1]

/-- Witness of C1 on the sample backend with buffer 4 at the head of the free list. -/
theorem get_shm_buffer_reuses_free_head_witness :
    ∃ s1 out1, wayland_output_get_shm_buffer
        (set_output sample_backend 0
          { sample_output with buffers := [5, 4], free_buffers := [4, 5] }) 0 alloc_ok
        = some (some 4, s1) ∧
      s1.outputs 0 = some out1 ∧
      [4, 5] = 4 :: out1.free_buffers ∧
      out1.buffers = [5, 4] ∧
      s1.shm_buffers = sample_backend.shm_buffers ∧
      s1.next_buffer = 0 ∧
      s1.log = [] ∧
      ∀ o1, o1 ≠ 0 → s1.outputs o1 = (set_output sample_backend 0
          { sample_output with buffers := [5, 4], free_buffers := [4, 5] }).outputs o1 :=
  get_shm_buffer_reuses_free_head _ 0 alloc_ok
    { sample_output with buffers := [5, 4], free_buffers := [4, 5] } 4 [5]
    (by simp) rfl

/-- C2, as stated, fails: with an empty free list, a backing file and a mapping that
succeed, `wayland_output_get_shm_buffer` still returns no buffer when the allocation of
the buffer record fails. -/
theorem get_shm_buffer_record_allocation_fails :
    (sample_backend.outputs 0).map (fun out => out.free_buffers) = some [] ∧
    (wayland_output_get_shm_buffer sample_backend 0
      { fd_ok := true, mmap_ok := true, zalloc_ok := false }).map Prod.fst = some none := by
  constructor
  · rfl
  · rfl

/-- C2, amended: when the free list of an output is empty and the backing file, the
mapping and the allocation of the buffer record succeed,
`wayland_output_get_shm_buffer` creates a buffer whose width and height are those of the
decoration if the output has one and those of the current mode otherwise; the buffer is
owned by the output, is at the head of the output's buffer list and is not on the free
list, which stays empty. -/
theorem get_shm_buffer_allocates (s : wayland_backend) (o : OutId) (a : shm_alloc)
    (out : wayland_output)
    (hout : s.outputs o = some out) (hfree : out.free_buffers = [])
    (hfd : a.fd_ok = true) (hmap : a.mmap_ok = true) (hrec : a.zalloc_ok = true) :
    ∃ sb s1 buf out1, wayland_output_get_shm_buffer s o a = some (some sb, s1) ∧
      sb = s.next_buffer ∧
      s1.shm_buffers sb = some buf ∧
      buf.output = some o ∧
      buf.width = (match out.frame with
        | some f => frame_width f
        | none => (s.modes out.current_mode).width) ∧
      buf.height = (match out.frame with
        | some f => frame_height f
        | none => (s.modes out.current_mode).height) ∧
      s1.outputs o = some out1 ∧
      out1.buffers = sb :: out.buffers ∧
      out1.free_buffers = [] ∧
      sb ∉ out1.free_buffers := by
  have hget := get_shm_buffer_new s o a out hout hfree hfd hmap hrec
  exact ⟨s.next_buffer, acquired_state s o out, acquired_buffer s o out,
    { out with buffers := s.next_buffer :: out.buffers }, hget, rfl,
    by simp [acquired_state], rfl, rfl, rfl, by simp [acquired_state], rfl, hfree,
    by simp [hfree]⟩

/-- Witness of the amended C2 on the sample backend. -/
theorem get_shm_buffer_allocates_witness :
    ∃ sb s1 buf out1, wayland_output_get_shm_buffer sample_backend 0 alloc_ok
        = some (some sb, s1) ∧
      sb = sample_backend.next_buffer ∧
      s1.shm_buffers sb = some buf ∧
      buf.output = some 0 ∧
      buf.width = (match sample_output.frame with
        | some f => frame_width f
        | none => (sample_backend.modes sample_output.current_mode).width) ∧
      buf.height = (match sample_output.frame with
        | some f => frame_height f
        | none => (sample_backend.modes sample_output.current_mode).height) ∧
      s1.outputs 0 = some out1 ∧
      out1.buffers = sb :: sample_output.buffers ∧
      out1.free_buffers = [] ∧
      sb ∉ out1.free_buffers :=
  get_shm_buffer_allocates sample_backend 0 alloc_ok sample_output rfl rfl rfl rfl rfl

/-- C3: `buffer_release` of a live buffer whose owner reference is set to a live output
inserts the buffer at the head of that output's free list and leaves the output's buffer
list, the other outputs and the buffer store as they were; `buffer_release` of a live
buffer whose owner reference is cleared destroys it: the record is freed, the host buffer
is destroyed, and the buffer is in no buffer list and in no free list. -/
theorem buffer_release_spec (s : wayland_backend) (b : BufId) (sb : wayland_shm_buffer)
    (hb : s.shm_buffers b = some sb) :
    (∀ o out, sb.output = some o → s.outputs o = some out →
      ∃ s1 out1, buffer_release s b = some s1 ∧
        s1.outputs o = some out1 ∧
        out1.free_buffers = b :: out.free_buffers ∧
        out1.buffers = out.buffers ∧
        (b ∈ out.buffers → b ∈ out1.buffers) ∧
        (∀ o1, o1 ≠ o → s1.outputs o1 = s.outputs o1) ∧
        s1.shm_buffers = s.shm_buffers) ∧
    (sb.output = none →
      ∃ s1, buffer_release s b = some s1 ∧
        s1.shm_buffers b = none ∧
        host_call.buffer_destroy b ∈ s1.log ∧
        ∀ o1 out1, s1.outputs o1 = some out1 →
          b ∉ out1.buffers ∧ b ∉ out1.free_buffers) := by
  constructor
  · intro o out ho hout
    refine ⟨set_output s o { out with free_buffers := b :: out.free_buffers },
      { out with free_buffers := b :: out.free_buffers }, ?_, by simp, rfl, rfl,
      fun h => h, ?_, rfl⟩
    · simp [buffer_release, hb, ho, hout]
    · intro o1 h1
      simp [h1]
  · intro ho
    exact ⟨destroyed_state s b, buffer_release_orphan s b sb hb ho,
      by simp [destroyed_state], by simp [destroyed_state],
      fun o1 out1 h1 => destroyed_state_not_linked s b o1 out1 h1⟩

/-- Witness of C3 on the sample backend with buffer 0 acquired by output 0. -/
theorem buffer_release_spec_witness :
    (∀ o out, (some 0 : Option OutId) = some o →
      (set_buffer (set_output sample_backend 0 { sample_output with buffers := [0] }) 0
        { output := some 0, width := 800, height := 600, stride := 3200, size := 1920000,
          frame_damaged := true }).outputs o = some out →
      ∃ s1 out1, buffer_release
          (set_buffer (set_output sample_backend 0 { sample_output with buffers := [0] }) 0
            { output := some 0, width := 800, height := 600, stride := 3200,
              size := 1920000, frame_damaged := true }) 0 = some s1 ∧
        s1.outputs o = some out1 ∧
        out1.free_buffers = 0 :: out.free_buffers ∧
        out1.buffers = out.buffers ∧
        (0 ∈ out.buffers → 0 ∈ out1.buffers) ∧
        (∀ o1, o1 ≠ o → s1.outputs o1 =
          (set_buffer (set_output sample_backend 0 { sample_output with buffers := [0] }) 0
            { output := some 0, width := 800, height := 600, stride := 3200,
              size := 1920000, frame_damaged := true }).outputs o1) ∧
        s1.shm_buffers =
          (set_buffer (set_output sample_backend 0 { sample_output with buffers := [0] }) 0
            { output := some 0, width := 800, height := 600, stride := 3200,
              size := 1920000, frame_damaged := true }).shm_buffers) ∧
    ((some 0 : Option OutId) = none →
      ∃ s1, buffer_release
          (set_buffer (set_output sample_backend 0 { sample_output with buffers := [0] }) 0
            { output := some 0, width := 800, height := 600, stride := 3200,
              size := 1920000, frame_damaged := true }) 0 = some s1 ∧
        s1.shm_buffers 0 = none ∧
        host_call.buffer_destroy 0 ∈ s1.log ∧
        ∀ o1 out1, s1.outputs o1 = some out1 →
          0 ∉ out1.buffers ∧ 0 ∉ out1.free_buffers) :=
  buffer_release_spec _ 0
    { output := some 0, width := 800, height := 600, stride := 3200, size := 1920000,
      frame_damaged := true } (by simp)

/-! ## Mode choice -/

theorem choose_mode_exact_none (modes : ModeId → weston_mode) (ref_mode : weston_mode)
    (l : List ModeId) :
    choose_mode_exact modes ref_mode l = none ↔
      ∀ m ∈ l, ¬ mode_matches_exact modes ref_mode m := by
  induction l with
  | nil => simp [choose_mode_exact]
  | cons a l ih =>
    unfold choose_mode_exact
    by_cases h : (modes a).width = ref_mode.width ∧ (modes a).height = ref_mode.height ∧
        (modes a).refresh = ref_mode.refresh
    · rw [if_pos h]
      simp only [List.mem_cons, forall_eq_or_imp, false_iff, not_and, reduceCtorEq]
      intro h1
      exact absurd h h1
    · rw [if_neg h, ih]
      simp only [List.mem_cons, forall_eq_or_imp]
      exact ⟨fun h1 => ⟨h, h1⟩, fun h1 => h1.2⟩

theorem choose_mode_exact_some (modes : ModeId → weston_mode) (ref_mode : weston_mode)
    (l : List ModeId) (m : ModeId) (h : choose_mode_exact modes ref_mode l = some m) :
    first_in_list (mode_matches_exact modes ref_mode) l m := by
  induction l with
  | nil => simp [choose_mode_exact] at h
  | cons a l ih =>
    unfold choose_mode_exact at h
    by_cases hc : (modes a).width = ref_mode.width ∧ (modes a).height = ref_mode.height ∧
        (modes a).refresh = ref_mode.refresh
    · rw [if_pos hc] at h
      cases h
      exact ⟨[], l, rfl, hc, by simp⟩
    · rw [if_neg hc] at h
      obtain ⟨pre, post, hl, hm, hpre⟩ := ih h
      refine ⟨a :: pre, post, by rw [hl]; rfl, hm, ?_⟩
      intro x hx
      rcases List.mem_cons.mp hx with rfl | hx
      · exact hc
      · exact hpre x hx

theorem choose_mode_size_none (modes : ModeId → weston_mode) (ref_mode : weston_mode)
    (l : List ModeId) :
    choose_mode_size modes ref_mode l = none ↔
      ∀ m ∈ l, ¬ mode_matches_size modes ref_mode m := by
  induction l with
  | nil => simp [choose_mode_size]
  | cons a l ih =>
    unfold choose_mode_size
    by_cases h : (modes a).width = ref_mode.width ∧ (modes a).height = ref_mode.height
    · rw [if_pos h]
      simp only [List.mem_cons, forall_eq_or_imp, false_iff, not_and, reduceCtorEq]
      intro h1
      exact absurd h h1
    · rw [if_neg h, ih]
      simp only [List.mem_cons, forall_eq_or_imp]
      exact ⟨fun h1 => ⟨h, h1⟩, fun h1 => h1.2⟩

theorem choose_mode_size_some (modes : ModeId → weston_mode) (ref_mode : weston_mode)
    (l : List ModeId) (m : ModeId) (h : choose_mode_size modes ref_mode l = some m) :
    first_in_list (mode_matches_size modes ref_mode) l m := by
  induction l with
  | nil => simp [choose_mode_size] at h
  | cons a l ih =>
    unfold choose_mode_size at h
    by_cases hc : (modes a).width = ref_mode.width ∧ (modes a).height = ref_mode.height
    · rw [if_pos hc] at h
      cases h
      exact ⟨[], l, rfl, hc, by simp⟩
    · rw [if_neg hc] at h
      obtain ⟨pre, post, hl, hm, hpre⟩ := ih h
      refine ⟨a :: pre, post, by rw [hl]; rfl, hm, ?_⟩
      intro x hx
      rcases List.mem_cons.mp hx with rfl | hx
      · exact hc
      · exact hpre x hx

/-- C7: `wayland_output_choose_mode` returns the first mode of the list that equals the
request in width, height and refresh when the list has such a mode (also when a mode that
equals it in width and height only comes earlier); otherwise the first mode that equals
the request in width and height; and it returns no mode exactly when no mode of the list
has the requested width and height. -/
theorem wayland_output_choose_mode_spec (modes : ModeId → weston_mode)
    (mode_list : List ModeId) (ref_mode : weston_mode) :
    ((∃ m ∈ mode_list, mode_matches_exact modes ref_mode m) →
      ∃ m, wayland_output_choose_mode modes mode_list ref_mode = some m ∧
        first_in_list (mode_matches_exact modes ref_mode) mode_list m) ∧
    ((¬ ∃ m ∈ mode_list, mode_matches_exact modes ref_mode m) →
      (∃ m ∈ mode_list, mode_matches_size modes ref_mode m) →
      ∃ m, wayland_output_choose_mode modes mode_list ref_mode = some m ∧
        first_in_list (mode_matches_size modes ref_mode) mode_list m) ∧
    (wayland_output_choose_mode modes mode_list ref_mode = none ↔
      ∀ m ∈ mode_list, ¬ mode_matches_size modes ref_mode m) := by
  refine ⟨?_, ?_, ?_⟩
  · rintro ⟨m, hm, hx⟩
    cases he : choose_mode_exact modes ref_mode mode_list with
    | none => exact absurd hx ((choose_mode_exact_none modes ref_mode mode_list).mp he m hm)
    | some m0 =>
      exact ⟨m0, by simp [wayland_output_choose_mode, he],
        choose_mode_exact_some modes ref_mode mode_list m0 he⟩
  · intro hno ⟨m, hm, hx⟩
    have he : choose_mode_exact modes ref_mode mode_list = none :=
      (choose_mode_exact_none modes ref_mode mode_list).mpr
        (fun x hx1 hx2 => hno ⟨x, hx1, hx2⟩)
    cases hs : choose_mode_size modes ref_mode mode_list with
    | none => exact absurd hx ((choose_mode_size_none modes ref_mode mode_list).mp hs m hm)
    | some m0 =>
      exact ⟨m0, by simp [wayland_output_choose_mode, he, hs],
        choose_mode_size_some modes ref_mode mode_list m0 hs⟩
  · cases he : choose_mode_exact modes ref_mode mode_list with
    | none =>
      simp only [wayland_output_choose_mode, he]
      exact choose_mode_size_none modes ref_mode mode_list
    | some m0 =>
      simp only [wayland_output_choose_mode, he, false_iff, reduceCtorEq]
      intro hall
      obtain ⟨pre, post, hl, hm, -⟩ := choose_mode_exact_some modes ref_mode mode_list m0 he
      exact hall m0 (by rw [hl]; simp) ⟨hm.1, hm.2.1⟩

/-! ## Buffer pool: resize -/

theorem wayland_backend_ext (s t : wayland_backend)
    (h1 : s.use_pixman = t.use_pixman) (h2 : s.fshell = t.fshell)
    (h3 : s.outputs = t.outputs) (h4 : s.shm_buffers = t.shm_buffers)
    (h5 : s.modes = t.modes) (h6 : s.next_buffer = t.next_buffer)
    (h7 : s.next_surface = t.next_surface) (h8 : s.next_egl_window = t.next_egl_window)
    (h9 : s.next_renderer_state = t.next_renderer_state) (h10 : s.log = t.log)
    (h11 : s.shell = t.shell)
    (h12 : s.sprawl_across_outputs = t.sprawl_across_outputs)
    (h13 : s.fullscreen = t.fullscreen) (h14 : s.theme = t.theme)
    (h15 : s.cursor = t.cursor)
    (h16 : s.next_shell_surface = t.next_shell_surface)
    (h17 : s.next_mode = t.next_mode) (h18 : s.cursor_buffer = t.cursor_buffer)
    (h19 : s.parent_outputs = t.parent_outputs)
    (h20 : s.parent_output_list = t.parent_output_list) : s = t := by
  cases s
  cases t
  simp_all

theorem remove_buffers_nil (out : wayland_output) : remove_buffers [] out = out := by
  simp [remove_buffers]

theorem remove_buffers_cons (b : BufId) (bs : List BufId) (out : wayland_output) :
    remove_buffers bs (unlink_buffer b out) = remove_buffers (b :: bs) out := by
  simp only [remove_buffers, unlink_buffer, List.filter_filter]
  congr 1
  · apply List.filter_congr
    intro x _
    simp [Bool.and_comm]
  · apply List.filter_congr
    intro x _
    simp [Bool.and_comm]

theorem destroy_buffers_eq (bs : List BufId) :
    ∀ s : wayland_backend, all_live s bs → bs.Nodup →
      destroy_buffers s bs = some (destroyed_all s bs) := by
  induction bs with
  | nil =>
    intro s _ _
    simp only [destroy_buffers]
    congr 1
    refine wayland_backend_ext _ _ rfl rfl ?_ ?_ rfl rfl rfl rfl rfl ?_ rfl rfl rfl rfl rfl
      rfl rfl rfl rfl rfl
    · funext o
      cases h : s.outputs o <;> simp [destroyed_all, h, remove_buffers_nil]
    · funext x
      simp [destroyed_all]
    · simp [destroyed_all]
  | cons b bs ih =>
    intro s hlive hnd
    obtain ⟨sb, hsb⟩ := hlive b (by simp)
    have hnd1 := List.nodup_cons.mp hnd
    simp only [destroy_buffers, shm_buffer_destroy_live s b sb hsb]
    have hlive1 : all_live (destroyed_state s b) bs := by
      intro x hx
      obtain ⟨sx, hsx⟩ := hlive x (List.mem_cons_of_mem _ hx)
      have hne : x ≠ b := fun h => hnd1.1 (h ▸ hx)
      exact ⟨sx, by simp [destroyed_state, Function.update_apply, hne, hsx]⟩
    rw [ih _ hlive1 hnd1.2]
    congr 1
    refine wayland_backend_ext _ _ rfl rfl ?_ ?_ rfl rfl rfl rfl rfl ?_ rfl rfl rfl rfl rfl
      rfl rfl rfl rfl rfl
    · funext o
      cases h : s.outputs o <;> simp [destroyed_all, destroyed_state, h, remove_buffers_cons]
    · funext x
      by_cases hx : x = b
      · subst hx
        simp [destroyed_all, destroyed_state]
      · simp [destroyed_all, destroyed_state, hx, Function.update_apply]
    · simp [destroyed_all, destroyed_state]

theorem orphan_buffers_eq (bs : List BufId) :
    ∀ s : wayland_backend, all_live s bs →
      orphan_buffers s bs = some (orphaned_all s bs) := by
  induction bs with
  | nil =>
    intro s _
    simp only [orphan_buffers]
    congr 1
  | cons b bs ih =>
    intro s hlive
    obtain ⟨sb, hsb⟩ := hlive b (by simp)
    simp only [orphan_buffers, hsb]
    have hlive1 : all_live (set_buffer s b { sb with output := none }) bs := by
      intro x hx
      obtain ⟨sx, hsx⟩ := hlive x (List.mem_cons_of_mem _ hx)
      by_cases hxb : x = b
      · exact ⟨{ sb with output := none }, by simp [hxb]⟩
      · exact ⟨sx, by simp [hxb, hsx]⟩
    rw [ih _ hlive1]
    congr 1
    refine wayland_backend_ext _ _ rfl rfl rfl ?_ rfl rfl rfl rfl rfl rfl rfl rfl rfl rfl
      rfl rfl rfl rfl rfl rfl
    funext x
    by_cases hxb : x = b
    · subst hxb
      by_cases hx : x ∈ bs <;> simp [orphaned_all, hx, hsb, orphaned]
    · simp [orphaned_all, hxb]

theorem geometry_shm_buffers (s : wayland_backend) (o : OutId) (out : wayland_output) :
    (resize_surface_geometry s o out).shm_buffers = s.shm_buffers := by
  unfold resize_surface_geometry
  cases out.egl_window <;> rfl

theorem geometry_modes (s : wayland_backend) (o : OutId) (out : wayland_output) :
    (resize_surface_geometry s o out).modes = s.modes := by
  unfold resize_surface_geometry
  cases out.egl_window <;> rfl

theorem geometry_next_buffer (s : wayland_backend) (o : OutId) (out : wayland_output) :
    (resize_surface_geometry s o out).next_buffer = s.next_buffer := by
  unfold resize_surface_geometry
  cases out.egl_window <;> rfl

theorem geometry_outputs (s : wayland_backend) (o : OutId) (out : wayland_output)
    (o1 : OutId) :
    (resize_surface_geometry s o out).outputs o1 =
      if o1 = o then
        some { out with frame := out.frame.map (fun f =>
          frame_resize_inside f (s.modes out.current_mode).width
            (s.modes out.current_mode).height) }
      else s.outputs o1 := by
  unfold resize_surface_geometry
  cases out.egl_window <;> simp

theorem geometry_log (s : wayland_backend) (o : OutId) (out : wayland_output) :
    ∃ l, (resize_surface_geometry s o out).log = s.log ++ l := by
  unfold resize_surface_geometry
  cases out.egl_window with
  | none =>
    exact ⟨[host_call.surface_set_input_region out.surface,
      host_call.surface_set_opaque_region out.surface], by simp⟩
  | some w =>
    simp only [emit_log, set_output_log, List.append_assoc]
    exact ⟨_, rfl⟩

theorem resize_surface_eq (s : wayland_backend) (o : OutId) (out : wayland_output)
    (hout : s.outputs o = some out) (hfl : all_live s out.free_buffers)
    (hnd : out.free_buffers.Nodup) (hbl : all_live s out.buffers) :
    wayland_output_resize_surface s o = some (resized_state s o out) := by
  have h1 : all_live (resize_surface_geometry s o out) out.free_buffers := by
    intro b hb
    rw [geometry_shm_buffers]
    exact hfl b hb
  have h2 : (destroyed_all (resize_surface_geometry s o out) out.free_buffers).outputs o =
      some (remove_buffers out.free_buffers { out with frame := out.frame.map (fun f =>
          frame_resize_inside f (s.modes out.current_mode).width
            (s.modes out.current_mode).height) }) := by
    simp [destroyed_all, geometry_outputs]
  have h3 : all_live (destroyed_all (resize_surface_geometry s o out) out.free_buffers)
      (out.buffers.filter (fun x => x ∉ out.free_buffers)) := by
    intro b hb
    have hb1 := List.mem_filter.mp hb
    have hb2 : b ∉ out.free_buffers := by simpa using hb1.2
    obtain ⟨sb, hsb⟩ := hbl b hb1.1
    exact ⟨sb, by simp [destroyed_all, hb2, geometry_shm_buffers, hsb]⟩
  simp only [wayland_output_resize_surface, hout, destroy_buffers_eq _ _ h1 hnd, h2]
  exact orphan_buffers_eq _ _ h3

theorem resized_state_outputs (s : wayland_backend) (o : OutId) (out : wayland_output)
    (o1 : OutId) :
    (resized_state s o out).outputs o1 =
      (if o1 = o then
        some { out with frame := out.frame.map (fun f =>
          frame_resize_inside f (s.modes out.current_mode).width
            (s.modes out.current_mode).height) }
      else s.outputs o1).map (remove_buffers out.free_buffers) := by
  simp [resized_state, orphaned_all, destroyed_all, geometry_outputs]

theorem resized_state_shm_buffers (s : wayland_backend) (o : OutId) (out : wayland_output)
    (x : BufId) :
    (resized_state s o out).shm_buffers x =
      if x ∈ out.free_buffers then none
      else if x ∈ out.buffers then (s.shm_buffers x).map orphaned
      else s.shm_buffers x := by
  by_cases h1 : x ∈ out.free_buffers
  · simp [resized_state, orphaned_all, destroyed_all, h1]
  · by_cases h2 : x ∈ out.buffers
    · simp [resized_state, orphaned_all, destroyed_all, h1, h2, geometry_shm_buffers]
    · simp [resized_state, orphaned_all, destroyed_all, h1, h2, geometry_shm_buffers]

theorem resized_state_modes (s : wayland_backend) (o : OutId) (out : wayland_output) :
    (resized_state s o out).modes = s.modes := by
  simp [resized_state, orphaned_all, destroyed_all, geometry_modes]

theorem resized_state_next_buffer (s : wayland_backend) (o : OutId)
    (out : wayland_output) : (resized_state s o out).next_buffer = s.next_buffer := by
  simp [resized_state, orphaned_all, destroyed_all, geometry_next_buffer]

theorem resized_state_log (s : wayland_backend) (o : OutId) (out : wayland_output) :
    ∃ l, (resized_state s o out).log =
      s.log ++ l ++ out.free_buffers.map host_call.buffer_destroy := by
  obtain ⟨l, hl⟩ := geometry_log s o out
  exact ⟨l, by simp [resized_state, orphaned_all, destroyed_all, hl]⟩

/-! ## Buffer pool: the invariant -/

theorem pool_inv_of_empty (s : wayland_backend) (h : empty_pools s) : pool_inv s where
  fresh := fun b _ => h.1 b
  listed := fun o out ho b hb => by
    rw [(h.2 o out ho).1] at hb
    exact absurd hb (List.not_mem_nil b)
  free_owned := fun o out ho b hb => by
    rw [(h.2 o out ho).2] at hb
    exact absurd hb (List.not_mem_nil b)
  free_nodup := fun o out ho => by
    rw [(h.2 o out ho).2]
    exact List.nodup_nil
  owner_live := fun b sb o hb _ => by
    rw [h.1 b] at hb
    cases hb

theorem pool_inv_live_buffers (s : wayland_backend) (h : pool_inv s) (o : OutId)
    (out : wayland_output) (ho : s.outputs o = some out) : all_live s out.buffers := by
  intro b hb
  obtain ⟨sb, hsb, -⟩ := h.listed o out ho b hb
  exact ⟨sb, hsb⟩

theorem pool_inv_live_free (s : wayland_backend) (h : pool_inv s) (o : OutId)
    (out : wayland_output) (ho : s.outputs o = some out) :
    all_live s out.free_buffers := by
  intro b hb
  obtain ⟨-, sb, hsb, -⟩ := h.free_owned o out ho b hb
  exact ⟨sb, hsb⟩

theorem pool_inv_congr (s t : wayland_backend) (h : pool_inv s)
    (h1 : t.outputs = s.outputs) (h2 : t.shm_buffers = s.shm_buffers)
    (h3 : t.next_buffer = s.next_buffer) : pool_inv t where
  fresh := by rw [h2, h3]; exact h.fresh
  listed := by rw [h1, h2]; exact h.listed
  free_owned := by rw [h1, h2]; exact h.free_owned
  free_nodup := by rw [h1]; exact h.free_nodup
  owner_live := by rw [h1, h2]; exact h.owner_live

theorem pool_inv_emit (s : wayland_backend) (c : host_call) (h : pool_inv s) :
    pool_inv (emit s c) :=
  pool_inv_congr s _ h rfl rfl rfl

/-- A change of an output that keeps its buffer list and gives it a free list of distinct
buffers that it lists and owns preserves the invariant. -/
theorem pool_inv_set_free (s : wayland_backend) (h : pool_inv s) (o : OutId)
    (out out1 : wayland_output) (ho : s.outputs o = some out)
    (hb : out1.buffers = out.buffers)
    (hf : ∀ b ∈ out1.free_buffers,
      b ∈ out.buffers ∧ ∃ sb, s.shm_buffers b = some sb ∧ sb.output = some o)
    (hnd : out1.free_buffers.Nodup) :
    pool_inv (set_output s o out1) where
  fresh := h.fresh
  listed := fun o1 x hx b hbx => by
    rw [set_output_outputs] at hx
    by_cases h1 : o1 = o
    · rw [if_pos h1] at hx
      cases hx
      rw [hb] at hbx
      rw [h1]
      exact h.listed o out ho b hbx
    · rw [if_neg h1] at hx
      exact h.listed o1 x hx b hbx
  free_owned := fun o1 x hx b hbx => by
    rw [set_output_outputs] at hx
    by_cases h1 : o1 = o
    · rw [if_pos h1] at hx
      cases hx
      rw [hb, h1]
      exact hf b hbx
    · rw [if_neg h1] at hx
      exact h.free_owned o1 x hx b hbx
  free_nodup := fun o1 x hx => by
    rw [set_output_outputs] at hx
    by_cases h1 : o1 = o
    · rw [if_pos h1] at hx
      cases hx
      exact hnd
    · rw [if_neg h1] at hx
      exact h.free_nodup o1 x hx
  owner_live := fun b sb o1 hsb hown => by
    obtain ⟨x, hx, hbx⟩ := h.owner_live b sb o1 hsb hown
    by_cases h1 : o1 = o
    · subst h1
      rw [ho] at hx
      cases hx
      exact ⟨out1, by simp, by rw [hb]; exact hbx⟩
    · exact ⟨x, by simp [h1, hx], hbx⟩

/-- A change of an output that keeps its two lists preserves the invariant. -/
theorem pool_inv_set_output (s : wayland_backend) (h : pool_inv s) (o : OutId)
    (out out1 : wayland_output) (ho : s.outputs o = some out)
    (hb : out1.buffers = out.buffers) (hf : out1.free_buffers = out.free_buffers) :
    pool_inv (set_output s o out1) :=
  pool_inv_set_free s h o out out1 ho hb
    (fun b hbx => h.free_owned o out ho b (hf ▸ hbx)) (hf ▸ h.free_nodup o out ho)

theorem pool_inv_pop (s : wayland_backend) (h : pool_inv s) (o : OutId)
    (out : wayland_output) (sb : BufId) (rest : List BufId)
    (ho : s.outputs o = some out) (hfree : out.free_buffers = sb :: rest) :
    pool_inv (set_output s o { out with free_buffers := rest }) := by
  have hnd := h.free_nodup o out ho
  rw [hfree] at hnd
  refine pool_inv_set_free s h o out _ ho rfl (fun b hb => ?_) (List.nodup_cons.mp hnd).2
  exact h.free_owned o out ho b (by rw [hfree]; exact List.mem_cons_of_mem _ hb)

theorem pool_inv_push (s : wayland_backend) (h : pool_inv s) (b : BufId)
    (sb : wayland_shm_buffer) (o : OutId) (out : wayland_output)
    (hb : s.shm_buffers b = some sb) (hown : sb.output = some o)
    (ho : s.outputs o = some out) (hnf : b ∉ out.free_buffers) :
    pool_inv (set_output s o { out with free_buffers := b :: out.free_buffers }) := by
  refine pool_inv_set_free s h o out _ ho rfl (fun x hx => ?_)
    (List.nodup_cons.mpr ⟨hnf, h.free_nodup o out ho⟩)
  rcases List.mem_cons.mp hx with rfl | hx
  · obtain ⟨out2, h2, h3⟩ := h.owner_live x sb o hb hown
    rw [ho] at h2
    cases h2
    exact ⟨h3, sb, hb, hown⟩
  · exact h.free_owned o out ho x hx

theorem pool_inv_destroyed (s : wayland_backend) (h : pool_inv s) (b : BufId) :
    pool_inv (destroyed_state s b) where
  fresh := fun x hx => by
    simp only [destroyed_state, Function.update_apply]
    split
    · rfl
    · exact h.fresh x hx
  listed := fun o1 out1 h1 x hx => by
    simp only [destroyed_state] at h1
    cases hs : s.outputs o1 with
    | none => simp [hs] at h1
    | some out0 =>
      simp only [hs, Option.map_some', Option.some.injEq] at h1
      subst h1
      simp only [unlink_buffer, List.mem_filter, decide_eq_true_eq, decide_not,
        Bool.not_eq_true', decide_eq_false_iff_not] at hx
      obtain ⟨sx, hsx, hox⟩ := h.listed o1 out0 hs x hx.1
      exact ⟨sx, by simp [destroyed_state, Function.update_apply, hx.2, hsx], hox⟩
  free_owned := fun o1 out1 h1 x hx => by
    simp only [destroyed_state] at h1
    cases hs : s.outputs o1 with
    | none => simp [hs] at h1
    | some out0 =>
      simp only [hs, Option.map_some', Option.some.injEq] at h1
      subst h1
      simp only [unlink_buffer, List.mem_filter, decide_eq_true_eq, decide_not,
        Bool.not_eq_true', decide_eq_false_iff_not] at hx
      obtain ⟨hxb, sx, hsx, hox⟩ := h.free_owned o1 out0 hs x hx.1
      refine ⟨by simp [unlink_buffer, hxb, hx.2], sx, ?_, hox⟩
      simp [destroyed_state, Function.update_apply, hx.2, hsx]
  free_nodup := fun o1 out1 h1 => by
    simp only [destroyed_state] at h1
    cases hs : s.outputs o1 with
    | none => simp [hs] at h1
    | some out0 =>
      simp only [hs, Option.map_some', Option.some.injEq] at h1
      subst h1
      exact (h.free_nodup o1 out0 hs).filter _
  owner_live := fun x sx o1 hsx hown => by
    simp only [destroyed_state, Function.update_apply] at hsx
    by_cases hxb : x = b
    · simp [hxb] at hsx
    · rw [if_neg hxb] at hsx
      obtain ⟨out0, h0, hx0⟩ := h.owner_live x sx o1 hsx hown
      exact ⟨unlink_buffer b out0, by simp [destroyed_state, h0],
        by simp [unlink_buffer, hx0, hxb]⟩

theorem acquired_state_shm_buffers (s : wayland_backend) (o : OutId)
    (out : wayland_output) (x : BufId) :
    (acquired_state s o out).shm_buffers x =
      if x = s.next_buffer then some (acquired_buffer s o out) else s.shm_buffers x := by
  simp [acquired_state]

theorem acquired_state_outputs (s : wayland_backend) (o : OutId) (out : wayland_output)
    (o1 : OutId) :
    (acquired_state s o out).outputs o1 =
      if o1 = o then some { out with buffers := s.next_buffer :: out.buffers }
      else s.outputs o1 := by
  simp [acquired_state]

theorem acquired_state_next_buffer (s : wayland_backend) (o : OutId)
    (out : wayland_output) : (acquired_state s o out).next_buffer = s.next_buffer + 1 := by
  simp [acquired_state]

theorem acquired_state_modes (s : wayland_backend) (o : OutId) (out : wayland_output) :
    (acquired_state s o out).modes = s.modes := by
  simp [acquired_state]

theorem pool_inv_live_lt (s : wayland_backend) (h : pool_inv s) (b : BufId)
    (sb : wayland_shm_buffer) (hb : s.shm_buffers b = some sb) : b < s.next_buffer := by
  by_contra hlt
  rw [h.fresh b (Nat.le_of_not_lt hlt)] at hb
  cases hb

theorem pool_inv_acquired (s : wayland_backend) (h : pool_inv s) (o : OutId)
    (out : wayland_output) (ho : s.outputs o = some out) :
    pool_inv (acquired_state s o out) where
  fresh := fun x hx => by
    rw [acquired_state_next_buffer] at hx
    rw [acquired_state_shm_buffers, if_neg (Nat.ne_of_gt (Nat.lt_of_succ_le hx))]
    exact h.fresh x (Nat.le_of_succ_le hx)
  listed := fun o1 out1 h1 x hx => by
    rw [acquired_state_outputs] at h1
    rw [acquired_state_shm_buffers]
    by_cases hx0 : x = s.next_buffer
    · rw [if_pos hx0]
      refine ⟨_, rfl, Or.inr ?_⟩
      by_cases ho1 : o1 = o
      · rw [ho1]
        rfl
      · rw [if_neg ho1] at h1
        obtain ⟨sx, hsx, -⟩ := h.listed o1 out1 h1 x hx
        exact absurd hx0 (Nat.ne_of_lt (pool_inv_live_lt s h x sx hsx))
    · rw [if_neg hx0]
      by_cases ho1 : o1 = o
      · rw [if_pos ho1] at h1
        cases h1
        rcases List.mem_cons.mp hx with hx1 | hx1
        · exact absurd hx1 hx0
        · rw [ho1]
          exact h.listed o out ho x hx1
      · rw [if_neg ho1] at h1
        exact h.listed o1 out1 h1 x hx
  free_owned := fun o1 out1 h1 x hx => by
    rw [acquired_state_outputs] at h1
    rw [acquired_state_shm_buffers]
    by_cases ho1 : o1 = o
    · rw [if_pos ho1] at h1
      cases h1
      obtain ⟨hxb, sx, hsx, hox⟩ := h.free_owned o out ho x hx
      rw [if_neg (Nat.ne_of_lt (pool_inv_live_lt s h x sx hsx))]
      exact ⟨List.mem_cons_of_mem _ hxb, sx, hsx, ho1 ▸ hox⟩
    · rw [if_neg ho1] at h1
      obtain ⟨hxb, sx, hsx, hox⟩ := h.free_owned o1 out1 h1 x hx
      rw [if_neg (Nat.ne_of_lt (pool_inv_live_lt s h x sx hsx))]
      exact ⟨hxb, sx, hsx, hox⟩
  free_nodup := fun o1 out1 h1 => by
    rw [acquired_state_outputs] at h1
    by_cases ho1 : o1 = o
    · rw [if_pos ho1] at h1
      cases h1
      exact h.free_nodup o out ho
    · rw [if_neg ho1] at h1
      exact h.free_nodup o1 out1 h1
  owner_live := fun x sx o1 hsx hown => by
    rw [acquired_state_shm_buffers] at hsx
    by_cases hx0 : x = s.next_buffer
    · rw [if_pos hx0] at hsx
      cases hsx
      have ho1 : o1 = o := by
        have : some o = some o1 := hown
        cases this
        rfl
      exact ⟨_, by rw [acquired_state_outputs, if_pos ho1], by simp [hx0]⟩
    · rw [if_neg hx0] at hsx
      obtain ⟨out0, h0, hx1⟩ := h.owner_live x sx o1 hsx hown
      by_cases ho1 : o1 = o
      · rw [ho1, ho] at h0
        cases h0
        exact ⟨_, by rw [acquired_state_outputs, if_pos ho1], List.mem_cons_of_mem _ hx1⟩
      · exact ⟨out0, by rw [acquired_state_outputs, if_neg ho1]; exact h0, hx1⟩

theorem pool_inv_orphaned_all (s : wayland_backend) (h : pool_inv s) (bs : List BufId)
    (hnf : ∀ b ∈ bs, ∀ o out, s.outputs o = some out → b ∉ out.free_buffers) :
    pool_inv (orphaned_all s bs) where
  fresh := fun x hx => by
    simp only [orphaned_all]
    rw [h.fresh x hx]
    split <;> rfl
  listed := fun o1 out1 h1 x hx => by
    obtain ⟨sx, hsx, hox⟩ := h.listed o1 out1 h1 x hx
    simp only [orphaned_all, hsx]
    by_cases hxb : x ∈ bs
    · exact ⟨orphaned sx, by simp [hxb], Or.inl rfl⟩
    · exact ⟨sx, by simp [hxb], hox⟩
  free_owned := fun o1 out1 h1 x hx => by
    obtain ⟨hxb, sx, hsx, hox⟩ := h.free_owned o1 out1 h1 x hx
    have hxn : x ∉ bs := fun hmem => hnf x hmem o1 out1 h1 hx
    exact ⟨hxb, sx, by simp [orphaned_all, hxn, hsx], hox⟩
  free_nodup := h.free_nodup
  owner_live := fun x sx o1 hsx hown => by
    simp only [orphaned_all] at hsx
    by_cases hxb : x ∈ bs
    · rw [if_pos hxb] at hsx
      cases hs : s.shm_buffers x with
      | none => simp [hs] at hsx
      | some s0 =>
        simp only [hs, Option.map_some', Option.some.injEq] at hsx
        subst hsx
        simp [orphaned] at hown
    · rw [if_neg hxb] at hsx
      exact h.owner_live x sx o1 hsx hown

theorem destroyed_all_nil (s : wayland_backend) : destroyed_all s [] = s := by
  refine wayland_backend_ext _ _ rfl rfl ?_ ?_ rfl rfl rfl rfl rfl ?_ rfl rfl rfl rfl rfl
      rfl rfl rfl rfl rfl
  · funext o
    cases h : s.outputs o <;> simp [destroyed_all, h, remove_buffers_nil]
  · funext x
    simp [destroyed_all]
  · simp [destroyed_all]

theorem destroyed_all_cons (s : wayland_backend) (b : BufId) (bs : List BufId) :
    destroyed_all (destroyed_state s b) bs = destroyed_all s (b :: bs) := by
  refine wayland_backend_ext _ _ rfl rfl ?_ ?_ rfl rfl rfl rfl rfl ?_ rfl rfl rfl rfl rfl
      rfl rfl rfl rfl rfl
  · funext o
    cases h : s.outputs o <;> simp [destroyed_all, destroyed_state, h, remove_buffers_cons]
  · funext x
    by_cases hx : x = b
    · subst hx
      simp [destroyed_all, destroyed_state]
    · simp [destroyed_all, destroyed_state, hx, Function.update_apply]
  · simp [destroyed_all, destroyed_state]

theorem pool_inv_destroyed_all (bs : List BufId) :
    ∀ s : wayland_backend, pool_inv s → pool_inv (destroyed_all s bs) := by
  induction bs with
  | nil =>
    intro s h
    rw [destroyed_all_nil]
    exact h
  | cons b bs ih =>
    intro s h
    rw [← destroyed_all_cons]
    exact ih _ (pool_inv_destroyed s h b)

theorem pool_inv_geometry (s : wayland_backend) (h : pool_inv s) (o : OutId)
    (out : wayland_output) (ho : s.outputs o = some out) :
    pool_inv (resize_surface_geometry s o out) := by
  refine pool_inv_congr _ _ (pool_inv_set_output s h o out
    { out with frame := out.frame.map (fun f =>
        frame_resize_inside f (s.modes out.current_mode).width
          (s.modes out.current_mode).height) } ho rfl rfl) ?_
    (geometry_shm_buffers s o out) (geometry_next_buffer s o out)
  funext o1
  rw [geometry_outputs, set_output_outputs]

theorem pool_inv_resized (s : wayland_backend) (h : pool_inv s) (o : OutId)
    (out : wayland_output) (ho : s.outputs o = some out) :
    pool_inv (resized_state s o out) := by
  refine pool_inv_orphaned_all _
    (pool_inv_destroyed_all _ _ (pool_inv_geometry s h o out ho)) _ ?_
  intro b hb o1 out1 h1 hbf
  have hb1 := List.mem_filter.mp hb
  have hb2 : b ∉ out.free_buffers := by simpa using hb1.2
  simp only [destroyed_all, geometry_outputs] at h1
  by_cases ho1 : o1 = o
  · simp only [if_pos ho1, Option.map_some', Option.some.injEq] at h1
    subst h1
    simp only [remove_buffers, List.mem_filter] at hbf
    exact hb2 hbf.1
  · rw [if_neg ho1] at h1
    cases hs : s.outputs o1 with
    | none => simp [hs] at h1
    | some out0 =>
      simp only [hs, Option.map_some', Option.some.injEq] at h1
      subst h1
      simp only [remove_buffers, List.mem_filter] at hbf
      obtain ⟨-, sb, hsb, hown⟩ := h.free_owned o1 out0 hs b hbf.1
      obtain ⟨sb1, hsb1, hown1⟩ := h.listed o out ho b hb1.1
      rw [hsb] at hsb1
      cases hsb1
      rcases hown1 with h2 | h2
      · rw [hown] at h2
        cases h2
      · rw [hown] at h2
        cases h2
        exact ho1 rfl

theorem get_shm_buffer_cases (s : wayland_backend) (o : OutId) (a : shm_alloc)
    (r : Option BufId × wayland_backend)
    (h : wayland_output_get_shm_buffer s o a = some r) :
    ∃ out, s.outputs o = some out ∧
      ((∃ sb rest, out.free_buffers = sb :: rest ∧
          r = (some sb, set_output s o { out with free_buffers := rest })) ∨
        (out.free_buffers = [] ∧ r = (none, s)) ∨
        (out.free_buffers = [] ∧ r = (some s.next_buffer, acquired_state s o out))) := by
  cases ho : s.outputs o with
  | none => simp [wayland_output_get_shm_buffer, ho] at h
  | some out =>
    refine ⟨out, rfl, ?_⟩
    cases hf : out.free_buffers with
    | cons sb rest =>
      rw [get_shm_buffer_free s o a out sb rest ho hf] at h
      cases h
      exact Or.inl ⟨sb, rest, rfl, rfl⟩
    | nil =>
      obtain ⟨fd, mm, za⟩ := a
      by_cases hall : fd = true ∧ mm = true ∧ za = true
      · obtain ⟨rfl, rfl, rfl⟩ := hall
        rw [get_shm_buffer_new s o _ out ho hf rfl rfl rfl] at h
        cases h
        exact Or.inr (Or.inr ⟨rfl, rfl⟩)
      · have hr : wayland_output_get_shm_buffer s o ⟨fd, mm, za⟩ = some (none, s) := by
          unfold wayland_output_get_shm_buffer
          simp only [ho, hf]
          cases fd <;> cases mm <;> cases za <;> simp at hall ⊢
        rw [hr] at h
        cases h
        exact Or.inr (Or.inl ⟨rfl, rfl⟩)

theorem pool_inv_get_shm_buffer (s : wayland_backend) (h : pool_inv s) (o : OutId)
    (a : shm_alloc) (r : Option BufId × wayland_backend)
    (hr : wayland_output_get_shm_buffer s o a = some r) : pool_inv r.2 := by
  obtain ⟨out, ho, h1 | h1 | h1⟩ := get_shm_buffer_cases s o a r hr
  · obtain ⟨sb, rest, hf, rfl⟩ := h1
    exact pool_inv_pop s h o out sb rest ho hf
  · obtain ⟨-, rfl⟩ := h1
    exact h
  · obtain ⟨-, rfl⟩ := h1
    exact pool_inv_acquired s h o out ho

theorem pool_inv_buffer_release (s : wayland_backend) (h : pool_inv s) (b : BufId)
    (s1 : wayland_backend) (huse : buffer_in_use s b)
    (hr : buffer_release s b = some s1) : pool_inv s1 := by
  obtain ⟨⟨sb, hsb⟩, hnf⟩ := huse
  cases hown : sb.output with
  | none =>
    rw [buffer_release_orphan s b sb hsb hown] at hr
    cases hr
    exact pool_inv_destroyed s h b
  | some o =>
    obtain ⟨out, ho, -⟩ := h.owner_live b sb o hsb hown
    rw [buffer_release_owned s b sb o out hsb hown ho] at hr
    cases hr
    exact pool_inv_push s h b sb o out hsb hown ho (hnf o out ho)

theorem resize_surface_total (s : wayland_backend) (h : pool_inv s) (o : OutId)
    (out : wayland_output) (ho : s.outputs o = some out) :
    wayland_output_resize_surface s o = some (resized_state s o out) :=
  resize_surface_eq s o out ho (pool_inv_live_free s h o out ho) (h.free_nodup o out ho)
    (pool_inv_live_buffers s h o out ho)

theorem pool_inv_resize_surface (s : wayland_backend) (h : pool_inv s) (o : OutId)
    (s1 : wayland_backend) (hr : wayland_output_resize_surface s o = some s1) :
    pool_inv s1 := by
  cases ho : s.outputs o with
  | none => simp [wayland_output_resize_surface, ho] at hr
  | some out =>
    rw [resize_surface_total s h o out ho] at hr
    cases hr
    exact pool_inv_resized s h o out ho

theorem pool_inv_reachable (s0 s : wayland_backend) (h0 : pool_inv s0)
    (hr : pool_reachable s0 s) : pool_inv s := by
  induction hr with
  | init => exact h0
  | acquire s o a r _ hget ih => exact pool_inv_get_shm_buffer s ih o a r hget
  | release s b s1 _ huse hrel ih => exact pool_inv_buffer_release s ih b s1 huse hrel
  | resize s o s1 _ hres ih => exact pool_inv_resize_surface s ih o s1 hres

/-- C5: in every state reached from empty pools by acquires, releases of buffers in use
and resizes, every buffer on the free list of an output is live and has its owner
reference set to that output; hence every buffer that an acquire returns has its owner
reference set to the acquiring output, never cleared. -/
theorem free_list_buffers_owned (s0 s : wayland_backend) (h0 : empty_pools s0)
    (hr : pool_reachable s0 s) :
    (∀ o out, s.outputs o = some out → ∀ b ∈ out.free_buffers,
      ∃ sb, s.shm_buffers b = some sb ∧ sb.output = some o) ∧
    (∀ o a b s1, wayland_output_get_shm_buffer s o a = some (some b, s1) →
      ∃ sb, s1.shm_buffers b = some sb ∧ sb.output = some o) := by
  have hinv := pool_inv_reachable s0 s (pool_inv_of_empty s0 h0) hr
  constructor
  · intro o out ho b hb
    exact (hinv.free_owned o out ho b hb).2
  · intro o a b s1 hget
    obtain ⟨out, ho, h1 | h1 | h1⟩ := get_shm_buffer_cases s o a _ hget
    · obtain ⟨sb, rest, hf, hr1⟩ := h1
      cases hr1
      exact (hinv.free_owned o out ho b (by rw [hf]; exact List.mem_cons_self _ _)).2
    · obtain ⟨-, hr1⟩ := h1
      cases hr1
    · obtain ⟨-, hr1⟩ := h1
      cases hr1
      exact ⟨acquired_buffer s o out, by rw [acquired_state_shm_buffers, if_pos rfl], rfl⟩

/-- An orphaned live buffer stays live and orphaned, and the invariant holds, as long as
the buffer is not released. -/
theorem orphan_stays_orphaned (b : BufId) (s0 s : wayland_backend) (h0 : pool_inv s0)
    (hb0 : ∃ sb, s0.shm_buffers b = some sb ∧ sb.output = none)
    (hr : reachable_before_release b s0 s) :
    pool_inv s ∧ ∃ sb, s.shm_buffers b = some sb ∧ sb.output = none := by
  induction hr with
  | init => exact ⟨h0, hb0⟩
  | acquire s o a r _ hget ih =>
    obtain ⟨hinv, sb, hsb, hown⟩ := ih
    refine ⟨pool_inv_get_shm_buffer s hinv o a r hget, ?_⟩
    obtain ⟨out, ho, h1 | h1 | h1⟩ := get_shm_buffer_cases s o a r hget
    · obtain ⟨x, rest, -, rfl⟩ := h1
      exact ⟨sb, hsb, hown⟩
    · obtain ⟨-, rfl⟩ := h1
      exact ⟨sb, hsb, hown⟩
    · obtain ⟨-, rfl⟩ := h1
      refine ⟨sb, ?_, hown⟩
      show (acquired_state s o out).shm_buffers b = some sb
      rw [acquired_state_shm_buffers, if_neg (Nat.ne_of_lt (pool_inv_live_lt s hinv b sb hsb))]
      exact hsb
  | release s b1 s1 _ hne huse hrel ih =>
    obtain ⟨hinv, sb, hsb, hown⟩ := ih
    refine ⟨pool_inv_buffer_release s hinv b1 s1 huse hrel, ?_⟩
    obtain ⟨⟨sb1, hsb1⟩, -⟩ := huse
    cases hown1 : sb1.output with
    | none =>
      rw [buffer_release_orphan s b1 sb1 hsb1 hown1] at hrel
      cases hrel
      exact ⟨sb, by simp [destroyed_state, Function.update_apply, Ne.symm hne, hsb], hown⟩
    | some o =>
      obtain ⟨out, ho, -⟩ := hinv.owner_live b1 sb1 o hsb1 hown1
      rw [buffer_release_owned s b1 sb1 o out hsb1 hown1 ho] at hrel
      cases hrel
      exact ⟨sb, hsb, hown⟩
  | resize s o s1 _ hres ih =>
    obtain ⟨hinv, sb, hsb, hown⟩ := ih
    refine ⟨pool_inv_resize_surface s hinv o s1 hres, ?_⟩
    cases ho : s.outputs o with
    | none => simp [wayland_output_resize_surface, ho] at hres
    | some out =>
      rw [resize_surface_total s hinv o out ho] at hres
      cases hres
      have hnf : b ∉ out.free_buffers := by
        intro hmem
        obtain ⟨-, sx, hsx, hox⟩ := hinv.free_owned o out ho b hmem
        rw [hsb] at hsx
        cases hsx
        rw [hown] at hox
        cases hox
      by_cases hbl : b ∈ out.buffers
      · exact ⟨orphaned sb,
          by rw [resized_state_shm_buffers, if_neg hnf, if_pos hbl, hsb]; rfl, rfl⟩
      · exact ⟨sb, by rw [resized_state_shm_buffers, if_neg hnf, if_neg hbl]; exact hsb, hown⟩

/-- C4: on a well-formed pool, `wayland_output_resize_surface` leaves the free list of the
output empty, every buffer that was on the free list is destroyed, and every buffer that
was in use (in the buffer list and not on the free list) is still live with its owner
reference cleared; whatever acquires, resizes and releases of other buffers follow, the
`buffer_release` of such a buffer then destroys it and puts it on no free list. -/
theorem resize_surface_discards_pool (s : wayland_backend) (o : OutId)
    (out : wayland_output) (hinv : pool_inv s) (hout : s.outputs o = some out) :
    ∃ s1 out1, wayland_output_resize_surface s o = some s1 ∧
      s1.outputs o = some out1 ∧
      out1.free_buffers = [] ∧
      (∀ b ∈ out.free_buffers,
        s1.shm_buffers b = none ∧ host_call.buffer_destroy b ∈ s1.log) ∧
      (∀ b ∈ out.buffers, b ∉ out.free_buffers →
        (∃ sb1, s1.shm_buffers b = some sb1 ∧ sb1.output = none) ∧
        ∀ s2, reachable_before_release b s1 s2 →
          ∃ s3, buffer_release s2 b = some s3 ∧
            s3.shm_buffers b = none ∧
            host_call.buffer_destroy b ∈ s3.log ∧
            ∀ o2 out2, s3.outputs o2 = some out2 →
              b ∉ out2.free_buffers ∧ b ∉ out2.buffers) := by
  have hout1 : (resized_state s o out).outputs o =
      some (remove_buffers out.free_buffers { out with frame := out.frame.map (fun f =>
          frame_resize_inside f (s.modes out.current_mode).width
            (s.modes out.current_mode).height) }) := by
    rw [resized_state_outputs]
    simp
  refine ⟨resized_state s o out, _, resize_surface_total s hinv o out hout,
    hout1, ?_, ?_, ?_⟩
  · simp only [remove_buffers]
    rw [List.filter_eq_nil_iff]
    intro x hx
    simpa using hx
  · intro b hb
    refine ⟨by simp [resized_state_shm_buffers, hb], ?_⟩
    obtain ⟨l, hl⟩ := resized_state_log s o out
    rw [hl]
    exact List.mem_append_right _ (List.mem_map_of_mem _ hb)
  · intro b hb hnf
    obtain ⟨sb, hsb, -⟩ := hinv.listed o out hout b hb
    have hlive : (resized_state s o out).shm_buffers b = some (orphaned sb) := by
      simp [resized_state_shm_buffers, hb, hnf, hsb]
    refine ⟨⟨orphaned sb, hlive, rfl⟩, ?_⟩
    intro s2 hr
    obtain ⟨-, sb2, hsb2, hown2⟩ := orphan_stays_orphaned b _ s2
      (pool_inv_resized s hinv o out hout) ⟨orphaned sb, hlive, rfl⟩ hr
    refine ⟨destroyed_state s2 b, buffer_release_orphan s2 b sb2 hsb2 hown2,
      by simp [destroyed_state], by simp [destroyed_state], ?_⟩
    intro o2 out2 h2
    exact (destroyed_state_not_linked _ b o2 out2 h2).symm

/-! ## What the pool operations keep of an output -/

theorem same_identity_refl (out : wayland_output) : same_identity out out :=
  ⟨rfl, rfl, rfl, rfl, rfl, rfl, rfl, rfl⟩

theorem same_identity_trans (a b c : wayland_output) (h1 : same_identity a b)
    (h2 : same_identity b c) : same_identity a c :=
  ⟨h2.enabled.trans h1.enabled, h2.current_mode.trans h1.current_mode,
    h2.mode_list.trans h1.mode_list, h2.surface.trans h1.surface,
    h2.parent_output.trans h1.parent_output, h2.shell_surface.trans h1.shell_surface,
    h2.egl_window.trans h1.egl_window, h2.renderer_state.trans h1.renderer_state⟩

theorem output_kept_refl (o : OutId) (s : wayland_backend) : output_kept o s s :=
  ⟨rfl, rfl, fun out h => ⟨out, h, same_identity_refl out⟩, ⟨[], by simp⟩⟩

theorem output_kept_trans (o : OutId) (s s1 s2 : wayland_backend)
    (h1 : output_kept o s s1) (h2 : output_kept o s1 s2) : output_kept o s s2 where
  modes := h2.modes.trans h1.modes
  use_pixman := h2.use_pixman.trans h1.use_pixman
  output := fun out ho => by
    obtain ⟨out1, ho1, hi1⟩ := h1.output out ho
    obtain ⟨out2, ho2, hi2⟩ := h2.output out1 ho1
    exact ⟨out2, ho2, same_identity_trans _ _ _ hi1 hi2⟩
  log := by
    obtain ⟨l1, hl1⟩ := h1.log
    obtain ⟨l2, hl2⟩ := h2.log
    exact ⟨l1 ++ l2, by rw [hl2, hl1, List.append_assoc]⟩

theorem output_kept_emit (o : OutId) (s : wayland_backend) (c : host_call) :
    output_kept o s (emit s c) :=
  ⟨rfl, rfl, fun out h => ⟨out, h, same_identity_refl out⟩, ⟨[c], rfl⟩⟩

theorem output_kept_set_buffer (o : OutId) (s : wayland_backend) (b : BufId)
    (sb : wayland_shm_buffer) : output_kept o s (set_buffer s b sb) :=
  ⟨rfl, rfl, fun out h => ⟨out, h, same_identity_refl out⟩, ⟨[], by simp⟩⟩

theorem output_kept_set_output (o o1 : OutId) (s : wayland_backend) (out1 : wayland_output)
    (h : ∀ out, s.outputs o1 = some out → same_identity out out1) :
    output_kept o s (set_output s o1 out1) where
  modes := rfl
  use_pixman := rfl
  output := fun out ho => by
    by_cases h1 : o = o1
    · subst h1
      exact ⟨out1, by simp, h out ho⟩
    · exact ⟨out, by simp [h1, ho], same_identity_refl out⟩
  log := ⟨[], by simp⟩

theorem output_kept_congr (o : OutId) (s s1 t : wayland_backend)
    (h : output_kept o s s1) (h1 : t.modes = s1.modes) (h2 : t.use_pixman = s1.use_pixman)
    (h3 : t.outputs = s1.outputs) (h4 : t.log = s1.log) : output_kept o s t where
  modes := h1.trans h.modes
  use_pixman := h2.trans h.use_pixman
  output := by rw [h3]; exact h.output
  log := by rw [h4]; exact h.log

theorem output_kept_destroyed (o : OutId) (s : wayland_backend) (b : BufId) :
    output_kept o s (destroyed_state s b) where
  modes := rfl
  use_pixman := rfl
  output := fun out ho =>
    ⟨unlink_buffer b out, by simp [destroyed_state, ho], ⟨rfl, rfl, rfl, rfl, rfl, rfl, rfl, rfl⟩⟩
  log := ⟨[host_call.buffer_destroy b], rfl⟩

theorem output_kept_acquired (o1 o : OutId) (s : wayland_backend) (out : wayland_output)
    (ho : s.outputs o = some out) : output_kept o1 s (acquired_state s o out) where
  modes := acquired_state_modes s o out
  use_pixman := rfl
  output := fun out1 h1 => by
    by_cases h : o1 = o
    · subst h
      rw [ho] at h1
      cases h1
      exact ⟨{ out with buffers := s.next_buffer :: out.buffers },
        by rw [acquired_state_outputs, if_pos rfl], ⟨rfl, rfl, rfl, rfl, rfl, rfl, rfl, rfl⟩⟩
    · exact ⟨out1, by rw [acquired_state_outputs, if_neg h]; exact h1,
        same_identity_refl out1⟩
  log := ⟨_, rfl⟩

theorem resized_state_use_pixman (s : wayland_backend) (o : OutId)
    (out : wayland_output) : (resized_state s o out).use_pixman = s.use_pixman := by
  simp only [resized_state, orphaned_all, destroyed_all, resize_surface_geometry]
  cases out.egl_window <;> rfl

theorem output_kept_resized (o1 o : OutId) (s : wayland_backend) (out : wayland_output)
    (ho : s.outputs o = some out) : output_kept o1 s (resized_state s o out) where
  modes := resized_state_modes s o out
  use_pixman := resized_state_use_pixman s o out
  output := fun out1 h1 => by
    rw [resized_state_outputs]
    by_cases h : o1 = o
    · subst h
      rw [ho] at h1
      cases h1
      exact ⟨remove_buffers out.free_buffers { out with frame := out.frame.map (fun f =>
          frame_resize_inside f (s.modes out.current_mode).width
            (s.modes out.current_mode).height) }, by rw [if_pos rfl]; rfl,
        ⟨rfl, rfl, rfl, rfl, rfl, rfl, rfl, rfl⟩⟩
    · exact ⟨remove_buffers out.free_buffers out1, by rw [if_neg h, h1]; rfl,
        ⟨rfl, rfl, rfl, rfl, rfl, rfl, rfl, rfl⟩⟩
  log := by
    obtain ⟨l, hl⟩ := resized_state_log s o out
    exact ⟨l ++ out.free_buffers.map host_call.buffer_destroy,
      by rw [hl, List.append_assoc]⟩

/-! ## Steps of the pool: invariant and identity together -/

theorem get_shm_buffer_step (s : wayland_backend) (h : pool_inv s) (o : OutId)
    (a : shm_alloc) (r : Option BufId × wayland_backend)
    (hr : wayland_output_get_shm_buffer s o a = some r) (o1 : OutId) :
    pool_inv r.2 ∧ output_kept o1 s r.2 := by
  refine ⟨pool_inv_get_shm_buffer s h o a r hr, ?_⟩
  obtain ⟨out, ho, h1 | h1 | h1⟩ := get_shm_buffer_cases s o a r hr
  · obtain ⟨sb, rest, hf, rfl⟩ := h1
    refine output_kept_set_output o1 o s _ (fun out0 h0 => ?_)
    rw [ho] at h0
    cases h0
    exact ⟨rfl, rfl, rfl, rfl, rfl, rfl, rfl, rfl⟩
  · obtain ⟨-, rfl⟩ := h1
    exact output_kept_refl o1 s
  · obtain ⟨-, rfl⟩ := h1
    exact output_kept_acquired o1 o s out ho

theorem get_shm_buffer_result_in_use (s : wayland_backend) (h : pool_inv s) (o : OutId)
    (a : shm_alloc) (b : BufId) (s1 : wayland_backend)
    (hr : wayland_output_get_shm_buffer s o a = some (some b, s1)) :
    ∀ o1 out1, s1.outputs o1 = some out1 → b ∉ out1.free_buffers := by
  intro o1 out1 h1 hb
  obtain ⟨out, ho, h2 | h2 | h2⟩ := get_shm_buffer_cases s o a _ hr
  · obtain ⟨sb, rest, hf, hr1⟩ := h2
    cases hr1
    have hnd := h.free_nodup o out ho
    rw [hf] at hnd
    rw [set_output_outputs] at h1
    by_cases ho1 : o1 = o
    · rw [if_pos ho1] at h1
      cases h1
      exact (List.nodup_cons.mp hnd).1 hb
    · rw [if_neg ho1] at h1
      obtain ⟨-, sx, hsx, hown⟩ := h.free_owned o1 out1 h1 b hb
      obtain ⟨-, sy, hsy, hown1⟩ := h.free_owned o out ho b
        (by rw [hf]; exact List.mem_cons_self _ _)
      rw [hsx] at hsy
      cases hsy
      rw [hown] at hown1
      cases hown1
      exact ho1 rfl
  · obtain ⟨-, hr1⟩ := h2
    cases hr1
  · obtain ⟨-, hr1⟩ := h2
    cases hr1
    rw [acquired_state_outputs] at h1
    by_cases ho1 : o1 = o
    · rw [if_pos ho1] at h1
      cases h1
      obtain ⟨-, sx, hsx, -⟩ := h.free_owned o out ho _ hb
      exact Nat.lt_irrefl _ (pool_inv_live_lt s h _ sx hsx)
    · rw [if_neg ho1] at h1
      obtain ⟨-, sx, hsx, -⟩ := h.free_owned o1 out1 h1 _ hb
      exact Nat.lt_irrefl _ (pool_inv_live_lt s h _ sx hsx)

theorem pool_inv_orphan (s : wayland_backend) (h : pool_inv s) (b : BufId)
    (sb : wayland_shm_buffer) (hb : s.shm_buffers b = some sb)
    (hnf : ∀ o out, s.outputs o = some out → b ∉ out.free_buffers) :
    pool_inv (set_buffer s b { sb with output := none }) := by
  refine pool_inv_congr _ _ (pool_inv_orphaned_all s h [b] ?_) rfl ?_ rfl
  · intro x hx
    rw [List.mem_singleton] at hx
    subst hx
    exact hnf
  · funext x
    by_cases hx : x = b
    · subst hx
      simp [orphaned_all, hb, orphaned]
    · simp [orphaned_all, hx]

theorem buffer_release_step (s : wayland_backend) (h : pool_inv s) (b : BufId)
    (s1 : wayland_backend) (huse : buffer_in_use s b)
    (hr : buffer_release s b = some s1) (o1 : OutId) :
    pool_inv s1 ∧ output_kept o1 s s1 := by
  refine ⟨pool_inv_buffer_release s h b s1 huse hr, ?_⟩
  obtain ⟨⟨sb, hsb⟩, -⟩ := huse
  cases hown : sb.output with
  | none =>
    rw [buffer_release_orphan s b sb hsb hown] at hr
    cases hr
    exact output_kept_destroyed o1 s b
  | some o =>
    obtain ⟨out, ho, -⟩ := h.owner_live b sb o hsb hown
    rw [buffer_release_owned s b sb o out hsb hown ho] at hr
    cases hr
    refine output_kept_set_output o1 o s _ (fun out0 h0 => ?_)
    rw [ho] at h0
    cases h0
    exact ⟨rfl, rfl, rfl, rfl, rfl, rfl, rfl, rfl⟩

theorem resize_surface_step (s : wayland_backend) (h : pool_inv s) (o : OutId)
    (s1 : wayland_backend) (hr : wayland_output_resize_surface s o = some s1)
    (o1 : OutId) : pool_inv s1 ∧ output_kept o1 s s1 := by
  refine ⟨pool_inv_resize_surface s h o s1 hr, ?_⟩
  cases ho : s.outputs o with
  | none => simp [wayland_output_resize_surface, ho] at hr
  | some out =>
    rw [resize_surface_total s h o out ho] at hr
    cases hr
    exact output_kept_resized o1 o s out ho

theorem draw_initial_frame_step (s : wayland_backend) (h : pool_inv s) (o : OutId)
    (a : shm_alloc) (s1 : wayland_backend) (hr : draw_initial_frame s o a = some s1)
    (o1 : OutId) : pool_inv s1 ∧ output_kept o1 s s1 := by
  unfold draw_initial_frame at hr
  cases hget : wayland_output_get_shm_buffer s o a with
  | none => simp [hget] at hr
  | some r =>
    obtain ⟨rb, s2⟩ := r
    cases rb with
    | none => simp [hget] at hr
    | some sb =>
      obtain ⟨hinv2, hk2⟩ := get_shm_buffer_step s h o a _ hget o1
      have huse := get_shm_buffer_result_in_use s h o a sb s2 hget
      simp only [hget] at hr
      cases hout : s2.outputs o with
      | none => simp [hout] at hr
      | some out =>
        cases hbuf : s2.shm_buffers sb with
        | none => simp [hout, hbuf] at hr
        | some buf =>
          simp only [hout, hbuf, Option.some.injEq] at hr
          subst hr
          by_cases hegl : out.egl_window.isSome = true
          · simp only [hegl, if_true]
            refine ⟨pool_inv_emit _ _ (pool_inv_emit _ _
              (pool_inv_orphan s2 hinv2 sb buf hbuf huse)), ?_⟩
            exact output_kept_trans o1 _ _ _ hk2
              (output_kept_trans o1 _ _ _ (output_kept_set_buffer o1 s2 sb _)
                (output_kept_trans o1 _ _ _ (output_kept_emit o1 _ _)
                  (output_kept_emit o1 _ _)))
          · simp only [hegl]
            refine ⟨pool_inv_emit _ _ (pool_inv_emit _ _ hinv2), ?_⟩
            exact output_kept_trans o1 _ _ _ hk2
              (output_kept_trans o1 _ _ _ (output_kept_emit o1 _ _)
                (output_kept_emit o1 _ _))

theorem start_repaint_loop_step (s : wayland_backend) (h : pool_inv s) (o : OutId)
    (a : shm_alloc) (s1 : wayland_backend)
    (hr : wayland_output_start_repaint_loop s o a = some s1) (o1 : OutId) :
    pool_inv s1 ∧ output_kept o1 s s1 := by
  unfold wayland_output_start_repaint_loop at hr
  cases ho : s.outputs o with
  | none => simp [ho] at hr
  | some out =>
    simp only [ho] at hr
    have hmid : ∀ s2, (if out.draw_initial_frame = true then
          draw_initial_frame (set_output s o { out with draw_initial_frame := false }) o a
        else some s) = some s2 → pool_inv s2 ∧ output_kept o1 s s2 := by
      intro s2 h2
      by_cases hd : out.draw_initial_frame = true
      · rw [if_pos hd] at h2
        have hinv1 := pool_inv_set_output s h o out
          { out with draw_initial_frame := false } ho rfl rfl
        obtain ⟨h3, h4⟩ := draw_initial_frame_step _ hinv1 o a s2 h2 o1
        refine ⟨h3, output_kept_trans o1 _ _ _
          (output_kept_set_output o1 o s _ (fun out0 h0 => ?_)) h4⟩
        rw [ho] at h0
        cases h0
        exact ⟨rfl, rfl, rfl, rfl, rfl, rfl, rfl, rfl⟩
      · rw [if_neg hd] at h2
        cases h2
        exact ⟨h, output_kept_refl o1 s⟩
    cases hm : (if out.draw_initial_frame = true then
          draw_initial_frame (set_output s o { out with draw_initial_frame := false }) o a
        else some s) with
    | none => simp [hm] at hr
    | some s2 =>
      obtain ⟨h3, h4⟩ := hmid s2 hm
      simp only [hm] at hr
      cases ho2 : s2.outputs o with
      | none => simp [ho2] at hr
      | some out2 =>
        simp only [ho2, Option.some.injEq] at hr
        subst hr
        refine ⟨pool_inv_emit _ _ (pool_inv_emit _ _ (pool_inv_emit _ _ h3)), ?_⟩
        exact output_kept_trans o1 _ _ _ h4
          (output_kept_trans o1 _ _ _ (output_kept_emit o1 _ _)
            (output_kept_trans o1 _ _ _ (output_kept_emit o1 _ _)
              (output_kept_emit o1 _ _)))

/-! ## The wait of a mode switch -/

theorem handle_event_step (s : wayland_backend) (h : pool_inv s) (st : mode_status)
    (e : host_event) (s1 : wayland_backend) (st1 : mode_status)
    (hv : match e with
      | host_event.release b => buffer_in_use s b
      | _ => True)
    (hr : handle_event s st e = some (s1, st1)) (o1 : OutId) :
    pool_inv s1 ∧ output_kept o1 s s1 := by
  cases e with
  | release b =>
    simp only [handle_event, Option.map_eq_some', Prod.mk.injEq] at hr
    obtain ⟨s2, h2, rfl, -⟩ := hr
    exact buffer_release_step s h b s2 hv h2 o1
  | mode_feedback_successful =>
    simp only [handle_event, Option.some.injEq, Prod.mk.injEq] at hr
    obtain ⟨rfl, -⟩ := hr
    exact ⟨h, output_kept_refl o1 s⟩
  | mode_feedback_failed =>
    simp only [handle_event, Option.some.injEq, Prod.mk.injEq] at hr
    obtain ⟨rfl, -⟩ := hr
    exact ⟨h, output_kept_refl o1 s⟩
  | mode_feedback_cancelled =>
    simp only [handle_event, Option.some.injEq, Prod.mk.injEq] at hr
    obtain ⟨rfl, -⟩ := hr
    exact ⟨h, output_kept_refl o1 s⟩

theorem handle_events_step (es : List host_event) (o1 : OutId) :
    ∀ (s : wayland_backend) (st : mode_status) (s1 : wayland_backend) (st1 : mode_status),
      pool_inv s → events_valid s st es → handle_events s st es = some (s1, st1) →
      pool_inv s1 ∧ output_kept o1 s s1 := by
  induction es with
  | nil =>
    intro s st s1 st1 h _ hr
    simp only [handle_events, Option.some.injEq, Prod.mk.injEq] at hr
    obtain ⟨rfl, -⟩ := hr
    exact ⟨h, output_kept_refl o1 s⟩
  | cons e es ih =>
    intro s st s1 st1 h hv hr
    simp only [events_valid] at hv
    simp only [handle_events] at hr
    cases he : handle_event s st e with
    | none => simp [he] at hr
    | some p =>
      obtain ⟨s2, st2⟩ := p
      simp only [he] at hr hv
      obtain ⟨h2, k2⟩ := handle_event_step s h st e s2 st2 hv.1 he o1
      obtain ⟨h3, k3⟩ := ih s2 st2 s1 st1 h2 hv.2 hr
      exact ⟨h3, output_kept_trans o1 _ _ _ k2 k3⟩

theorem dispatch_loop_step (ds : List dispatch_result) (o1 : OutId) :
    ∀ (s : wayland_backend) (st : mode_status) (ret : Int) (s1 : wayland_backend)
      (st1 : mode_status) (ret1 : Int),
      pool_inv s → dispatch_valid s st ret ds →
      dispatch_loop s st ret ds = some (s1, st1, ret1) →
      pool_inv s1 ∧ output_kept o1 s s1 := by
  induction ds with
  | nil =>
    intro s st ret s1 st1 ret1 h _ hr
    simp only [dispatch_loop] at hr
    split at hr
    · cases hr
    · simp only [Option.some.injEq, Prod.mk.injEq] at hr
      obtain ⟨rfl, -⟩ := hr
      exact ⟨h, output_kept_refl o1 s⟩
  | cons d ds ih =>
    intro s st ret s1 st1 ret1 h hv hr
    simp only [dispatch_loop] at hr
    simp only [dispatch_valid] at hv
    by_cases hc : st = mode_status.MODE_STATUS_UNKNOWN ∧ 0 ≤ ret
    · rw [if_pos hc] at hr hv
      cases he : handle_events s st d.events with
      | none => simp [he] at hr
      | some p =>
        obtain ⟨s2, st2⟩ := p
        simp only [he] at hr hv
        obtain ⟨h2, k2⟩ := handle_events_step d.events o1 s st s2 st2 h hv.1 he
        obtain ⟨h3, k3⟩ := ih s2 st2 d.ret s1 st1 ret1 h2 hv.2 hr
        exact ⟨h3, output_kept_trans o1 _ _ _ k2 k3⟩
    · rw [if_neg hc] at hr
      simp only [Option.some.injEq, Prod.mk.injEq] at hr
      obtain ⟨rfl, -⟩ := hr
      exact ⟨h, output_kept_refl o1 s⟩

/-! ## Mode switch: the request and the rollback -/

theorem switch_mode_swapped_inv (s : wayland_backend) (h : pool_inv s) (o : OutId)
    (out : wayland_output) (ho : s.outputs o = some out) (mode : ModeId) :
    pool_inv (switch_mode_swapped s o out mode) :=
  pool_inv_congr _ _ (pool_inv_set_output s h o out
    { out with current_mode := mode, surface := some s.next_surface } ho rfl rfl)
    rfl rfl rfl

theorem switch_mode_swapped_outputs (s : wayland_backend) (o : OutId)
    (out : wayland_output) (mode : ModeId) :
    (switch_mode_swapped s o out mode).outputs o =
      some { out with current_mode := mode, surface := some s.next_surface } := by
  simp [switch_mode_swapped]

/-- What the request part of a mode switch establishes: the invariant holds, the output
has the new mode and the new surface, the modes are untouched and the creation of the
surface is in the log. -/
theorem switch_mode_request_step (s : wayland_backend) (h : pool_inv s) (o : OutId)
    (out : wayland_output) (ho : s.outputs o = some out) (mode : ModeId) (a : shm_alloc)
    (s4 : wayland_backend) (hr : switch_mode_request s o out mode a = some s4) :
    pool_inv s4 ∧ s4.modes = s.modes ∧ s4.use_pixman = s.use_pixman ∧
      host_call.surface_create s.next_surface ∈ s4.log ∧
      (∀ c ∈ s.log, c ∈ s4.log) ∧
      ∃ out4, s4.outputs o = some out4 ∧ out4.current_mode = mode ∧
        out4.surface = some s.next_surface ∧
        out4.renderer_state = out.renderer_state ∧
        out4.egl_window = out.egl_window ∧
        out4.mode_list = out.mode_list := by
  unfold switch_mode_request at hr
  have h1 := switch_mode_swapped_inv s h o out ho mode
  cases hres : wayland_output_resize_surface (switch_mode_swapped s o out mode) o with
  | none => simp [hres] at hr
  | some s2 =>
    obtain ⟨h2, k2⟩ := resize_surface_step _ h1 o s2 hres o
    simp only [hres] at hr
    obtain ⟨out2, ho2, hi2⟩ := k2.output _ (switch_mode_swapped_outputs s o out mode)
    have ho3 : (emit s2 (host_call.present_surface_for_mode (some s.next_surface)
        out.parent_output (s.modes mode).refresh)).outputs o = some out2 := ho2
    simp only [ho3] at hr
    have h3 : pool_inv (set_output (emit s2 (host_call.present_surface_for_mode
        (some s.next_surface) out.parent_output (s.modes mode).refresh)) o
        { out2 with draw_initial_frame := true }) :=
      pool_inv_set_output _ (pool_inv_emit _ _ h2) o out2 _ ho3 rfl rfl
    obtain ⟨h4, k4⟩ := start_repaint_loop_step _ h3 o a s4 hr o
    obtain ⟨out4, ho4, hi4⟩ := k4.output { out2 with draw_initial_frame := true } (by simp)
    obtain ⟨l2, hl2⟩ := k2.log
    obtain ⟨l4, hl4⟩ := k4.log
    have hlog : s4.log = s.log ++ [host_call.surface_create s.next_surface] ++ l2 ++
        [host_call.present_surface_for_mode (some s.next_surface) out.parent_output
          (s.modes mode).refresh] ++ l4 := by
      rw [hl4]
      simp only [set_output_log, emit_log, hl2]
      rfl
    refine ⟨h4, ?_, ?_, ?_, ?_, out4, ho4, ?_, ?_, ?_, ?_, ?_⟩
    · rw [k4.modes]
      show s2.modes = s.modes
      rw [k2.modes]
      rfl
    · rw [k4.use_pixman]
      show s2.use_pixman = s.use_pixman
      rw [k2.use_pixman]
      rfl
    · rw [hlog]
      simp
    · intro c hc
      rw [hlog]
      simp [hc]
    · rw [hi4.current_mode]
      exact hi2.current_mode
    · rw [hi4.surface]
      exact hi2.surface
    · rw [hi4.renderer_state]
      exact hi2.renderer_state
    · rw [hi4.egl_window]
      exact hi2.egl_window
    · rw [hi4.mode_list]
      exact hi2.mode_list

/-- The pool of an output after `wayland_output_resize_surface`: the identity of the
output is kept, its free list is empty and every buffer it lists is live with its owner
reference cleared. -/
theorem resized_state_pool (s : wayland_backend) (h : pool_inv s) (o : OutId)
    (out : wayland_output) (ho : s.outputs o = some out) :
    ∃ out1, (resized_state s o out).outputs o = some out1 ∧ same_identity out out1 ∧
      out1.free_buffers = [] ∧
      ∀ b ∈ out1.buffers,
        ∃ sb, (resized_state s o out).shm_buffers b = some sb ∧ sb.output = none := by
  refine ⟨remove_buffers out.free_buffers { out with frame := out.frame.map (fun f =>
      frame_resize_inside f (s.modes out.current_mode).width
        (s.modes out.current_mode).height) }, ?_, ⟨rfl, rfl, rfl, rfl, rfl, rfl, rfl, rfl⟩,
    ?_, ?_⟩
  · rw [resized_state_outputs, if_pos rfl]
    rfl
  · simp only [remove_buffers]
    rw [List.filter_eq_nil_iff]
    intro x hx
    simpa using hx
  · intro b hb
    simp only [remove_buffers, List.mem_filter] at hb
    have hnf : b ∉ out.free_buffers := by simpa using hb.2
    obtain ⟨sb, hsb, -⟩ := h.listed o out ho b hb.1
    exact ⟨orphaned sb, by rw [resized_state_shm_buffers, if_neg hnf, if_pos hb.1, hsb]; rfl,
      rfl⟩

/-- The rollback of a mode switch: after `MODE_STATUS_FAIL` the last part of
`wayland_output_switch_mode` returns -1 with the old mode and the old surface back in
place, the surface of the switch destroyed, the renderer context and the modes
untouched, the free list empty and every listed buffer orphaned. -/
theorem switch_mode_finish_fail (s5 : wayland_backend) (h : pool_inv s5) (o : OutId)
    (out5 : wayland_output) (ho : s5.outputs o = some out5) (old_mode : ModeId)
    (old_surface : Option SurfId) (r : renderer_outcome) :
    ∃ s8 out8, switch_mode_finish s5 o old_mode old_surface mode_status.MODE_STATUS_FAIL r
        = some (-1, s8) ∧
      s8.outputs o = some out8 ∧
      out8.current_mode = old_mode ∧
      out8.surface = old_surface ∧
      out8.renderer_state = out5.renderer_state ∧
      out8.free_buffers = [] ∧
      (∀ b ∈ out8.buffers, ∃ sb, s8.shm_buffers b = some sb ∧ sb.output = none) ∧
      s8.modes = s5.modes ∧
      host_call.surface_destroy out5.surface ∈ s8.log ∧
      (∀ c ∈ s5.log, c ∈ s8.log) ∧
      pool_inv s8 := by
  have hX : pool_inv (set_output (emit (set_output (emit s5 host_call.mode_feedback_destroy)
      o { out5 with current_mode := old_mode }) (host_call.surface_destroy out5.surface)) o
      { out5 with current_mode := old_mode, surface := old_surface }) := by
    refine pool_inv_congr _ _ (pool_inv_set_output s5 h o out5
      { out5 with current_mode := old_mode, surface := old_surface } ho rfl rfl) ?_ rfl rfl
    funext o1
    by_cases h1 : o1 = o <;> simp [h1]
  have hoX : (set_output (emit (set_output (emit s5 host_call.mode_feedback_destroy)
      o { out5 with current_mode := old_mode }) (host_call.surface_destroy out5.surface)) o
      { out5 with current_mode := old_mode, surface := old_surface }).outputs o =
      some { out5 with current_mode := old_mode, surface := old_surface } := by
    simp
  have hres := resize_surface_total _ hX o _ hoX
  obtain ⟨out8, ho8, hi8, hf8, hb8⟩ := resized_state_pool _ hX o _ hoX
  obtain ⟨l, hl⟩ := resized_state_log
    (set_output (emit (set_output (emit s5 host_call.mode_feedback_destroy)
      o { out5 with current_mode := old_mode }) (host_call.surface_destroy out5.surface)) o
      { out5 with current_mode := old_mode, surface := old_surface }) o
    { out5 with current_mode := old_mode, surface := old_surface }
  have hlog : ∀ c, c ∈ s5.log ∨ c = host_call.surface_destroy out5.surface →
      c ∈ (resized_state (set_output (emit (set_output
        (emit s5 host_call.mode_feedback_destroy)
        o { out5 with current_mode := old_mode }) (host_call.surface_destroy out5.surface)) o
        { out5 with current_mode := old_mode, surface := old_surface }) o
        { out5 with current_mode := old_mode, surface := old_surface }).log := by
    intro c hc
    rw [hl]
    simp only [set_output_log, emit_log, List.mem_append, List.mem_singleton]
    rcases hc with hc | hc
    · exact Or.inl (Or.inl (Or.inl (Or.inl hc)))
    · exact Or.inl (Or.inl (Or.inr hc))
  refine ⟨_, out8, ?_, ho8, hi8.current_mode, hi8.surface, hi8.renderer_state, hf8, hb8,
    ?_, hlog _ (Or.inr rfl), fun c hc => hlog c (Or.inl hc),
    pool_inv_resized _ hX o _ hoX⟩
  · unfold switch_mode_finish
    have ho6 : (emit s5 host_call.mode_feedback_destroy).outputs o = some out5 := ho
    simp only [ho6, if_true, hres]
  · rw [resized_state_modes]
    rfl

/-- A mode switch that the host answers with `MODE_STATUS_FAIL`, from the request to the
rollback. -/
theorem switch_mode_fail_core (s : wayland_backend) (o : OutId) (out : wayland_output)
    (ref_mode : weston_mode) (mode : ModeId) (a : shm_alloc) (d : List dispatch_result)
    (r : renderer_outcome) (s4 s5 : wayland_backend) (ret : Int)
    (hinv : pool_inv s) (hout : s.outputs o = some out)
    (hshell : out.shell_surface = none) (hfs : s.fshell = true)
    (hchoose : wayland_output_choose_mode s.modes out.mode_list ref_mode = some mode)
    (hne : out.current_mode ≠ mode)
    (hreq : switch_mode_request s o out mode a = some s4)
    (hvalid : dispatch_valid s4 mode_status.MODE_STATUS_UNKNOWN 0 d)
    (hfail : dispatch_loop s4 mode_status.MODE_STATUS_UNKNOWN 0 d =
      some (s5, mode_status.MODE_STATUS_FAIL, ret)) :
    ∃ s8 out8, wayland_output_switch_mode s (some o) (some ref_mode) a d r = some (-1, s8) ∧
      s8.outputs o = some out8 ∧
      out8.current_mode = out.current_mode ∧
      out8.surface = out.surface ∧
      out8.renderer_state = out.renderer_state ∧
      out8.free_buffers = [] ∧
      (∀ b ∈ out8.buffers, ∃ sb, s8.shm_buffers b = some sb ∧ sb.output = none) ∧
      s8.modes = s.modes ∧
      host_call.surface_create s.next_surface ∈ s8.log ∧
      host_call.surface_destroy (some s.next_surface) ∈ s8.log := by
  obtain ⟨h4, hm4, -, hc4, -, out4, ho4, -, hs4, hr4, -, -⟩ :=
    switch_mode_request_step s hinv o out hout mode a s4 hreq
  obtain ⟨h5, k5⟩ := dispatch_loop_step d o s4 _ 0 s5 _ ret h4 hvalid hfail
  obtain ⟨out5, ho5, hi5⟩ := k5.output out4 ho4
  obtain ⟨s8, out8, hfin, ho8, hcm, hsf, hrs, hfree, horph, hmodes, hdes, hlog, -⟩ :=
    switch_mode_finish_fail s5 h5 o out5 ho5 out.current_mode out.surface r
  obtain ⟨l5, hl5⟩ := k5.log
  refine ⟨s8, out8, ?_, ho8, hcm, hsf, ?_, hfree, horph, ?_, ?_, ?_⟩
  · simp only [wayland_output_switch_mode, hout, hshell, hfs, hchoose, hreq, hfail]
    simp [hne, hfin]
  · rw [hrs, hi5.renderer_state, hr4]
  · rw [hmodes, k5.modes, hm4]
  · apply hlog
    rw [hl5]
    exact List.mem_append_left _ hc4
  · have : out5.surface = some s.next_surface := by rw [hi5.surface, hs4]
    rw [← this]
    exact hdes

/-- C8: when the host answers a mode switch with `MODE_STATUS_FAIL`,
`wayland_output_switch_mode` returns -1, the current mode of the output is the mode that
was current before the call, its surface is the surface it had before the call, and the
surface created for the switch has been destroyed.  The pool is well formed at the call,
the output passes the guards of the function, `s4` is the state in which the request
leaves the backend, and every buffer released during the wait is in use. -/
theorem switch_mode_fail_restores (s : wayland_backend) (o : OutId) (out : wayland_output)
    (ref_mode : weston_mode) (mode : ModeId) (a : shm_alloc) (d : List dispatch_result)
    (r : renderer_outcome) (s4 s5 : wayland_backend) (ret : Int)
    (hinv : pool_inv s) (hout : s.outputs o = some out)
    (hshell : out.shell_surface = none) (hfs : s.fshell = true)
    (hchoose : wayland_output_choose_mode s.modes out.mode_list ref_mode = some mode)
    (hne : out.current_mode ≠ mode)
    (hreq : switch_mode_request s o out mode a = some s4)
    (hvalid : dispatch_valid s4 mode_status.MODE_STATUS_UNKNOWN 0 d)
    (hfail : dispatch_loop s4 mode_status.MODE_STATUS_UNKNOWN 0 d =
      some (s5, mode_status.MODE_STATUS_FAIL, ret)) :
    ∃ s8 out8, wayland_output_switch_mode s (some o) (some ref_mode) a d r = some (-1, s8) ∧
      s8.outputs o = some out8 ∧
      out8.current_mode = out.current_mode ∧
      out8.surface = out.surface ∧
      host_call.surface_create s.next_surface ∈ s8.log ∧
      host_call.surface_destroy (some s.next_surface) ∈ s8.log := by
  obtain ⟨s8, out8, h1, h2, h3, h4, -, -, -, -, h5, h6⟩ :=
    switch_mode_fail_core s o out ref_mode mode a d r s4 s5 ret hinv hout hshell hfs
      hchoose hne hreq hvalid hfail
  exact ⟨s8, out8, h1, h2, h3, h4, h5, h6⟩

/-- C10, amended: when the host answers a mode switch with `MODE_STATUS_FAIL`, the flags
of every mode are the same after the call as before it; the buffer pool is not kept:
after the call the free list of the output is empty and every buffer left in its buffer
list is live with its owner reference cleared. -/
theorem switch_mode_fail_keeps_flags (s : wayland_backend) (o : OutId)
    (out : wayland_output) (ref_mode : weston_mode) (mode : ModeId) (a : shm_alloc)
    (d : List dispatch_result) (r : renderer_outcome) (s4 s5 : wayland_backend) (ret : Int)
    (hinv : pool_inv s) (hout : s.outputs o = some out)
    (hshell : out.shell_surface = none) (hfs : s.fshell = true)
    (hchoose : wayland_output_choose_mode s.modes out.mode_list ref_mode = some mode)
    (hne : out.current_mode ≠ mode)
    (hreq : switch_mode_request s o out mode a = some s4)
    (hvalid : dispatch_valid s4 mode_status.MODE_STATUS_UNKNOWN 0 d)
    (hfail : dispatch_loop s4 mode_status.MODE_STATUS_UNKNOWN 0 d =
      some (s5, mode_status.MODE_STATUS_FAIL, ret)) :
    ∃ s8 out8, wayland_output_switch_mode s (some o) (some ref_mode) a d r = some (-1, s8) ∧
      s8.outputs o = some out8 ∧
      (∀ m, (s8.modes m).flags = (s.modes m).flags) ∧
      out8.free_buffers = [] ∧
      ∀ b ∈ out8.buffers, ∃ sb, s8.shm_buffers b = some sb ∧ sb.output = none := by
  obtain ⟨s8, out8, h1, h2, -, -, -, h3, h4, h5, -, -⟩ :=
    switch_mode_fail_core s o out ref_mode mode a d r s4 s5 ret hinv hout hshell hfs
      hchoose hne hreq hvalid hfail
  exact ⟨s8, out8, h1, h2, fun m => by rw [h5], h3, h4⟩

/-! ## The request part always completes when the allocations succeed -/

theorem draw_initial_frame_total (s : wayland_backend) (o : OutId) (out : wayland_output)
    (ho : s.outputs o = some out) (hf : out.free_buffers = []) :
    ∃ s1, draw_initial_frame s o alloc_ok = some s1 := by
  unfold draw_initial_frame
  rw [get_shm_buffer_new s o alloc_ok out ho hf rfl rfl rfl]
  simp only [acquired_state_outputs, acquired_state_shm_buffers, if_true]
  exact ⟨_, rfl⟩

theorem start_repaint_loop_total (s : wayland_backend) (h : pool_inv s) (o : OutId)
    (out : wayland_output) (ho : s.outputs o = some out) (hf : out.free_buffers = []) :
    ∃ s1, wayland_output_start_repaint_loop s o alloc_ok = some s1 := by
  unfold wayland_output_start_repaint_loop
  simp only [ho]
  by_cases hd : out.draw_initial_frame = true
  · obtain ⟨s2, h2⟩ := draw_initial_frame_total
      (set_output s o { out with draw_initial_frame := false }) o
      { out with draw_initial_frame := false } (by simp) hf
    obtain ⟨-, k2⟩ := draw_initial_frame_step _
      (pool_inv_set_output s h o out { out with draw_initial_frame := false } ho rfl rfl)
      o alloc_ok s2 h2 o
    obtain ⟨out2, ho2, -⟩ := k2.output { out with draw_initial_frame := false } (by simp)
    simp only [hd, if_true, h2, ho2]
    exact ⟨_, rfl⟩
  · rw [if_neg hd]
    simp only [ho]
    exact ⟨_, rfl⟩

theorem switch_mode_request_total (s : wayland_backend) (h : pool_inv s) (o : OutId)
    (out : wayland_output) (ho : s.outputs o = some out) (mode : ModeId) :
    ∃ s4, switch_mode_request s o out mode alloc_ok = some s4 := by
  unfold switch_mode_request
  have h1 := switch_mode_swapped_inv s h o out ho mode
  have ho1 := switch_mode_swapped_outputs s o out mode
  rw [resize_surface_total _ h1 o _ ho1]
  obtain ⟨out2, ho2, -, hf2, -⟩ := resized_state_pool _ h1 o _ ho1
  have ho3 : (emit (resized_state (switch_mode_swapped s o out mode) o
      { out with current_mode := mode, surface := some s.next_surface })
      (host_call.present_surface_for_mode (some s.next_surface) out.parent_output
        (s.modes mode).refresh)).outputs o = some out2 := ho2
  simp only [ho3]
  exact start_repaint_loop_total _
    (pool_inv_set_output _ (pool_inv_emit _ _ (pool_inv_resized _ h1 o _ ho1)) o out2
      { out2 with draw_initial_frame := true } ho3 rfl rfl)
    o { out2 with draw_initial_frame := true } (by simp) hf2

/-! ## The sample backends -/

theorem sample_pool_outputs (o : OutId) (out : wayland_output)
    (h : sample_pool.outputs o = some out) : o = 0 ∧ out = sample_pool_output := by
  by_cases ho : o = 0
  · subst ho
    exact ⟨rfl, by cases h; rfl⟩
  · simp [sample_pool, ho] at h

theorem sample_pool_inv : pool_inv sample_pool where
  fresh := fun b hb => by
    have hb2 : ¬ b < 2 := Nat.not_lt.mpr hb
    show (if b < 2 then some (sample_buffer (some 0)) else none) = none
    rw [if_neg hb2]
  listed := fun o out ho b hb => by
    obtain ⟨rfl, rfl⟩ := sample_pool_outputs o out ho
    have hb2 : b < 2 := by
      simp only [sample_pool_output, List.mem_cons, List.mem_singleton, List.mem_nil_iff,
        or_false] at hb
      rcases hb with rfl | rfl <;> decide
    exact ⟨sample_buffer (some 0), by simp [sample_pool, hb2], Or.inr rfl⟩
  free_owned := fun o out ho b hb => by
    obtain ⟨rfl, rfl⟩ := sample_pool_outputs o out ho
    simp only [sample_pool_output, List.mem_singleton] at hb
    subst hb
    exact ⟨by decide, sample_buffer (some 0), rfl, rfl⟩
  free_nodup := fun o out ho => by
    obtain ⟨rfl, rfl⟩ := sample_pool_outputs o out ho
    decide
  owner_live := fun b sb o hb hown => by
    have hb2 : b < 2 := by
      by_contra hlt
      simp [sample_pool, hlt] at hb
    have hsb : sb = sample_buffer (some 0) := by
      simp [sample_pool, hb2] at hb
      exact hb.symm
    subst hsb
    cases hown
    refine ⟨sample_pool_output, rfl, ?_⟩
    have : b = 0 ∨ b = 1 := by
      rcases Nat.lt_or_ge b 1 with h1 | h1
      · exact Or.inl (Nat.lt_one_iff.mp h1)
      · exact Or.inr (Nat.le_antisymm (Nat.lt_succ_iff.mp hb2) h1)
    rcases this with rfl | rfl <;> decide

/-- Witness of C4 on the sample pool: buffer 0 is free and buffer 1 is in use. -/
theorem resize_surface_discards_pool_witness :
    ∃ s1 out1, wayland_output_resize_surface sample_pool 0 = some s1 ∧
      s1.outputs 0 = some out1 ∧
      out1.free_buffers = [] ∧
      (∀ b ∈ sample_pool_output.free_buffers,
        s1.shm_buffers b = none ∧ host_call.buffer_destroy b ∈ s1.log) ∧
      (∀ b ∈ sample_pool_output.buffers, b ∉ sample_pool_output.free_buffers →
        (∃ sb1, s1.shm_buffers b = some sb1 ∧ sb1.output = none) ∧
        ∀ s2, reachable_before_release b s1 s2 →
          ∃ s3, buffer_release s2 b = some s3 ∧
            s3.shm_buffers b = none ∧
            host_call.buffer_destroy b ∈ s3.log ∧
            ∀ o2 out2, s3.outputs o2 = some out2 →
              b ∉ out2.free_buffers ∧ b ∉ out2.buffers) :=
  resize_surface_discards_pool sample_pool 0 sample_pool_output sample_pool_inv rfl

theorem sample_backend_empty : empty_pools sample_backend := by
  refine ⟨fun _ => rfl, fun o out ho => ?_⟩
  by_cases h : o = 0
  · subst h
    cases ho
    exact ⟨rfl, rfl⟩
  · simp [sample_backend, h] at ho

theorem sample_acquired_in_use : buffer_in_use sample_acquired 0 := by
  refine ⟨⟨acquired_buffer sample_backend 0 sample_output, rfl⟩, fun o out ho => ?_⟩
  by_cases h : o = 0
  · subst h
    cases ho
    exact List.not_mem_nil _
  · simp [sample_acquired, acquired_state_outputs, h, sample_backend] at ho

theorem sample_recycled_reachable : pool_reachable sample_backend sample_recycled :=
  pool_reachable.release sample_acquired 0 sample_recycled
    (pool_reachable.acquire sample_backend 0 alloc_ok (some 0, sample_acquired)
      pool_reachable.init rfl)
    sample_acquired_in_use rfl

/-- Witness of C5: the state reached from the empty sample backend by an acquire and the
release of the acquired buffer. -/
theorem free_list_buffers_owned_witness :
    (∀ o out, sample_recycled.outputs o = some out → ∀ b ∈ out.free_buffers,
      ∃ sb, sample_recycled.shm_buffers b = some sb ∧ sb.output = some o) ∧
    (∀ o a b s1, wayland_output_get_shm_buffer sample_recycled o a = some (some b, s1) →
      ∃ sb, s1.shm_buffers b = some sb ∧ sb.output = some o) :=
  free_list_buffers_owned sample_backend sample_recycled sample_backend_empty
    sample_recycled_reachable

theorem sample_dispatch_failed (s4 : wayland_backend) :
    dispatch_valid s4 mode_status.MODE_STATUS_UNKNOWN 0 dispatch_failed ∧
    dispatch_loop s4 mode_status.MODE_STATUS_UNKNOWN 0 dispatch_failed =
      some (s4, mode_status.MODE_STATUS_FAIL, 1) := by
  constructor
  · simp [dispatch_failed, dispatch_valid, events_valid, handle_events, handle_event]
  · simp [dispatch_failed, dispatch_loop, handle_events, handle_event]

/-- Witness of C8: the sample pool, a request for 1024 by 768 and a host that answers
with a failure. -/
theorem switch_mode_fail_restores_witness :
    ∃ s8 out8, wayland_output_switch_mode sample_pool (some 0) (some sample_request)
        alloc_ok dispatch_failed { egl_window_ok := true, output_create_ok := true }
        = some (-1, s8) ∧
      s8.outputs 0 = some out8 ∧
      out8.current_mode = sample_pool_output.current_mode ∧
      out8.surface = sample_pool_output.surface ∧
      host_call.surface_create sample_pool.next_surface ∈ s8.log ∧
      host_call.surface_destroy (some sample_pool.next_surface) ∈ s8.log := by
  obtain ⟨s4, h4⟩ := switch_mode_request_total sample_pool sample_pool_inv 0
    sample_pool_output rfl 1
  exact switch_mode_fail_restores sample_pool 0 sample_pool_output sample_request 1
    alloc_ok dispatch_failed _ s4 s4 1 sample_pool_inv rfl rfl rfl rfl (by decide) h4
    (sample_dispatch_failed s4).1 (sample_dispatch_failed s4).2

/-- Witness of the amended C10 on the sample pool. -/
theorem switch_mode_fail_keeps_flags_witness :
    ∃ s8 out8, wayland_output_switch_mode sample_pool (some 0) (some sample_request)
        alloc_ok dispatch_failed { egl_window_ok := true, output_create_ok := true }
        = some (-1, s8) ∧
      s8.outputs 0 = some out8 ∧
      (∀ m, (s8.modes m).flags = (sample_pool.modes m).flags) ∧
      out8.free_buffers = [] ∧
      ∀ b ∈ out8.buffers, ∃ sb, s8.shm_buffers b = some sb ∧ sb.output = none := by
  obtain ⟨s4, h4⟩ := switch_mode_request_total sample_pool sample_pool_inv 0
    sample_pool_output rfl 1
  exact switch_mode_fail_keeps_flags sample_pool 0 sample_pool_output sample_request 1
    alloc_ok dispatch_failed _ s4 s4 1 sample_pool_inv rfl rfl rfl rfl (by decide) h4
    (sample_dispatch_failed s4).1 (sample_dispatch_failed s4).2

/-- C10, as stated, fails: on the sample pool, whose output has buffer 0 on its free list
and buffer 1 in use and owned, a mode switch that the host answers with a failure
returns -1 with an empty free list, buffer 0 destroyed and the owner reference of
buffer 1 cleared. -/
theorem switch_mode_fail_discards_pool :
    (sample_pool.outputs 0).map (fun out => out.free_buffers) = some [0] ∧
    (sample_pool.shm_buffers 0).map (fun sb => sb.output) = some (some 0) ∧
    (sample_pool.shm_buffers 1).map (fun sb => sb.output) = some (some 0) ∧
    (wayland_output_switch_mode sample_pool (some 0) (some sample_request) alloc_ok
      dispatch_failed { egl_window_ok := true, output_create_ok := true }).map
        (fun p => (p.1, (p.2.outputs 0).map (fun out => out.free_buffers),
          (p.2.shm_buffers 0).map (fun sb => sb.output),
          (p.2.shm_buffers 1).map (fun sb => sb.output)))
      = some (-1, some [], none, some none) := by
  refine ⟨rfl, rfl, rfl, rfl⟩

/-- C9 at its failing input: on the sample backend, a mode switch that the host answers
with a success and whose new renderer context cannot be created returns -1 although the
current mode, the surface and the renderer context of the output are no longer those of
before the call. -/
theorem switch_mode_renderer_failure_not_rolled_back :
    output_presentation sample_backend 0 = some (0, some 1, some 1) ∧
    (wayland_output_switch_mode sample_backend (some 0) (some sample_request) alloc_ok
      dispatch_successful { egl_window_ok := true, output_create_ok := false }).map
        (fun p => (p.1, output_presentation p.2 0)) = some (-1, some (1, some 2, none)) := by
  constructor
  · rfl
  · rfl

theorem output_disable_keeps_buffers (s : wayland_backend) (o : OutId) (ret : Int)
    (s1 : wayland_backend) (h : wayland_output_disable s o = some (ret, s1)) :
    s1.shm_buffers = s.shm_buffers := by
  unfold wayland_output_disable at h
  cases ho : s.outputs o with
  | none => simp [ho] at h
  | some out =>
    simp only [ho] at h
    split at h
    · cases h
      rfl
    · cases h
      cases out.shell_surface <;> cases out.frame <;> rfl

/-- C6 at its failing input: `wayland_output_destroy` never changes a buffer record, so
it clears no owner reference; on the sample pool, the destruction of output 0 frees the
output and destroys no buffer, but it leaves the owner reference of buffer 1, which is in
use, pointing to the freed output; the later `buffer_release` of buffer 1 therefore takes
the recycling branch and writes into the freed output (a fault) instead of destroying
the buffer. -/
theorem output_destroy_leaves_owner_set :
    (∀ s o s1, wayland_output_destroy s o = some s1 → s1.shm_buffers = s.shm_buffers) ∧
    ∃ s1, wayland_output_destroy sample_pool 0 = some s1 ∧
      s1.outputs 0 = none ∧
      s1.shm_buffers 1 = some (sample_buffer (some 0)) ∧
      host_call.buffer_destroy 1 ∉ s1.log ∧
      buffer_release s1 1 = none := by
  constructor
  · intro s o s1 h
    unfold wayland_output_destroy at h
    cases hd : wayland_output_disable s o with
    | none => simp [hd] at h
    | some p =>
      obtain ⟨ret, s2⟩ := p
      simp only [hd, Option.some.injEq] at h
      subst h
      exact output_disable_keeps_buffers s o ret s2 hd
  · refine ⟨_, rfl, rfl, rfl, ?_, rfl⟩
    decide

/-! ## Mode switch: a failure of the transport during the wait -/

theorem dispatch_loop_error (s : wayland_backend) :
    dispatch_loop s mode_status.MODE_STATUS_UNKNOWN 0 dispatch_error =
      some (s, mode_status.MODE_STATUS_UNKNOWN, -1) := by
  simp [dispatch_error, dispatch_loop, handle_events]

/-- C11 at its failing input: a dispatch that returns -1 before any answer ends the wait
with the status still unknown, on every state; on the sample backend the mode switch
then goes on as after a success and returns 0 with the new mode, the new surface and a
new renderer context in place. -/
theorem switch_mode_transport_failure_returns_zero :
    (∀ s, dispatch_loop s mode_status.MODE_STATUS_UNKNOWN 0 dispatch_error =
      some (s, mode_status.MODE_STATUS_UNKNOWN, -1)) ∧
    output_presentation sample_backend 0 = some (0, some 1, some 1) ∧
    (wayland_output_switch_mode sample_backend (some 0) (some sample_request) alloc_ok
      dispatch_error renderer_ok).map (fun p => (p.1, output_presentation p.2 0))
      = some (0, some (1, some 2, some 2)) := by
  refine ⟨dispatch_loop_error, rfl, rfl⟩

/-! ## Disable on a disabled output -/

/-- C16: on an output that is not enabled, `wayland_output_disable` returns 0 and leaves
the whole backend as it was: no field of the output changes and nothing is added to the
log, so nothing is destroyed; a second disable gives the same result as the first. -/
theorem output_disable_idempotent (s : wayland_backend) (o : OutId) (out : wayland_output)
    (hout : s.outputs o = some out) (hdis : out.enabled = false) :
    wayland_output_disable s o = some (0, s) ∧
    (wayland_output_disable s o).bind (fun p => wayland_output_disable p.2 o) =
      wayland_output_disable s o := by
  have h : wayland_output_disable s o = some (0, s) := by
    simp [wayland_output_disable, hout, hdis]
  exact ⟨h, by rw [h]; exact h⟩

/-- Witness of C16 on the sample backend with its output disabled. -/
theorem output_disable_idempotent_witness :
    wayland_output_disable
        (set_output sample_backend 0 { sample_output with enabled := false }) 0 =
      some (0, set_output sample_backend 0 { sample_output with enabled := false }) ∧
    (wayland_output_disable
        (set_output sample_backend 0 { sample_output with enabled := false }) 0).bind
      (fun p => wayland_output_disable p.2 0) =
      wayland_output_disable
        (set_output sample_backend 0 { sample_output with enabled := false }) 0 :=
  output_disable_idempotent _ 0 { sample_output with enabled := false } (by simp) rfl

/-! ## What a mode switch keeps before its last part, with no assumption on the pool -/

theorem switch_kept_refl (o : OutId) (s : wayland_backend) : switch_kept o s s :=
  ⟨rfl, rfl, rfl, rfl, fun out h => ⟨out, h, same_identity_refl out⟩, ⟨[], by simp⟩⟩

theorem switch_kept_trans (o : OutId) (s s1 s2 : wayland_backend)
    (h1 : switch_kept o s s1) (h2 : switch_kept o s1 s2) : switch_kept o s s2 where
  modes := h2.modes.trans h1.modes
  use_pixman := h2.use_pixman.trans h1.use_pixman
  next_renderer_state := h2.next_renderer_state.trans h1.next_renderer_state
  next_egl_window := h2.next_egl_window.trans h1.next_egl_window
  output := fun out ho => by
    obtain ⟨out1, ho1, hi1⟩ := h1.output out ho
    obtain ⟨out2, ho2, hi2⟩ := h2.output out1 ho1
    exact ⟨out2, ho2, same_identity_trans _ _ _ hi1 hi2⟩
  log := by
    obtain ⟨l1, hl1, hq1⟩ := h1.log
    obtain ⟨l2, hl2, hq2⟩ := h2.log
    refine ⟨l1 ++ l2, by rw [hl2, hl1, List.append_assoc], ?_⟩
    intro c hc
    rcases List.mem_append.mp hc with hc | hc
    · exact hq1 c hc
    · exact hq2 c hc

theorem switch_kept_emit (o : OutId) (s : wayland_backend) (c : host_call)
    (hc : quiet_call c) : switch_kept o s (emit s c) :=
  ⟨rfl, rfl, rfl, rfl, fun out h => ⟨out, h, same_identity_refl out⟩,
    ⟨[c], rfl, fun x hx => by rw [List.mem_singleton] at hx; rw [hx]; exact hc⟩⟩

theorem switch_kept_set_buffer (o : OutId) (s : wayland_backend) (b : BufId)
    (sb : wayland_shm_buffer) : switch_kept o s (set_buffer s b sb) :=
  ⟨rfl, rfl, rfl, rfl, fun out h => ⟨out, h, same_identity_refl out⟩, ⟨[], by simp⟩⟩

theorem switch_kept_set_output (o o1 : OutId) (s : wayland_backend) (out1 : wayland_output)
    (h : ∀ out, s.outputs o1 = some out → same_identity out out1) :
    switch_kept o s (set_output s o1 out1) where
  modes := rfl
  use_pixman := rfl
  next_renderer_state := rfl
  next_egl_window := rfl
  output := fun out ho => by
    by_cases h1 : o = o1
    · subst h1
      exact ⟨out1, by simp, h out ho⟩
    · exact ⟨out, by simp [h1, ho], same_identity_refl out⟩
  log := ⟨[], by simp⟩

theorem switch_kept_destroyed (o : OutId) (s : wayland_backend) (b : BufId) :
    switch_kept o s (destroyed_state s b) where
  modes := rfl
  use_pixman := rfl
  next_renderer_state := rfl
  next_egl_window := rfl
  output := fun out ho =>
    ⟨unlink_buffer b out, by simp [destroyed_state, ho], ⟨rfl, rfl, rfl, rfl, rfl, rfl, rfl, rfl⟩⟩
  log := ⟨[host_call.buffer_destroy b], rfl,
    fun x hx => by rw [List.mem_singleton] at hx; rw [hx]; exact trivial⟩

theorem shm_buffer_destroy_kept (o : OutId) (s : wayland_backend) (b : BufId)
    (s1 : wayland_backend) (h : wayland_shm_buffer_destroy s b = some s1) :
    switch_kept o s s1 := by
  cases hb : s.shm_buffers b with
  | none => simp [wayland_shm_buffer_destroy, hb] at h
  | some sb =>
    rw [shm_buffer_destroy_live s b sb hb] at h
    cases h
    exact switch_kept_destroyed o s b

theorem destroy_buffers_kept (o : OutId) (bs : List BufId) :
    ∀ (s s1 : wayland_backend), destroy_buffers s bs = some s1 → switch_kept o s s1 := by
  induction bs with
  | nil =>
    intro s s1 h
    simp only [destroy_buffers, Option.some.injEq] at h
    subst h
    exact switch_kept_refl o s
  | cons b bs ih =>
    intro s s1 h
    simp only [destroy_buffers] at h
    cases hd : wayland_shm_buffer_destroy s b with
    | none => simp [hd] at h
    | some s2 =>
      simp only [hd] at h
      exact switch_kept_trans o _ _ _ (shm_buffer_destroy_kept o s b s2 hd) (ih s2 s1 h)

theorem orphan_buffers_kept (o : OutId) (bs : List BufId) :
    ∀ (s s1 : wayland_backend), orphan_buffers s bs = some s1 → switch_kept o s s1 := by
  induction bs with
  | nil =>
    intro s s1 h
    simp only [orphan_buffers, Option.some.injEq] at h
    subst h
    exact switch_kept_refl o s
  | cons b bs ih =>
    intro s s1 h
    simp only [orphan_buffers] at h
    cases hb : s.shm_buffers b with
    | none => simp [hb] at h
    | some sb =>
      simp only [hb] at h
      exact switch_kept_trans o _ _ _ (switch_kept_set_buffer o s b _) (ih _ s1 h)

theorem geometry_kept_aux (o1 o : OutId) (s : wayland_backend) (out : wayland_output)
    (ho : s.outputs o = some out) (ew : Option EglId) (width height : Int) :
    switch_kept o1 s
      (match ew with
        | some w => emit (emit (emit (emit (set_output s o
            { out with frame := out.frame.map (fun f =>
              frame_resize_inside f (s.modes out.current_mode).width
                (s.modes out.current_mode).height) })
            (host_call.surface_set_input_region out.surface))
            (host_call.surface_set_opaque_region out.surface))
            (host_call.egl_window_resize w width height)) host_call.renderer_reset_borders
        | none => emit (emit (set_output s o
            { out with frame := out.frame.map (fun f =>
              frame_resize_inside f (s.modes out.current_mode).width
                (s.modes out.current_mode).height) })
            (host_call.surface_set_input_region out.surface))
            (host_call.surface_set_opaque_region out.surface)) := by
  have h1 : switch_kept o1 s (set_output s o { out with frame := out.frame.map (fun f =>
      frame_resize_inside f (s.modes out.current_mode).width
        (s.modes out.current_mode).height) }) := by
    refine switch_kept_set_output o1 o s _ (fun out0 h0 => ?_)
    rw [ho] at h0
    cases h0
    exact ⟨rfl, rfl, rfl, rfl, rfl, rfl, rfl, rfl⟩
  cases ew with
  | none =>
    exact switch_kept_trans o1 _ _ _ h1
      (switch_kept_trans o1 _ _ _ (switch_kept_emit o1 _ _ (by exact trivial))
        (switch_kept_emit o1 _ _ (by exact trivial)))
  | some w =>
    exact switch_kept_trans o1 _ _ _ h1
      (switch_kept_trans o1 _ _ _ (switch_kept_emit o1 _ _ (by exact trivial))
        (switch_kept_trans o1 _ _ _ (switch_kept_emit o1 _ _ (by exact trivial))
          (switch_kept_trans o1 _ _ _ (switch_kept_emit o1 _ _ (by exact trivial))
            (switch_kept_emit o1 _ _ (by exact trivial)))))

theorem geometry_kept (o1 o : OutId) (s : wayland_backend) (out : wayland_output)
    (ho : s.outputs o = some out) : switch_kept o1 s (resize_surface_geometry s o out) :=
  geometry_kept_aux o1 o s out ho out.egl_window _ _

theorem resize_surface_kept (o1 o : OutId) (s s1 : wayland_backend)
    (h : wayland_output_resize_surface s o = some s1) : switch_kept o1 s s1 := by
  unfold wayland_output_resize_surface at h
  cases ho : s.outputs o with
  | none => simp [ho] at h
  | some out =>
    simp only [ho] at h
    cases hd : destroy_buffers (resize_surface_geometry s o out) out.free_buffers with
    | none => simp [hd] at h
    | some s4 =>
      simp only [hd] at h
      cases ho4 : s4.outputs o with
      | none => simp [ho4] at h
      | some out4 =>
        simp only [ho4] at h
        exact switch_kept_trans o1 _ _ _ (geometry_kept o1 o s out ho)
          (switch_kept_trans o1 _ _ _ (destroy_buffers_kept o1 _ _ s4 hd)
            (orphan_buffers_kept o1 _ s4 s1 h))

theorem acquired_state_kept (o1 o : OutId) (s : wayland_backend) (out : wayland_output)
    (ho : s.outputs o = some out) : switch_kept o1 s (acquired_state s o out) where
  modes := acquired_state_modes s o out
  use_pixman := rfl
  next_renderer_state := rfl
  next_egl_window := rfl
  output := (output_kept_acquired o1 o s out ho).output
  log := ⟨_, rfl, fun x hx => by rw [List.mem_singleton] at hx; rw [hx]; exact trivial⟩

theorem get_shm_buffer_kept (o1 o : OutId) (s : wayland_backend) (a : shm_alloc)
    (r : Option BufId × wayland_backend)
    (hr : wayland_output_get_shm_buffer s o a = some r) : switch_kept o1 s r.2 := by
  obtain ⟨out, ho, h1 | h1 | h1⟩ := get_shm_buffer_cases s o a r hr
  · obtain ⟨sb, rest, hf, rfl⟩ := h1
    refine switch_kept_set_output o1 o s _ (fun out0 h0 => ?_)
    rw [ho] at h0
    cases h0
    exact ⟨rfl, rfl, rfl, rfl, rfl, rfl, rfl, rfl⟩
  · obtain ⟨-, rfl⟩ := h1
    exact switch_kept_refl o1 s
  · obtain ⟨-, rfl⟩ := h1
    exact acquired_state_kept o1 o s out ho

theorem draw_initial_frame_kept (o1 o : OutId) (s : wayland_backend) (a : shm_alloc)
    (s1 : wayland_backend) (hr : draw_initial_frame s o a = some s1) :
    switch_kept o1 s s1 := by
  unfold draw_initial_frame at hr
  cases hget : wayland_output_get_shm_buffer s o a with
  | none => simp [hget] at hr
  | some r =>
    obtain ⟨rb, s2⟩ := r
    cases rb with
    | none => simp [hget] at hr
    | some sb =>
      have hk2 := get_shm_buffer_kept o1 o s a _ hget
      simp only [hget] at hr
      cases hout : s2.outputs o with
      | none => simp [hout] at hr
      | some out =>
        cases hbuf : s2.shm_buffers sb with
        | none => simp [hout, hbuf] at hr
        | some buf =>
          simp only [hout, hbuf, Option.some.injEq] at hr
          subst hr
          by_cases hegl : out.egl_window.isSome = true
          · simp only [hegl, if_true]
            exact switch_kept_trans o1 _ _ _ hk2
              (switch_kept_trans o1 _ _ _ (switch_kept_set_buffer o1 s2 sb _)
                (switch_kept_trans o1 _ _ _ (switch_kept_emit o1 _ _ (by exact trivial))
                  (switch_kept_emit o1 _ _ (by exact trivial))))
          · simp only [hegl]
            exact switch_kept_trans o1 _ _ _ hk2
              (switch_kept_trans o1 _ _ _ (switch_kept_emit o1 _ _ (by exact trivial))
                (switch_kept_emit o1 _ _ (by exact trivial)))

theorem start_repaint_loop_kept (o1 o : OutId) (s : wayland_backend) (a : shm_alloc)
    (s1 : wayland_backend) (hr : wayland_output_start_repaint_loop s o a = some s1) :
    switch_kept o1 s s1 := by
  unfold wayland_output_start_repaint_loop at hr
  cases ho : s.outputs o with
  | none => simp [ho] at hr
  | some out =>
    simp only [ho] at hr
    cases hm : (if out.draw_initial_frame = true then
          draw_initial_frame (set_output s o { out with draw_initial_frame := false }) o a
        else some s) with
    | none => simp [hm] at hr
    | some s2 =>
      have h4 : switch_kept o1 s s2 := by
        by_cases hd : out.draw_initial_frame = true
        · rw [if_pos hd] at hm
          refine switch_kept_trans o1 _ _ _
            (switch_kept_set_output o1 o s _ (fun out0 h0 => ?_))
            (draw_initial_frame_kept o1 o _ a s2 hm)
          rw [ho] at h0
          cases h0
          exact ⟨rfl, rfl, rfl, rfl, rfl, rfl, rfl, rfl⟩
        · rw [if_neg hd] at hm
          cases hm
          exact switch_kept_refl o1 s
      simp only [hm] at hr
      cases ho2 : s2.outputs o with
      | none => simp [ho2] at hr
      | some out2 =>
        simp only [ho2, Option.some.injEq] at hr
        subst hr
        exact switch_kept_trans o1 _ _ _ h4
          (switch_kept_trans o1 _ _ _ (switch_kept_emit o1 _ _ (by exact trivial))
            (switch_kept_trans o1 _ _ _ (switch_kept_emit o1 _ _ (by exact trivial))
              (switch_kept_emit o1 _ _ (by exact trivial))))

theorem buffer_release_kept (o1 : OutId) (s : wayland_backend) (b : BufId)
    (s1 : wayland_backend) (hr : buffer_release s b = some s1) : switch_kept o1 s s1 := by
  cases hb : s.shm_buffers b with
  | none => simp [buffer_release, hb] at hr
  | some sb =>
    cases hown : sb.output with
    | none =>
      rw [buffer_release_orphan s b sb hb hown] at hr
      cases hr
      exact switch_kept_destroyed o1 s b
    | some o =>
      cases ho : s.outputs o with
      | none => simp [buffer_release, hb, hown, ho] at hr
      | some out =>
        rw [buffer_release_owned s b sb o out hb hown ho] at hr
        cases hr
        refine switch_kept_set_output o1 o s _ (fun out0 h0 => ?_)
        rw [ho] at h0
        cases h0
        exact ⟨rfl, rfl, rfl, rfl, rfl, rfl, rfl, rfl⟩

theorem handle_event_kept (o1 : OutId) (s : wayland_backend) (st : mode_status)
    (e : host_event) (s1 : wayland_backend) (st1 : mode_status)
    (hr : handle_event s st e = some (s1, st1)) : switch_kept o1 s s1 := by
  cases e with
  | release b =>
    simp only [handle_event, Option.map_eq_some', Prod.mk.injEq] at hr
    obtain ⟨s2, h2, rfl, -⟩ := hr
    exact buffer_release_kept o1 s b s2 h2
  | mode_feedback_successful =>
    simp only [handle_event, Option.some.injEq, Prod.mk.injEq] at hr
    obtain ⟨rfl, -⟩ := hr
    exact switch_kept_refl o1 s
  | mode_feedback_failed =>
    simp only [handle_event, Option.some.injEq, Prod.mk.injEq] at hr
    obtain ⟨rfl, -⟩ := hr
    exact switch_kept_refl o1 s
  | mode_feedback_cancelled =>
    simp only [handle_event, Option.some.injEq, Prod.mk.injEq] at hr
    obtain ⟨rfl, -⟩ := hr
    exact switch_kept_refl o1 s

theorem handle_events_kept (es : List host_event) (o1 : OutId) :
    ∀ (s : wayland_backend) (st : mode_status) (s1 : wayland_backend) (st1 : mode_status),
      handle_events s st es = some (s1, st1) → switch_kept o1 s s1 := by
  induction es with
  | nil =>
    intro s st s1 st1 hr
    simp only [handle_events, Option.some.injEq, Prod.mk.injEq] at hr
    obtain ⟨rfl, -⟩ := hr
    exact switch_kept_refl o1 s
  | cons e es ih =>
    intro s st s1 st1 hr
    simp only [handle_events] at hr
    cases he : handle_event s st e with
    | none => simp [he] at hr
    | some p =>
      obtain ⟨s2, st2⟩ := p
      simp only [he] at hr
      exact switch_kept_trans o1 _ _ _ (handle_event_kept o1 s st e s2 st2 he)
        (ih s2 st2 s1 st1 hr)

theorem dispatch_loop_kept (ds : List dispatch_result) (o1 : OutId) :
    ∀ (s : wayland_backend) (st : mode_status) (ret : Int) (s1 : wayland_backend)
      (st1 : mode_status) (ret1 : Int),
      dispatch_loop s st ret ds = some (s1, st1, ret1) → switch_kept o1 s s1 := by
  induction ds with
  | nil =>
    intro s st ret s1 st1 ret1 hr
    simp only [dispatch_loop] at hr
    split at hr
    · cases hr
    · simp only [Option.some.injEq, Prod.mk.injEq] at hr
      obtain ⟨rfl, -⟩ := hr
      exact switch_kept_refl o1 s
  | cons d ds ih =>
    intro s st ret s1 st1 ret1 hr
    simp only [dispatch_loop] at hr
    by_cases hc : st = mode_status.MODE_STATUS_UNKNOWN ∧ 0 ≤ ret
    · rw [if_pos hc] at hr
      cases he : handle_events s st d.events with
      | none => simp [he] at hr
      | some p =>
        obtain ⟨s2, st2⟩ := p
        simp only [he] at hr
        exact switch_kept_trans o1 _ _ _ (handle_events_kept d.events o1 s st s2 st2 he)
          (ih s2 st2 d.ret s1 st1 ret1 hr)
    · rw [if_neg hc] at hr
      simp only [Option.some.injEq, Prod.mk.injEq] at hr
      obtain ⟨rfl, -⟩ := hr
      exact switch_kept_refl o1 s

/-! ## Mode switch: the success path -/

theorem flags_current_cleared (f : Nat) :
    Nat.land (Nat.land f (0xFFFFFFFF - WL_OUTPUT_MODE_CURRENT)) WL_OUTPUT_MODE_CURRENT = 0 := by
  show (f &&& (0xFFFFFFFF - 1)) &&& 1 = 0
  rw [Nat.land_assoc]
  simp

theorem flags_current_set (f : Nat) :
    Nat.land (Nat.lor f WL_OUTPUT_MODE_CURRENT) WL_OUTPUT_MODE_CURRENT ≠ 0 := by
  show (f ||| 1) &&& 1 ≠ 0
  rw [Nat.and_one_is_mod]
  have h : (f ||| 1).testBit 0 = true := by
    rw [Nat.testBit_lor]
    simp
  rw [Nat.testBit_zero] at h
  simp only [decide_eq_true_eq] at h
  rw [h]
  exact one_ne_zero

theorem switch_mode_swapped_kept (s : wayland_backend) (o : OutId) (out : wayland_output)
    (mode : ModeId) :
    (switch_mode_swapped s o out mode).modes = s.modes ∧
    (switch_mode_swapped s o out mode).use_pixman = s.use_pixman ∧
    (switch_mode_swapped s o out mode).next_renderer_state = s.next_renderer_state ∧
    (switch_mode_swapped s o out mode).next_egl_window = s.next_egl_window ∧
    (switch_mode_swapped s o out mode).log =
      s.log ++ [host_call.surface_create s.next_surface] :=
  ⟨rfl, rfl, rfl, rfl, rfl⟩

/-- What the request part of a mode switch keeps and changes, whatever the pool. -/
theorem switch_mode_request_kept (s : wayland_backend) (o : OutId) (out : wayland_output)
    (mode : ModeId) (a : shm_alloc) (s4 : wayland_backend)
    (hr : switch_mode_request s o out mode a = some s4) :
    s4.modes = s.modes ∧ s4.use_pixman = s.use_pixman ∧
      s4.next_renderer_state = s.next_renderer_state ∧
      s4.next_egl_window = s.next_egl_window ∧
      (∃ out4, s4.outputs o = some out4 ∧ out4.current_mode = mode ∧
        out4.surface = some s.next_surface ∧
        out4.renderer_state = out.renderer_state ∧
        out4.egl_window = out.egl_window ∧
        out4.mode_list = out.mode_list) ∧
      ∃ l, s4.log = s.log ++ l ∧ ∀ c ∈ l, quiet_call c := by
  unfold switch_mode_request at hr
  cases hres : wayland_output_resize_surface (switch_mode_swapped s o out mode) o with
  | none => simp [hres] at hr
  | some s2 =>
    have k2 := resize_surface_kept o o _ s2 hres
    simp only [hres] at hr
    obtain ⟨out2, ho2, hi2⟩ := k2.output _ (switch_mode_swapped_outputs s o out mode)
    have ho3 : (emit s2 (host_call.present_surface_for_mode (some s.next_surface)
        out.parent_output (s.modes mode).refresh)).outputs o = some out2 := ho2
    simp only [ho3] at hr
    have k3 : switch_kept o s2 (set_output (emit s2 (host_call.present_surface_for_mode
        (some s.next_surface) out.parent_output (s.modes mode).refresh)) o
        { out2 with draw_initial_frame := true }) := by
      refine switch_kept_trans o _ _ _ (switch_kept_emit o s2 _ (by exact trivial))
        (switch_kept_set_output o o _ _ (fun out0 h0 => ?_))
      rw [ho3] at h0
      cases h0
      exact ⟨rfl, rfl, rfl, rfl, rfl, rfl, rfl, rfl⟩
    have k4 := switch_kept_trans o _ _ _ (switch_kept_trans o _ _ _ k2 k3)
      (start_repaint_loop_kept o o _ a s4 hr)
    obtain ⟨out4, ho4, hi4⟩ := k4.output _ (switch_mode_swapped_outputs s o out mode)
    obtain ⟨l, hl, hq⟩ := k4.log
    refine ⟨k4.modes, k4.use_pixman, k4.next_renderer_state, k4.next_egl_window,
      ⟨out4, ho4, hi4.current_mode, hi4.surface, hi4.renderer_state, hi4.egl_window,
        hi4.mode_list⟩, host_call.surface_create s.next_surface :: l, ?_, ?_⟩
    · rw [hl]
      show s.log ++ [host_call.surface_create s.next_surface] ++ l = _
      simp
    · intro c hc
      rcases List.mem_cons.mp hc with rfl | hc
      · exact trivial
      · exact hq c hc

theorem init_pixman_renderer_ok (s : wayland_backend) (o : OutId) (out : wayland_output)
    (ho : s.outputs o = some out) (eok : Bool) :
    wayland_output_init_pixman_renderer s o { egl_window_ok := eok, output_create_ok := true }
      = some ((0 : Int), emit { set_output s o
          { out with renderer_state := some s.next_renderer_state } with
          next_renderer_state := s.next_renderer_state + 1 }
        (host_call.renderer_output_create s.next_renderer_state)) := by
  simp [wayland_output_init_pixman_renderer, ho]

theorem init_gl_renderer_ok (s : wayland_backend) (o : OutId) (out : wayland_output)
    (ho : s.outputs o = some out) :
    wayland_output_init_gl_renderer s o { egl_window_ok := true, output_create_ok := true }
      = some ((0 : Int), emit { set_output (emit { set_output s o
            { out with egl_window := some s.next_egl_window } with
            next_egl_window := s.next_egl_window + 1 }
          (host_call.egl_window_create s.next_egl_window out.surface
            (match out.frame with
              | some f => frame_width f
              | none => (s.modes out.current_mode).width)
            (match out.frame with
              | some f => frame_height f
              | none => (s.modes out.current_mode).height))) o
          { out with egl_window := some s.next_egl_window,
                     renderer_state := some s.next_renderer_state } with
          next_renderer_state := s.next_renderer_state + 1 }
        (host_call.renderer_output_create s.next_renderer_state)) := by
  simp only [wayland_output_init_gl_renderer, ho]
  rfl

theorem switch_mode_flipped_outputs (s6 : wayland_backend) (o : OutId)
    (out6 : wayland_output) (old_mode : ModeId) :
    (switch_mode_flipped s6 o out6 old_mode).outputs o =
      some { out6 with renderer_state := none } := by
  simp [switch_mode_flipped]

theorem switch_mode_flipped_log (s6 : wayland_backend) (o : OutId)
    (out6 : wayland_output) (old_mode : ModeId) :
    (switch_mode_flipped s6 o out6 old_mode).log =
      s6.log ++ [host_call.renderer_output_destroy out6.renderer_state] := rfl

theorem switch_mode_flipped_next_renderer_state (s6 : wayland_backend) (o : OutId)
    (out6 : wayland_output) (old_mode : ModeId) :
    (switch_mode_flipped s6 o out6 old_mode).next_renderer_state =
      s6.next_renderer_state := rfl

theorem switch_mode_flipped_next_egl_window (s6 : wayland_backend) (o : OutId)
    (out6 : wayland_output) (old_mode : ModeId) :
    (switch_mode_flipped s6 o out6 old_mode).next_egl_window = s6.next_egl_window := rfl

theorem switch_mode_flipped_flags (s6 : wayland_backend) (o : OutId)
    (out6 : wayland_output) (old_mode : ModeId) (hne : out6.current_mode ≠ old_mode) :
    ¬ mode_is_current ((switch_mode_flipped s6 o out6 old_mode).modes old_mode) ∧
    mode_is_current ((switch_mode_flipped s6 o out6 old_mode).modes out6.current_mode) := by
  constructor
  · simp only [switch_mode_flipped, set_mode_flags, set_output_modes, emit_modes]
    rw [Function.update_noteq (Ne.symm hne), Function.update_same]
    intro h
    exact h (flags_current_cleared _)
  · simp only [switch_mode_flipped, set_mode_flags, set_output_modes, emit_modes]
    rw [Function.update_same]
    exact flags_current_set _

/-- The last part of a mode switch when the status is not `MODE_STATUS_FAIL` and the new
renderer context can be created: it returns 0, the flag of the old mode is cleared and
the flag of the current mode set, the renderer context is new, and the old surface is
destroyed right after the creation of the renderer context. -/
theorem switch_mode_finish_success (s5 : wayland_backend) (o : OutId)
    (out5 : wayland_output) (ho : s5.outputs o = some out5) (old_mode : ModeId)
    (old_surface : Option SurfId) (status : mode_status) (r : renderer_outcome)
    (hst : status ≠ mode_status.MODE_STATUS_FAIL)
    (hegl : s5.use_pixman = false → r.egl_window_ok = true)
    (hctx : r.output_create_ok = true)
    (hne : out5.current_mode ≠ old_mode) :
    ∃ s9 out9 l, switch_mode_finish s5 o old_mode old_surface status r = some (0, s9) ∧
      s9.outputs o = some out9 ∧
      out9.current_mode = out5.current_mode ∧
      out9.surface = out5.surface ∧
      out9.renderer_state = some s5.next_renderer_state ∧
      ¬ mode_is_current (s9.modes old_mode) ∧
      mode_is_current (s9.modes out5.current_mode) ∧
      s9.log = s5.log ++ l ++ [host_call.renderer_output_create s5.next_renderer_state,
        host_call.surface_destroy old_surface, host_call.schedule_repaint o] ∧
      ∀ c ∈ l, quiet_call c := by
  have ho6 : (emit s5 host_call.mode_feedback_destroy).outputs o = some out5 := ho
  have hfl := switch_mode_flipped_flags (emit s5 host_call.mode_feedback_destroy) o out5
    old_mode hne
  have ho10 := switch_mode_flipped_outputs (emit s5 host_call.mode_feedback_destroy) o out5
    old_mode
  obtain ⟨eok, cok⟩ := r
  simp only at hegl hctx
  subst hctx
  cases hpix : s5.use_pixman with
  | true =>
    have hfin : ∃ s9, switch_mode_finish s5 o old_mode old_surface status
        { egl_window_ok := eok, output_create_ok := true } = some (0, s9) ∧
        s9.outputs o = some { out5 with renderer_state := some s5.next_renderer_state } ∧
        s9.modes = (switch_mode_flipped (emit s5 host_call.mode_feedback_destroy) o out5
          old_mode).modes ∧
        s9.log = s5.log ++ [host_call.mode_feedback_destroy,
          host_call.renderer_output_destroy out5.renderer_state] ++
          [host_call.renderer_output_create s5.next_renderer_state,
            host_call.surface_destroy old_surface, host_call.schedule_repaint o] := by
      simp only [switch_mode_finish, ho6, if_neg hst, hpix, if_true,
        init_pixman_renderer_ok _ o _ ho10, lt_self_iff_false, if_false]
      refine ⟨_, rfl, ?_, ?_, ?_⟩
      · simp
        rfl
      · rfl
      · simp [switch_mode_flipped_log, switch_mode_flipped_next_renderer_state,
          switch_mode_flipped_next_egl_window]
        rfl
    obtain ⟨s9, h1, h2, h3, h4⟩ := hfin
    refine ⟨s9, _, _, h1, h2, rfl, rfl, rfl, ?_, ?_, h4, ?_⟩
    · rw [h3]
      exact hfl.1
    · rw [h3]
      exact hfl.2
    · intro c hc
      simp only [List.mem_cons, List.mem_singleton, List.mem_nil_iff, or_false] at hc
      rcases hc with rfl | rfl <;> exact trivial
  | false =>
    have he := hegl hpix
    subst he
    have ho11 : (emit (switch_mode_flipped (emit s5 host_call.mode_feedback_destroy) o out5
        old_mode) (host_call.egl_window_destroy out5.egl_window)).outputs o =
        some { out5 with renderer_state := none } := ho10
    have hfin : ∃ s9, switch_mode_finish s5 o old_mode old_surface status
        { egl_window_ok := true, output_create_ok := true } = some (0, s9) ∧
        s9.outputs o = some { out5 with renderer_state := some s5.next_renderer_state,
                                        egl_window := some s5.next_egl_window } ∧
        s9.modes = (switch_mode_flipped (emit s5 host_call.mode_feedback_destroy) o out5
          old_mode).modes ∧
        s9.log = s5.log ++ [host_call.mode_feedback_destroy,
          host_call.renderer_output_destroy out5.renderer_state,
          host_call.egl_window_destroy out5.egl_window,
          host_call.egl_window_create s5.next_egl_window out5.surface
            (match out5.frame with
              | some f => frame_width f
              | none => ((switch_mode_flipped (emit s5 host_call.mode_feedback_destroy) o
                  out5 old_mode).modes out5.current_mode).width)
            (match out5.frame with
              | some f => frame_height f
              | none => ((switch_mode_flipped (emit s5 host_call.mode_feedback_destroy) o
                  out5 old_mode).modes out5.current_mode).height)] ++
          [host_call.renderer_output_create s5.next_renderer_state,
            host_call.surface_destroy old_surface, host_call.schedule_repaint o] := by
      simp only [switch_mode_finish, ho6, if_neg hst, hpix,
        init_gl_renderer_ok _ o _ ho11, lt_self_iff_false, if_false, Bool.false_eq_true]
      refine ⟨_, rfl, ?_, ?_, ?_⟩
      · simp
        exact ⟨rfl, rfl⟩
      · rfl
      · simp [switch_mode_flipped_log, switch_mode_flipped_next_renderer_state,
          switch_mode_flipped_next_egl_window]
        exact ⟨rfl, rfl⟩
    obtain ⟨s9, h1, h2, h3, h4⟩ := hfin
    refine ⟨s9, _, _, h1, h2, rfl, rfl, rfl, ?_, ?_, h4, ?_⟩
    · rw [h3]
      exact hfl.1
    · rw [h3]
      exact hfl.2
    · intro c hc
      simp only [List.mem_cons, List.mem_singleton, List.mem_nil_iff, or_false] at hc
      rcases hc with rfl | rfl | rfl | rfl <;> exact trivial

theorem choose_mode_mem (modes : ModeId → weston_mode) (l : List ModeId)
    (ref_mode : weston_mode) (m : ModeId)
    (h : wayland_output_choose_mode modes l ref_mode = some m) : m ∈ l := by
  unfold wayland_output_choose_mode at h
  cases he : choose_mode_exact modes ref_mode l with
  | some m0 =>
    simp only [he, Option.some.injEq] at h
    subst h
    obtain ⟨pre, post, hl, -, -⟩ := choose_mode_exact_some modes ref_mode l m0 he
    rw [hl]
    simp
  | none =>
    simp only [he] at h
    obtain ⟨pre, post, hl, -, -⟩ := choose_mode_size_some modes ref_mode l m h
    rw [hl]
    simp

/-- A mode switch whose wait ends with a status other than `MODE_STATUS_FAIL` and whose
new renderer context is created. -/
theorem switch_mode_not_failed_core (s : wayland_backend) (o : OutId)
    (out : wayland_output) (ref_mode : weston_mode) (mode : ModeId) (a : shm_alloc)
    (d : List dispatch_result) (r : renderer_outcome) (s4 s5 : wayland_backend)
    (status : mode_status) (ret : Int)
    (hout : s.outputs o = some out)
    (hshell : out.shell_surface = none) (hfs : s.fshell = true)
    (hchoose : wayland_output_choose_mode s.modes out.mode_list ref_mode = some mode)
    (hne : out.current_mode ≠ mode)
    (hreq : switch_mode_request s o out mode a = some s4)
    (hwait : dispatch_loop s4 mode_status.MODE_STATUS_UNKNOWN 0 d = some (s5, status, ret))
    (hst : status ≠ mode_status.MODE_STATUS_FAIL)
    (hegl : s.use_pixman = false → r.egl_window_ok = true)
    (hctx : r.output_create_ok = true) :
    ∃ s9 out9 c l, wayland_output_switch_mode s (some o) (some ref_mode) a d r = some (0, s9) ∧
      s9.outputs o = some out9 ∧
      out9.current_mode = mode ∧
      out9.surface = some s.next_surface ∧
      out9.renderer_state = some c ∧
      ¬ mode_is_current (s9.modes out.current_mode) ∧
      mode_is_current (s9.modes mode) ∧
      s9.log = s.log ++ l ++ [host_call.renderer_output_create c,
        host_call.surface_destroy out.surface, host_call.schedule_repaint o] ∧
      ∀ x ∈ l, quiet_call x := by
  obtain ⟨-, hp4, hn4, -, ⟨out4, ho4, hcm4, hsf4, -, -, -⟩, l4, hl4, hq4⟩ :=
    switch_mode_request_kept s o out mode a s4 hreq
  have k5 := dispatch_loop_kept d o s4 _ 0 s5 status ret hwait
  obtain ⟨out5, ho5, hi5⟩ := k5.output out4 ho4
  obtain ⟨l5, hl5, hq5⟩ := k5.log
  have hcm5 : out5.current_mode = mode := by rw [hi5.current_mode, hcm4]
  obtain ⟨s9, out9, l9, hfin, ho9, hcm9, hsf9, hrs9, hold, hnew, hlog, hq9⟩ :=
    switch_mode_finish_success s5 o out5 ho5 out.current_mode out.surface status r hst
      (fun h => hegl (by rw [← hp4, ← k5.use_pixman]; exact h)) hctx
      (by rw [hcm5]; exact Ne.symm hne)
  refine ⟨s9, out9, s5.next_renderer_state, l4 ++ l5 ++ l9, ?_, ho9, ?_, ?_, hrs9, hold,
    ?_, ?_, ?_⟩
  · simp only [wayland_output_switch_mode, hout, hshell, hfs, hchoose, hreq, hwait]
    simp [hne, hfin]
  · rw [hcm9, hcm5]
  · rw [hsf9, hi5.surface, hsf4]
  · rw [← hcm5]
    exact hnew
  · rw [hlog, hl5, hl4]
    simp
  · intro x hx
    rcases List.mem_append.mp hx with hx | hx
    · rcases List.mem_append.mp hx with hx | hx
      · exact hq4 x hx
      · exact hq5 x hx
    · exact hq9 x hx

/-- C12: when the host answers a mode switch with `MODE_STATUS_SUCCESS` and the new
renderer context is created, `wayland_output_switch_mode` returns 0, the current mode of
the output is the mode chosen from its mode list, the previously current mode does not
carry the current flag and the chosen mode carries it, and the old surface is destroyed
after the creation of the new renderer context and not before: the log of the call ends
with that creation, the destruction of the old surface and the repaint request, and no
surface is destroyed earlier in the call. -/
theorem switch_mode_success (s : wayland_backend) (o : OutId)
    (out : wayland_output) (ref_mode : weston_mode) (mode : ModeId) (a : shm_alloc)
    (d : List dispatch_result) (r : renderer_outcome) (s4 s5 : wayland_backend) (ret : Int)
    (hout : s.outputs o = some out)
    (hshell : out.shell_surface = none) (hfs : s.fshell = true)
    (hchoose : wayland_output_choose_mode s.modes out.mode_list ref_mode = some mode)
    (hne : out.current_mode ≠ mode)
    (hreq : switch_mode_request s o out mode a = some s4)
    (hwait : dispatch_loop s4 mode_status.MODE_STATUS_UNKNOWN 0 d =
      some (s5, mode_status.MODE_STATUS_SUCCESS, ret))
    (hegl : s.use_pixman = false → r.egl_window_ok = true)
    (hctx : r.output_create_ok = true) :
    ∃ s9 out9 c l, wayland_output_switch_mode s (some o) (some ref_mode) a d r = some (0, s9) ∧
      s9.outputs o = some out9 ∧
      out9.current_mode = mode ∧
      mode ∈ out.mode_list ∧
      ¬ mode_is_current (s9.modes out.current_mode) ∧
      mode_is_current (s9.modes mode) ∧
      out9.renderer_state = some c ∧
      s9.log = s.log ++ l ++ [host_call.renderer_output_create c,
        host_call.surface_destroy out.surface, host_call.schedule_repaint o] ∧
      ∀ x ∈ l, ∀ sf, x ≠ host_call.surface_destroy sf := by
  obtain ⟨s9, out9, c, l, h1, h2, h3, -, h5, h6, h7, h8, h9⟩ :=
    switch_mode_not_failed_core s o out ref_mode mode a d r s4 s5 _ ret hout hshell hfs
      hchoose hne hreq hwait (by decide) hegl hctx
  refine ⟨s9, out9, c, l, h1, h2, h3, choose_mode_mem _ _ _ _ hchoose, h6, h7, h5, h8, ?_⟩
  intro x hx sf hsf
  have := h9 x hx
  rw [hsf] at this
  exact this

theorem sample_dispatch_successful (s4 : wayland_backend) :
    dispatch_loop s4 mode_status.MODE_STATUS_UNKNOWN 0 dispatch_successful =
      some (s4, mode_status.MODE_STATUS_SUCCESS, 1) := by
  simp [dispatch_successful, dispatch_loop, handle_events, handle_event]

/-- Witness of C12: the sample pool, a request for 1024 by 768 and a host that answers
with a success. -/
theorem switch_mode_success_witness :
    ∃ s9 out9 c l, wayland_output_switch_mode sample_pool (some 0) (some sample_request)
        alloc_ok dispatch_successful renderer_ok = some (0, s9) ∧
      s9.outputs 0 = some out9 ∧
      out9.current_mode = 1 ∧
      1 ∈ sample_pool_output.mode_list ∧
      ¬ mode_is_current (s9.modes sample_pool_output.current_mode) ∧
      mode_is_current (s9.modes 1) ∧
      out9.renderer_state = some c ∧
      s9.log = sample_pool.log ++ l ++ [host_call.renderer_output_create c,
        host_call.surface_destroy sample_pool_output.surface,
        host_call.schedule_repaint 0] ∧
      ∀ x ∈ l, ∀ sf, x ≠ host_call.surface_destroy sf := by
  obtain ⟨s4, h4⟩ := switch_mode_request_total sample_pool sample_pool_inv 0
    sample_pool_output rfl 1
  exact switch_mode_success sample_pool 0 sample_pool_output sample_request 1
    alloc_ok dispatch_successful renderer_ok s4 s4 1 rfl rfl rfl rfl (by decide) h4
    (sample_dispatch_successful s4) (fun _ => rfl) rfl

/-! ## Enable and disable -/

/-- C14 (refuted by the code): `wayland_output_enable` ignores the result of
`wayland_output_set_windowed`.  On the sample, when only the creation of the decoration
fails, enable returns 0 and destroys nothing: the surface, the shell surface and the
renderer context stay allocated and the output has no decoration.  The three other
failing steps do return -1 after destroying what was created before them. -/
theorem enable_decoration_failure_returns_zero :
    (wayland_output_enable sample_created 0 decoration_fails).map
        (fun r => (r.1, r.2.log, (r.2.outputs 0).map
          (fun out => (out.surface, out.shell_surface, out.renderer_state, out.frame))))
      = some (0, [host_call.surface_create 0, host_call.shell_surface_create 0 (some 0),
          host_call.renderer_output_create 0, host_call.theme_create],
          some (some 0, some 0, some 0, none))
    ∧ (wayland_output_enable sample_created 0 { enable_ok with surface_ok := false }).map
        (fun r => (r.1, r.2.log)) = some (-1, [])
    ∧ (wayland_output_enable sample_created 0
          { enable_ok with shell_surface_ok := false }).map (fun r => (r.1, r.2.log))
      = some (-1, [host_call.surface_create 0, host_call.surface_destroy (some 0)])
    ∧ (wayland_output_enable sample_created 0
          { enable_ok with renderer := { egl_window_ok := true, output_create_ok := false } }).map
        (fun r => (r.1, r.2.log))
      = some (-1, [host_call.surface_create 0, host_call.shell_surface_create 0 (some 0),
          host_call.shell_surface_destroy 0, host_call.surface_destroy (some 0)]) :=
  ⟨rfl, rfl, rfl, rfl⟩

/-- The requests of `wayland_output_disable` on an enabled output: it returns 0 and
releases, in this order, the renderer context, the EGL window, the surface, the shell
surface if there is one and the decoration if there is one; it changes no output
record. -/
theorem output_disable_calls (s : wayland_backend) (o : OutId)
    (out : wayland_output) (hout : s.outputs o = some out) (hen : out.enabled = true) :
    ∃ s1, wayland_output_disable s o = some (0, s1)
      ∧ s1.log = s.log ++ disable_calls out
      ∧ s1.outputs = s.outputs
      ∧ (disable_calls out).filterMap released_kind
        = [resource_kind.renderer, resource_kind.surface]
          ++ (if out.shell_surface.isSome then [resource_kind.shell_surface] else [])
          ++ (if out.frame.isSome then [resource_kind.decoration] else []) := by
  unfold wayland_output_disable
  simp only [hout, hen, Bool.true_eq_false, if_false]
  refine ⟨_, rfl, ?_, ?_, ?_⟩
  · cases hs : out.shell_surface <;> cases hf : out.frame <;>
      simp [disable_calls, emit, hs, hf]
  · cases hs : out.shell_surface <;> cases hf : out.frame <;> rfl
  · cases hs : out.shell_surface <;> cases hf : out.frame <;>
      simp [disable_calls, hs, hf, List.filterMap, released_kind]

/-- C15 (refuted by the code): on the sample, enable acquires the surface, the shell
surface, the renderer context and the decoration in this order, and disable releases the
renderer context, the surface, the shell surface and the decoration in this order, which
is not the reverse: the surface is released before the shell surface that was made for
it, and the decoration, acquired last, is released last.  The unwinding of enable
itself, when the renderer context cannot be created, releases the shell surface and then
the surface, the reverse of their acquisition.  The order of disable is the same on
every enabled output: renderer context, surface, shell surface, decoration. -/
theorem disable_order_not_reverse_of_enable :
    (sample_enabled.bind (fun s => wayland_output_disable s 0)).map
        (fun r => (r.2.log.filterMap acquired_kind, r.2.log.filterMap released_kind,
          decide (r.2.log.filterMap released_kind
            = (r.2.log.filterMap acquired_kind).reverse)))
      = some ([resource_kind.surface, resource_kind.shell_surface, resource_kind.renderer,
          resource_kind.decoration],
        [resource_kind.renderer, resource_kind.surface, resource_kind.shell_surface,
          resource_kind.decoration], false)
    ∧ (wayland_output_enable sample_created 0 context_fails).map
        (fun r => (r.1, r.2.log.filterMap acquired_kind, r.2.log.filterMap released_kind,
          decide (r.2.log.filterMap released_kind
            = (r.2.log.filterMap acquired_kind).reverse)))
      = some (-1, [resource_kind.surface, resource_kind.shell_surface],
        [resource_kind.shell_surface, resource_kind.surface], true)
    ∧ ∀ (s : wayland_backend) (o : OutId) (out : wayland_output),
      (wayland_output_disable (set_output s o { out with enabled := true }) o).map
          (fun r => (r.1, (r.2.log.drop s.log.length).filterMap released_kind))
        = some (0, [resource_kind.renderer, resource_kind.surface]
          ++ (if out.shell_surface.isSome then [resource_kind.shell_surface] else [])
          ++ (if out.frame.isSome then [resource_kind.decoration] else [])) := by
  refine ⟨rfl, rfl, fun s o out => ?_⟩
  obtain ⟨s1, h1, h2, -, h4⟩ := output_disable_calls
    (set_output s o { out with enabled := true }) o { out with enabled := true }
    (by simp) rfl
  rw [h1]
  simp only [Option.map_some', h2, set_output_log, List.drop_left]
  exact congrArg (fun l => some ((0 : Int), l)) h4

/-! ## The bootstrap frame -/

theorem bootstrap_done_of_outputs (o : OutId) (s s1 : wayland_backend)
    (h : s1.outputs = s.outputs) (hd : bootstrap_done o s) : bootstrap_done o s1 := by
  intro out ho
  rw [h] at ho
  exact hd out ho

theorem bootstrap_done_set_output (o o1 : OutId) (s : wayland_backend)
    (out out1 : wayland_output) (ho : s.outputs o1 = some out)
    (hf : out.draw_initial_frame = false → out1.draw_initial_frame = false)
    (hd : bootstrap_done o s) : bootstrap_done o (set_output s o1 out1) := by
  intro x hx
  by_cases h1 : o = o1
  · subst h1
    simp only [set_output_outputs, if_true, Option.some.injEq] at hx
    subst hx
    exact hf (hd out ho)
  · simp only [set_output_outputs, h1, if_false] at hx
    exact hd x hx

theorem bootstrap_done_destroyed (o : OutId) (s : wayland_backend) (b : BufId)
    (hd : bootstrap_done o s) : bootstrap_done o (destroyed_state s b) := by
  intro x hx
  simp only [destroyed_state, Option.map_eq_some'] at hx
  obtain ⟨out, ho, rfl⟩ := hx
  exact hd out ho

theorem bootstrap_done_shm_buffer_destroy (o : OutId) (s : wayland_backend) (b : BufId)
    (s1 : wayland_backend) (h : wayland_shm_buffer_destroy s b = some s1)
    (hd : bootstrap_done o s) : bootstrap_done o s1 := by
  cases hb : s.shm_buffers b with
  | none => simp [wayland_shm_buffer_destroy, hb] at h
  | some sb =>
    rw [shm_buffer_destroy_live s b sb hb] at h
    cases h
    exact bootstrap_done_destroyed o s b hd

theorem bootstrap_done_destroy_buffers (o : OutId) (bs : List BufId) :
    ∀ (s s1 : wayland_backend), destroy_buffers s bs = some s1 → bootstrap_done o s →
      bootstrap_done o s1 := by
  induction bs with
  | nil =>
    intro s s1 h hd
    simp only [destroy_buffers, Option.some.injEq] at h
    subst h
    exact hd
  | cons b bs ih =>
    intro s s1 h hd
    simp only [destroy_buffers] at h
    cases hx : wayland_shm_buffer_destroy s b with
    | none => simp [hx] at h
    | some s2 =>
      simp only [hx] at h
      exact ih s2 s1 h (bootstrap_done_shm_buffer_destroy o s b s2 hx hd)

theorem orphan_buffers_outputs (bs : List BufId) :
    ∀ (s s1 : wayland_backend), orphan_buffers s bs = some s1 → s1.outputs = s.outputs := by
  induction bs with
  | nil =>
    intro s s1 h
    simp only [orphan_buffers, Option.some.injEq] at h
    subst h
    rfl
  | cons b bs ih =>
    intro s s1 h
    simp only [orphan_buffers] at h
    cases hb : s.shm_buffers b with
    | none => simp [hb] at h
    | some sb =>
      simp only [hb] at h
      rw [ih _ s1 h]
      rfl

theorem mark_frame_damaged_outputs (bs : List BufId) :
    ∀ (s s1 : wayland_backend), mark_frame_damaged s bs = some s1 →
      s1.outputs = s.outputs ∧ s1.log = s.log := by
  induction bs with
  | nil =>
    intro s s1 h
    simp only [mark_frame_damaged, Option.some.injEq] at h
    subst h
    exact ⟨rfl, rfl⟩
  | cons b bs ih =>
    intro s s1 h
    simp only [mark_frame_damaged] at h
    cases hb : s.shm_buffers b with
    | none => simp [hb] at h
    | some sb =>
      simp only [hb] at h
      obtain ⟨h1, h2⟩ := ih _ s1 h
      exact ⟨h1.trans rfl, h2.trans rfl⟩

theorem union_damage_outputs (damage : region) (bs : List BufId) :
    ∀ (s s1 : wayland_backend), union_damage damage s bs = some s1 →
      s1.outputs = s.outputs ∧ s1.log = s.log := by
  induction bs with
  | nil =>
    intro s s1 h
    simp only [union_damage, Option.some.injEq] at h
    subst h
    exact ⟨rfl, rfl⟩
  | cons b bs ih =>
    intro s s1 h
    simp only [union_damage] at h
    cases hb : s.shm_buffers b with
    | none => simp [hb] at h
    | some sb =>
      simp only [hb] at h
      obtain ⟨h1, h2⟩ := ih _ s1 h
      exact ⟨h1.trans rfl, h2.trans rfl⟩

theorem bootstrap_done_resize_surface (o o1 : OutId) (s s1 : wayland_backend)
    (h : wayland_output_resize_surface s o1 = some s1) (hd : bootstrap_done o s) :
    bootstrap_done o s1 := by
  unfold wayland_output_resize_surface at h
  cases ho : s.outputs o1 with
  | none => simp [ho] at h
  | some out =>
    simp only [ho] at h
    cases hx : destroy_buffers (resize_surface_geometry s o1 out) out.free_buffers with
    | none => simp [hx] at h
    | some s4 =>
      simp only [hx] at h
      cases ho4 : s4.outputs o1 with
      | none => simp [ho4] at h
      | some out4 =>
        simp only [ho4] at h
        have hg : bootstrap_done o (resize_surface_geometry s o1 out) := by
          intro x hx1
          rw [geometry_outputs] at hx1
          by_cases h1 : o = o1
          · subst h1
            simp only [if_true, Option.some.injEq] at hx1
            subst hx1
            exact hd out ho
          · simp only [h1, if_false] at hx1
            exact hd x hx1
        exact bootstrap_done_of_outputs o _ _ (orphan_buffers_outputs _ _ _ h)
          (bootstrap_done_destroy_buffers o _ _ s4 hx hg)

theorem bootstrap_done_get_shm_buffer (o o1 : OutId) (s : wayland_backend) (a : shm_alloc)
    (r : Option BufId × wayland_backend)
    (h : wayland_output_get_shm_buffer s o1 a = some r) (hd : bootstrap_done o s) :
    bootstrap_done o r.2 := by
  obtain ⟨out, ho, h1 | h1 | h1⟩ := get_shm_buffer_cases s o1 a r h
  · obtain ⟨sb, rest, -, rfl⟩ := h1
    exact bootstrap_done_set_output o o1 s out _ ho (fun hf => hf) hd
  · obtain ⟨-, rfl⟩ := h1
    exact hd
  · obtain ⟨-, rfl⟩ := h1
    intro x hx
    rw [acquired_state_outputs] at hx
    by_cases h2 : o = o1
    · subst h2
      simp only [if_true, Option.some.injEq] at hx
      subst hx
      exact hd out ho
    · simp only [h2, if_false] at hx
      exact hd x hx

theorem bootstrap_done_buffer_release (o : OutId) (s : wayland_backend) (b : BufId)
    (s1 : wayland_backend) (h : buffer_release s b = some s1) (hd : bootstrap_done o s) :
    bootstrap_done o s1 := by
  cases hb : s.shm_buffers b with
  | none => simp [buffer_release, hb] at h
  | some sb =>
    cases hown : sb.output with
    | none =>
      rw [buffer_release_orphan s b sb hb hown] at h
      cases h
      exact bootstrap_done_destroyed o s b hd
    | some o1 =>
      cases ho : s.outputs o1 with
      | none => simp [buffer_release, hb, hown, ho] at h
      | some out =>
        rw [buffer_release_owned s b sb o1 out hb hown ho] at h
        cases h
        exact bootstrap_done_set_output o o1 s out _ ho (fun hf => hf) hd

theorem bootstrap_done_draw_initial_frame (o o1 : OutId) (s : wayland_backend)
    (a : shm_alloc) (s1 : wayland_backend) (h : draw_initial_frame s o1 a = some s1)
    (hd : bootstrap_done o s) : bootstrap_done o s1 := by
  unfold draw_initial_frame at h
  cases hget : wayland_output_get_shm_buffer s o1 a with
  | none => simp [hget] at h
  | some r =>
    obtain ⟨rb, s2⟩ := r
    cases rb with
    | none => simp [hget] at h
    | some sb =>
      have hk2 := bootstrap_done_get_shm_buffer o o1 s a _ hget hd
      simp only [hget] at h
      cases hout : s2.outputs o1 with
      | none => simp [hout] at h
      | some out =>
        cases hbuf : s2.shm_buffers sb with
        | none => simp [hout, hbuf] at h
        | some buf =>
          simp only [hout, hbuf, Option.some.injEq] at h
          subst h
          refine bootstrap_done_of_outputs o s2 _ ?_ hk2
          by_cases hegl : out.egl_window.isSome = true
          · simp [hegl]
          · simp [hegl]

theorem bootstrap_done_start_repaint_loop (o o1 : OutId) (s : wayland_backend)
    (a : shm_alloc) (s1 : wayland_backend)
    (h : wayland_output_start_repaint_loop s o1 a = some s1) (hd : bootstrap_done o s) :
    bootstrap_done o s1 := by
  unfold wayland_output_start_repaint_loop at h
  cases ho : s.outputs o1 with
  | none => simp [ho] at h
  | some out =>
    simp only [ho] at h
    cases hm : (if out.draw_initial_frame = true then
          draw_initial_frame (set_output s o1 { out with draw_initial_frame := false }) o1 a
        else some s) with
    | none => simp [hm] at h
    | some s2 =>
      have h4 : bootstrap_done o s2 := by
        by_cases hf : out.draw_initial_frame = true
        · rw [if_pos hf] at hm
          exact bootstrap_done_draw_initial_frame o o1 _ a s2 hm
            (bootstrap_done_set_output o o1 s out _ ho (fun _ => rfl) hd)
        · rw [if_neg hf] at hm
          cases hm
          exact hd
      simp only [hm] at h
      cases ho2 : s2.outputs o1 with
      | none => simp [ho2] at h
      | some out2 =>
        simp only [ho2, Option.some.injEq] at h
        subst h
        exact bootstrap_done_of_outputs o s2 _ (by simp) h4

theorem update_shm_border_outputs (s : wayland_backend) (b : BufId) (s1 : wayland_backend)
    (h : wayland_output_update_shm_border s b = some s1) : s1.outputs = s.outputs := by
  unfold wayland_output_update_shm_border at h
  cases hb : s.shm_buffers b with
  | none => simp [hb] at h
  | some sb =>
    cases hown : sb.output with
    | none => simp [hb, hown] at h
    | some o =>
      cases ho : s.outputs o with
      | none => simp [hb, hown, ho] at h
      | some out =>
        simp only [hb, hown, ho] at h
        split at h
        · cases h
          rfl
        · cases h
          rfl

theorem shm_buffer_attach_outputs (s : wayland_backend) (b : BufId) (s1 : wayland_backend)
    (h : wayland_shm_buffer_attach s b = some s1) : s1.outputs = s.outputs := by
  unfold wayland_shm_buffer_attach at h
  cases hb : s.shm_buffers b with
  | none => simp [hb] at h
  | some sb =>
    cases hown : sb.output with
    | none => simp [hb, hown] at h
    | some o =>
      cases ho : s.outputs o with
      | none => simp [hb, hown, ho] at h
      | some out =>
        simp only [hb, hown, ho, Option.some.injEq] at h
        subst h
        rfl

theorem bootstrap_done_repaint_pixman (o o1 : OutId) (s : wayland_backend)
    (damage : region) (a : shm_alloc) (r : Int × wayland_backend)
    (h : wayland_output_repaint_pixman s o1 damage a = some r) (hd : bootstrap_done o s) :
    bootstrap_done o r.2 := by
  unfold wayland_output_repaint_pixman at h
  cases ho : s.outputs o1 with
  | none => simp [ho] at h
  | some out =>
    simp only [ho] at h
    cases hm : (match out.frame with
        | some f => if f.status_repaint = true then mark_frame_damaged s out.buffers
          else some s
        | none => some s) with
    | none => simp [hm] at h
    | some s1 =>
      have h1 : s1.outputs = s.outputs := by
        cases hf : out.frame with
        | none =>
          simp only [hf, Option.some.injEq] at hm
          subst hm
          rfl
        | some f =>
          simp only [hf] at hm
          by_cases hs : f.status_repaint = true
          · rw [if_pos hs] at hm
            exact (mark_frame_damaged_outputs _ _ _ hm).1
          · rw [if_neg hs] at hm
            cases hm
            rfl
      simp only [hm] at h
      cases hu : union_damage damage s1 out.buffers with
      | none => simp [hu] at h
      | some s2 =>
        have h2 := (union_damage_outputs damage _ _ _ hu).1
        simp only [hu] at h
        cases hget : wayland_output_get_shm_buffer s2 o1 a with
        | none => simp [hget] at h
        | some rr =>
          obtain ⟨rb, s3⟩ := rr
          cases rb with
          | none => simp [hget] at h
          | some sb =>
            have h3 := bootstrap_done_get_shm_buffer o o1 s2 a _ hget
              (bootstrap_done_of_outputs o s s2 (h2.trans h1) hd)
            simp only [hget] at h
            cases hbd : wayland_output_update_shm_border s3 sb with
            | none => simp [hbd] at h
            | some s4 =>
              have h4 := update_shm_border_outputs s3 sb s4 hbd
              simp only [hbd] at h
              cases hbuf : s4.shm_buffers sb with
              | none => simp [hbuf] at h
              | some buf =>
                simp only [hbuf] at h
                cases hat : wayland_shm_buffer_attach
                    (emit (emit (set_buffer s4 sb { buf with cleared := false })
                      (host_call.pixman_set_buffer o1 sb))
                      (host_call.renderer_repaint_output o1 buf.damage)) sb with
                | none => simp [hat] at h
                | some s6 =>
                  have h6 := shm_buffer_attach_outputs _ sb s6 hat
                  simp only [hat] at h
                  cases hb7 : (emit (emit (emit s6 (host_call.surface_frame out.surface))
                      (host_call.surface_commit out.surface))
                      host_call.display_flush).shm_buffers sb with
                  | none => simp [hb7] at h
                  | some buf7 =>
                    simp only [hb7, Option.some.injEq] at h
                    subst h
                    refine bootstrap_done_of_outputs o s3 _ ?_ h3
                    simp only [set_buffer_outputs, emit_outputs, h6]
                    exact h4

theorem bootstrap_done_repaint_gl (o o1 : OutId) (s : wayland_backend)
    (damage : region) (r : Int × wayland_backend)
    (h : wayland_output_repaint_gl s o1 damage = some r) (hd : bootstrap_done o s) :
    bootstrap_done o r.2 := by
  unfold wayland_output_repaint_gl wayland_output_update_gl_border at h
  cases ho : s.outputs o1 with
  | none => simp [ho] at h
  | some out =>
    simp only [ho, emit_outputs] at h
    cases hf : out.frame with
    | none =>
      simp only [hf, Option.some.injEq] at h
      subst h
      exact bootstrap_done_of_outputs o s _ rfl hd
    | some f =>
      simp only [hf] at h
      by_cases hs : f.status_repaint = true
      · simp only [hs, if_true, Option.some.injEq] at h
        subst h
        exact bootstrap_done_of_outputs o s _ rfl hd
      · simp only [hs, Bool.false_eq_true, if_false, Option.some.injEq] at h
        subst h
        exact bootstrap_done_of_outputs o s _ rfl hd

theorem bootstrap_done_frame_done (o o1 : OutId) (s s1 : wayland_backend)
    (h : frame_done s o1 = some s1) (hd : bootstrap_done o s) : bootstrap_done o s1 := by
  unfold frame_done weston_output_finish_frame at h
  cases ho : s.outputs o1 with
  | none => simp [ho] at h
  | some out =>
    simp only [emit_outputs, ho, Option.some.injEq] at h
    subst h
    refine bootstrap_done_of_outputs o (set_output s o1 { out with frame_pending := false })
      _ rfl ?_
    exact bootstrap_done_set_output o o1 s out _ ho (fun hf => hf) hd

theorem bootstrap_done_reachable (o : OutId) (s0 s : wayland_backend)
    (h0 : bootstrap_done o s0) (h : after_bootstrap s0 s) : bootstrap_done o s := by
  induction h with
  | init => exact h0
  | loop s o1 a s1 _ hs ih => exact bootstrap_done_start_repaint_loop o o1 s a s1 hs ih
  | pixman s o1 damage a r _ hs ih =>
    exact bootstrap_done_repaint_pixman o o1 s damage a r hs ih
  | gl s o1 damage r _ hs ih => exact bootstrap_done_repaint_gl o o1 s damage r hs ih
  | frame s o1 s1 _ hs ih => exact bootstrap_done_frame_done o o1 s s1 hs ih
  | release s b s1 _ hs ih => exact bootstrap_done_buffer_release o s b s1 hs ih
  | resize s o1 s1 _ hs ih => exact bootstrap_done_resize_surface o o1 s s1 hs ih

theorem bootstrap_due_of_outputs (o : OutId) (s s1 : wayland_backend)
    (h : s1.outputs = s.outputs) (hd : bootstrap_due o s) : bootstrap_due o s1 := by
  obtain ⟨out, ho, hf⟩ := hd
  exact ⟨out, by rw [h]; exact ho, hf⟩

theorem bootstrap_due_set_output (o : OutId) (s : wayland_backend)
    (out out1 : wayland_output) (ho : s.outputs o = some out)
    (h1 : out1.draw_initial_frame = out.draw_initial_frame)
    (h2 : out1.free_buffers = out.free_buffers) (h3 : out1.buffers = out.buffers)
    (hd : bootstrap_due o s) : bootstrap_due o (set_output s o out1) := by
  obtain ⟨out0, ho0, hf, hfr, hb⟩ := hd
  rw [ho] at ho0
  cases ho0
  exact ⟨out1, by simp, h1.trans hf, h2.trans hfr, h3.trans hb⟩

theorem resize_surface_of_empty (s : wayland_backend) (o : OutId) (out : wayland_output)
    (ho : s.outputs o = some out) (hfr : out.free_buffers = []) (hb : out.buffers = []) :
    wayland_output_resize_surface s o = some (resize_surface_geometry s o out) := by
  simp [wayland_output_resize_surface, ho, hfr, hb, destroy_buffers, orphan_buffers,
    geometry_outputs]

theorem bootstrap_due_resize_surface (o : OutId) (s s1 : wayland_backend)
    (h : wayland_output_resize_surface s o = some s1) (hd : bootstrap_due o s) :
    bootstrap_due o s1 := by
  obtain ⟨out, ho, hf, hfr, hb⟩ := hd
  rw [resize_surface_of_empty s o out ho hfr hb] at h
  cases h
  refine ⟨{ out with frame := out.frame.map (fun f =>
    frame_resize_inside f (s.modes out.current_mode).width
      (s.modes out.current_mode).height) }, ?_, hf, hfr, hb⟩
  rw [geometry_outputs]
  simp

theorem bootstrap_due_set_fullscreen (o : OutId) (s s1 : wayland_backend)
    (target : Option Nat) (h : wayland_output_set_fullscreen s o target = some s1)
    (hd : bootstrap_due o s) : bootstrap_due o s1 := by
  obtain ⟨out, ho, hf, hfr, hb⟩ := hd
  unfold wayland_output_set_fullscreen at h
  simp only [ho] at h
  have h1 : bootstrap_due o (match out.frame with
      | some _ => emit (set_output s o { out with frame := none }) host_call.frame_destroy
      | none => s) := by
    cases out.frame with
    | none => exact ⟨out, ho, hf, hfr, hb⟩
    | some f =>
      exact bootstrap_due_of_outputs o (set_output s o { out with frame := none }) _ rfl
        (bootstrap_due_set_output o s out _ ho rfl rfl rfl ⟨out, ho, hf, hfr, hb⟩)
  cases hr : wayland_output_resize_surface (match out.frame with
      | some _ => emit (set_output s o { out with frame := none }) host_call.frame_destroy
      | none => s) o with
  | none => simp [hr] at h
  | some s2 =>
    have h2 := bootstrap_due_resize_surface o _ s2 hr h1
    simp only [hr] at h
    split at h
    · cases h
      exact bootstrap_due_of_outputs o s2 _ rfl h2
    · split at h
      · cases h
        exact bootstrap_due_of_outputs o s2 _ rfl h2
      · cases h
        exact h2

theorem bootstrap_due_set_windowed (o : OutId) (s : wayland_backend) (w : windowed_outcome)
    (r : Int × wayland_backend) (h : wayland_output_set_windowed s o w = some r)
    (hd : bootstrap_due o s) : bootstrap_due o r.2 := by
  obtain ⟨out, ho, hf, hfr, hb⟩ := hd
  unfold wayland_output_set_windowed at h
  simp only [ho] at h
  split at h
  · cases h
    exact ⟨out, ho, hf, hfr, hb⟩
  · split at h
    · cases h
      exact ⟨out, ho, hf, hfr, hb⟩
    · split at h
      · cases h
        exact ⟨out, ho, hf, hfr, hb⟩
      · have h0 : (if s.theme = false then
            emit { s with theme := true } host_call.theme_create else s).outputs o
            = some out := by
          split
          · exact ho
          · exact ho
        have h1 : bootstrap_due o (if s.theme = false then
            emit { s with theme := true } host_call.theme_create else s) :=
          ⟨out, h0, hf, hfr, hb⟩
        split at h
        · cases h
          exact h1
        · split at h
          · cases h
          · rename_i s3 hr
            cases h
            refine bootstrap_due_of_outputs o s3 _ rfl
              (bootstrap_due_resize_surface o _ s3 hr ?_)
            refine bootstrap_due_of_outputs o (set_output _ o _) _ rfl ?_
            exact bootstrap_due_set_output o _ out _ h0 rfl rfl rfl h1

theorem bootstrap_due_init_pixman (o : OutId) (s : wayland_backend) (r : renderer_outcome)
    (x : Int × wayland_backend) (h : wayland_output_init_pixman_renderer s o r = some x)
    (hd : bootstrap_due o s) : bootstrap_due o x.2 := by
  obtain ⟨out, ho, hf, hfr, hb⟩ := hd
  unfold wayland_output_init_pixman_renderer at h
  simp only [ho] at h
  split at h
  · cases h
    exact bootstrap_due_of_outputs o
      (set_output s o { out with renderer_state := some s.next_renderer_state }) _ rfl
      (bootstrap_due_set_output o s out _ ho rfl rfl rfl ⟨out, ho, hf, hfr, hb⟩)
  · cases h
    exact ⟨out, ho, hf, hfr, hb⟩

theorem bootstrap_due_init_gl (o : OutId) (s : wayland_backend) (r : renderer_outcome)
    (x : Int × wayland_backend) (h : wayland_output_init_gl_renderer s o r = some x)
    (hd : bootstrap_due o s) : bootstrap_due o x.2 := by
  obtain ⟨out, ho, hf, hfr, hb⟩ := hd
  unfold wayland_output_init_gl_renderer at h
  simp only [ho] at h
  have hd : bootstrap_due o s := ⟨out, ho, hf, hfr, hb⟩
  split at h
  · cases h
    exact bootstrap_due_set_output o s out _ ho rfl rfl rfl hd
  · have h1 : bootstrap_due o (set_output s o { out with egl_window := some s.next_egl_window })
        := bootstrap_due_set_output o s out _ ho rfl rfl rfl hd
    split at h
    · cases h
      refine bootstrap_due_of_outputs o (set_output (emit { set_output s o
        { out with egl_window := some s.next_egl_window } with
        next_egl_window := s.next_egl_window + 1 } _) o
        { out with egl_window := some s.next_egl_window,
                   renderer_state := some s.next_renderer_state }) _ rfl ?_
      exact bootstrap_due_set_output o _ { out with egl_window := some s.next_egl_window } _
        (by simp) rfl rfl rfl (bootstrap_due_of_outputs o _ _ rfl h1)
    · cases h
      exact bootstrap_due_of_outputs o _ _ rfl h1

theorem bootstrap_due_enable_finish (s : wayland_backend) (o : OutId)
    (out4 : wayland_output) (e : enable_outcome) (ret : Int) (s5 sfin : wayland_backend)
    (h : enable_finish s o out4 e (some (ret, s5)) = some (0, sfin))
    (hd : bootstrap_due o s5) : bootstrap_due o sfin := by
  unfold enable_finish at h
  simp only at h
  split at h
  · simp at h
  · split at h
    · split at h
      · cases h
      · split at h
        · cases h
        · rename_i s6 hr
          have h6 := bootstrap_due_set_fullscreen o s5 s6 _ hr hd
          split at h
          · cases h
            exact bootstrap_due_of_outputs o s6 _ rfl h6
          · split at h
            · cases h
              exact bootstrap_due_of_outputs o s6 _ rfl h6
            · cases h
              exact h6
    · split at h
      · split at h
        · cases h
        · rename_i s6 hr
          have h6 := bootstrap_due_set_fullscreen o s5 s6 _ hr hd
          cases h
          exact h6
      · split at h
        · cases h
        · rename_i ret6 s6 hr
          have h6 := bootstrap_due_set_windowed o s5 _ (ret6, s6) hr hd
          cases h
          exact h6

theorem enable_finish_some (s : wayland_backend) (o : OutId) (out4 : wayland_output)
    (e : enable_outcome) (init : Option (Int × wayland_backend)) (sfin : wayland_backend)
    (h : enable_finish s o out4 e init = some (0, sfin)) :
    ∃ ret s5, init = some (ret, s5) := by
  cases init with
  | none => simp [enable_finish] at h
  | some x => exact ⟨x.1, x.2, rfl⟩

theorem enable_bootstrap_due (s0 : wayland_backend) (o : OutId) (e : enable_outcome)
    (s : wayland_backend) (h : wayland_output_enable s0 o e = some (0, s)) :
    bootstrap_due o s := by
  unfold wayland_output_enable at h
  cases ho : s0.outputs o with
  | none => simp [ho] at h
  | some out =>
    simp only [ho] at h
    split at h
    · simp at h
    · split at h
      · simp at h
      · obtain ⟨ret, s5, hi⟩ := enable_finish_some _ _ _ _ _ _ h
        rw [hi] at h
        refine bootstrap_due_enable_finish _ _ _ _ _ _ _ h ?_
        have hflag : (if s0.shell = true then
            { out with surface := some s0.next_surface, draw_initial_frame := true,
                       shell_surface := some s0.next_shell_surface }
            else { out with surface := some s0.next_surface,
                            draw_initial_frame := true }).draw_initial_frame = true := by
          split <;> rfl
        have hdue : ∀ (s3 : wayland_backend) (out2 : wayland_output),
            out2.draw_initial_frame = true →
            bootstrap_due o (set_output s3 o
              { out2 with buffers := [], free_buffers := [] }) :=
          fun s3 out2 h2 =>
            ⟨{ out2 with buffers := [], free_buffers := [] }, by simp, h2, rfl, rfl⟩
        split at hi
        · exact bootstrap_due_init_pixman o _ _ _ hi (hdue _ _ hflag)
        · exact bootstrap_due_init_gl o _ _ _ hi (hdue _ _ hflag)

theorem set_buffer_get (s : wayland_backend) (b : BufId) (sb : wayland_shm_buffer) :
    (set_buffer s b sb).shm_buffers b = some sb := by
  simp

theorem ite_set_buffer_outputs (c : Prop) [Decidable c] (s : wayland_backend) (b : BufId)
    (sb : wayland_shm_buffer) :
    (if c then set_buffer s b sb else s).outputs = s.outputs := by
  split <;> rfl

theorem ite_set_buffer_log (c : Prop) [Decidable c] (s : wayland_backend) (b : BufId)
    (sb : wayland_shm_buffer) :
    (if c then set_buffer s b sb else s).log = s.log := by
  split <;> rfl

theorem ite_set_buffer_modes (c : Prop) [Decidable c] (s : wayland_backend) (b : BufId)
    (sb : wayland_shm_buffer) :
    (if c then set_buffer s b sb else s).modes = s.modes := by
  split <;> rfl

theorem start_repaint_loop_first (s : wayland_backend) (o : OutId) (out : wayland_output)
    (a : shm_alloc) (ho : s.outputs o = some out) (hflag : out.draw_initial_frame = true)
    (hfr : out.free_buffers = [])
    (hfd : a.fd_ok = true) (hmap : a.mmap_ok = true) (hrec : a.zalloc_ok = true) :
    ∃ s1, wayland_output_start_repaint_loop s o a = some s1
      ∧ s1.log = s.log ++ bootstrap_calls s o out s.next_buffer
      ∧ (∃ buf, s1.shm_buffers s.next_buffer = some buf ∧ buf.cleared = true)
      ∧ ∃ out1, s1.outputs o = some out1 ∧ out1.draw_initial_frame = false := by
  unfold wayland_output_start_repaint_loop
  simp only [ho, hflag, if_true]
  unfold draw_initial_frame
  rw [get_shm_buffer_new (set_output s o { out with draw_initial_frame := false }) o a
    { out with draw_initial_frame := false } (by simp) hfr hfd hmap hrec]
  simp only [acquired_state_outputs, acquired_state_shm_buffers, if_true,
    set_output_next_buffer, emit_outputs, ite_set_buffer_outputs]
  refine ⟨_, rfl, ?_, ?_, ?_⟩
  · simp [ite_set_buffer_log, ite_set_buffer_modes, acquired_state, bootstrap_calls,
      acquired_buffer]
  · have hnb : (acquired_state (set_output s o { out with draw_initial_frame := false }) o
        { out with draw_initial_frame := false }).shm_buffers s.next_buffer
        = some (acquired_buffer (set_output s o { out with draw_initial_frame := false }) o
          { out with draw_initial_frame := false }) := by
      simp [acquired_state]
    simp only [emit_shm_buffers]
    split
    · exact ⟨_, set_buffer_get _ _ _, rfl⟩
    · exact ⟨_, hnb, rfl⟩
  · simp only [emit_outputs, ite_set_buffer_outputs, acquired_state_outputs, if_true]
    exact ⟨_, rfl, rfl⟩

theorem start_repaint_loop_later (s : wayland_backend) (o : OutId) (out : wayland_output)
    (a : shm_alloc) (ho : s.outputs o = some out) (hflag : out.draw_initial_frame = false) :
    wayland_output_start_repaint_loop s o a =
      some (emit (emit (emit s (host_call.surface_frame out.surface))
        (host_call.surface_commit out.surface)) host_call.display_flush) := by
  unfold wayland_output_start_repaint_loop
  simp [ho, hflag]

/-- C18: after a successful `wayland_output_enable`, when the allocations of the acquire
succeed, the first `wayland_output_start_repaint_loop` returns; it creates a buffer,
which is all zero, attaches it to the surface of the output and damages the surface
before it asks for the frame callback, commits and flushes; it leaves the flag
`draw_initial_frame` clear; and in every state reached afterwards by repaint loops,
repaints, frame-complete signals, buffer releases and resizes, a repaint loop of the
output only asks for the frame callback, commits and flushes. -/
theorem first_repaint_loop_bootstraps (s0 : wayland_backend) (o : OutId)
    (e : enable_outcome) (s : wayland_backend) (a : shm_alloc)
    (henable : wayland_output_enable s0 o e = some (0, s))
    (hfd : a.fd_ok = true) (hmap : a.mmap_ok = true) (hrec : a.zalloc_ok = true) :
    ∃ out s1, s.outputs o = some out
      ∧ wayland_output_start_repaint_loop s o a = some s1
      ∧ s1.log = s.log ++ bootstrap_calls s o out s.next_buffer
      ∧ (∃ buf, s1.shm_buffers s.next_buffer = some buf ∧ buf.cleared = true)
      ∧ (∃ out1, s1.outputs o = some out1 ∧ out1.draw_initial_frame = false)
      ∧ ∀ s2, after_bootstrap s1 s2 → ∀ out2, s2.outputs o = some out2 → ∀ a2,
          ∃ s3, wayland_output_start_repaint_loop s2 o a2 = some s3
            ∧ s3.log = s2.log ++ loop_calls out2
            ∧ s3.shm_buffers = s2.shm_buffers := by
  obtain ⟨out, ho, hflag, hfr, -⟩ := enable_bootstrap_due s0 o e s henable
  obtain ⟨s1, h1, hlog, hbuf, out1, ho1, hf1⟩ :=
    start_repaint_loop_first s o out a ho hflag hfr hfd hmap hrec
  refine ⟨out, s1, ho, h1, hlog, hbuf, ⟨out1, ho1, hf1⟩, ?_⟩
  intro s2 hreach out2 ho2 a2
  have hd1 : bootstrap_done o s1 := by
    intro x hx
    rw [ho1] at hx
    cases hx
    exact hf1
  have hd2 := bootstrap_done_reachable o s1 s2 hd1 hreach out2 ho2
  rw [start_repaint_loop_later s2 o out2 a2 ho2 hd2]
  exact ⟨_, rfl, by simp [loop_calls], rfl⟩

/-- Witness of C18: the sample output, enabled in windowed mode on the software
renderer. -/
theorem first_repaint_loop_bootstraps_witness :
    ∃ out s1, sample_enable_result.outputs 0 = some out
      ∧ wayland_output_start_repaint_loop sample_enable_result 0 alloc_ok = some s1
      ∧ s1.log = sample_enable_result.log
          ++ bootstrap_calls sample_enable_result 0 out sample_enable_result.next_buffer
      ∧ (∃ buf, s1.shm_buffers sample_enable_result.next_buffer = some buf
          ∧ buf.cleared = true)
      ∧ (∃ out1, s1.outputs 0 = some out1 ∧ out1.draw_initial_frame = false)
      ∧ ∀ s2, after_bootstrap s1 s2 → ∀ out2, s2.outputs 0 = some out2 → ∀ a2,
          ∃ s3, wayland_output_start_repaint_loop s2 0 a2 = some s3
            ∧ s3.log = s2.log ++ loop_calls out2
            ∧ s3.shm_buffers = s2.shm_buffers :=
  first_repaint_loop_bootstraps sample_created 0 enable_ok sample_enable_result alloc_ok
    rfl rfl rfl rfl

/-! ## Repaint when the acquire fails -/

theorem get_shm_buffer_fails (s : wayland_backend) (o : OutId) (a : shm_alloc)
    (out : wayland_output) (ho : s.outputs o = some out) (hfr : out.free_buffers = [])
    (ha : a.fd_ok = false ∨ a.mmap_ok = false) :
    wayland_output_get_shm_buffer s o a = some (none, s) := by
  unfold wayland_output_get_shm_buffer
  simp only [ho, hfr]
  rcases ha with ha | ha
  · simp [ha]
  · simp [ha]

theorem draw_initial_frame_acquire_failure (s : wayland_backend) (o : OutId)
    (a : shm_alloc) (out : wayland_output) (ho : s.outputs o = some out)
    (hfr : out.free_buffers = []) (ha : a.fd_ok = false ∨ a.mmap_ok = false) :
    draw_initial_frame s o a = none := by
  unfold draw_initial_frame
  rw [get_shm_buffer_fails s o a out ho hfr ha]

theorem repaint_pixman_acquire_failure (s : wayland_backend) (o : OutId) (damage : region)
    (a : shm_alloc) (out : wayland_output) (ho : s.outputs o = some out)
    (hfr : out.free_buffers = []) (ha : a.fd_ok = false ∨ a.mmap_ok = false) :
    wayland_output_repaint_pixman s o damage a = none := by
  unfold wayland_output_repaint_pixman
  simp only [ho]
  cases hm : (match out.frame with
      | some f => if f.status_repaint = true then mark_frame_damaged s out.buffers
        else some s
      | none => some s) with
  | none => rfl
  | some s1 =>
    have h1 : s1.outputs = s.outputs := by
      cases hf : out.frame with
      | none =>
        simp only [hf, Option.some.injEq] at hm
        subst hm
        rfl
      | some f =>
        simp only [hf] at hm
        by_cases hs : f.status_repaint = true
        · rw [if_pos hs] at hm
          exact (mark_frame_damaged_outputs _ _ _ hm).1
        · rw [if_neg hs] at hm
          cases hm
          rfl
    simp only []
    cases hu : union_damage damage s1 out.buffers with
    | none => rfl
    | some s2 =>
      have h2 := (union_damage_outputs damage _ _ _ hu).1
      have ho2 : s2.outputs o = some out := by rw [h2, h1]; exact ho
      simp only []
      rw [get_shm_buffer_fails s2 o a out ho2 hfr ha]

/-- C19 (refuted by the code): neither caller tests the result of
`wayland_output_get_shm_buffer`.  On the sample, whose free list is empty, the acquire
returns no buffer when the backing file cannot be created or cannot be mapped, and then
`wayland_output_repaint_pixman` and `draw_initial_frame` do not skip the repaint and
return: they use the null pointer, which is a fault. -/
theorem repaint_faults_on_failed_acquire :
    (wayland_output_get_shm_buffer sample_backend 0 alloc_no_file).map Prod.fst = some none
    ∧ (wayland_output_get_shm_buffer sample_backend 0 alloc_no_mapping).map Prod.fst
      = some none
    ∧ wayland_output_repaint_pixman sample_backend 0 sample_damage alloc_no_file = none
    ∧ wayland_output_repaint_pixman sample_backend 0 sample_damage alloc_no_mapping = none
    ∧ draw_initial_frame sample_backend 0 alloc_no_file = none
    ∧ draw_initial_frame sample_backend 0 alloc_no_mapping = none :=
  ⟨rfl, rfl,
    repaint_pixman_acquire_failure sample_backend 0 sample_damage alloc_no_file
      sample_output rfl rfl (Or.inl rfl),
    repaint_pixman_acquire_failure sample_backend 0 sample_damage alloc_no_mapping
      sample_output rfl rfl (Or.inr rfl),
    draw_initial_frame_acquire_failure sample_backend 0 alloc_no_file sample_output rfl rfl
      (Or.inl rfl),
    draw_initial_frame_acquire_failure sample_backend 0 alloc_no_mapping sample_output rfl
      rfl (Or.inr rfl)⟩

/-! ## One repaint in flight -/

theorem in_flight_count_append (o : OutId) (l1 l2 : List host_call) :
    in_flight_count o (l1 ++ l2) = in_flight_count o l1 + in_flight_count o l2 := by
  simp [in_flight_count]

theorem get_shm_buffer_log (o o1 : OutId) (s : wayland_backend) (a : shm_alloc)
    (r : Option BufId × wayland_backend)
    (h : wayland_output_get_shm_buffer s o1 a = some r) :
    ∃ l, r.2.log = s.log ++ l ∧ in_flight_count o l = 0 := by
  obtain ⟨out, -, h1 | h1 | h1⟩ := get_shm_buffer_cases s o1 a r h
  · obtain ⟨sb, rest, -, rfl⟩ := h1
    exact ⟨[], by simp, rfl⟩
  · obtain ⟨-, rfl⟩ := h1
    exact ⟨[], by simp, rfl⟩
  · obtain ⟨-, rfl⟩ := h1
    exact ⟨[host_call.shm_create_buffer s.next_buffer (acquired_buffer s o1 out).width
      (acquired_buffer s o1 out).height (acquired_buffer s o1 out).stride], rfl, rfl⟩

theorem update_shm_border_log (o : OutId) (s : wayland_backend) (b : BufId)
    (s1 : wayland_backend) (h : wayland_output_update_shm_border s b = some s1) :
    ∃ l, s1.log = s.log ++ l ∧ in_flight_count o l = 0 := by
  unfold wayland_output_update_shm_border at h
  cases hb : s.shm_buffers b with
  | none => simp [hb] at h
  | some sb =>
    cases hown : sb.output with
    | none => simp [hb, hown] at h
    | some o1 =>
      cases ho : s.outputs o1 with
      | none => simp [hb, hown, ho] at h
      | some out =>
        simp only [hb, hown, ho] at h
        split at h
        · cases h
          exact ⟨[], by simp, rfl⟩
        · cases h
          exact ⟨[host_call.frame_repaint b], rfl, rfl⟩

theorem shm_buffer_attach_log (o : OutId) (s : wayland_backend) (b : BufId)
    (s1 : wayland_backend) (h : wayland_shm_buffer_attach s b = some s1) :
    ∃ l, s1.log = s.log ++ l ∧ in_flight_count o l = 0 := by
  unfold wayland_shm_buffer_attach at h
  cases hb : s.shm_buffers b with
  | none => simp [hb] at h
  | some sb =>
    cases hown : sb.output with
    | none => simp [hb, hown] at h
    | some o1 =>
      cases ho : s.outputs o1 with
      | none => simp [hb, hown, ho] at h
      | some out =>
        simp only [hb, hown, ho, Option.some.injEq] at h
        subst h
        exact ⟨[host_call.surface_attach out.surface b,
          host_call.surface_damage_buffer out.surface sb.damage
            (out.frame.isSome && sb.frame_damaged)], by simp, rfl⟩

theorem repaint_pixman_log (s : wayland_backend) (o : OutId) (damage : region)
    (a : shm_alloc) (r : Int × wayland_backend)
    (h : wayland_output_repaint_pixman s o damage a = some r) :
    ∃ l, r.2.log = s.log ++ l ∧ in_flight_count o l = 1 := by
  unfold wayland_output_repaint_pixman at h
  cases ho : s.outputs o with
  | none => simp [ho] at h
  | some out =>
    simp only [ho] at h
    cases hm : (match out.frame with
        | some f => if f.status_repaint = true then mark_frame_damaged s out.buffers
          else some s
        | none => some s) with
    | none => simp [hm] at h
    | some s1 =>
      have h1 : s1.log = s.log := by
        cases hf : out.frame with
        | none =>
          simp only [hf, Option.some.injEq] at hm
          subst hm
          rfl
        | some f =>
          simp only [hf] at hm
          by_cases hs : f.status_repaint = true
          · rw [if_pos hs] at hm
            exact (mark_frame_damaged_outputs _ _ _ hm).2
          · rw [if_neg hs] at hm
            cases hm
            rfl
      simp only [hm] at h
      cases hu : union_damage damage s1 out.buffers with
      | none => simp [hu] at h
      | some s2 =>
        have h2 := (union_damage_outputs damage _ _ _ hu).2
        simp only [hu] at h
        cases hget : wayland_output_get_shm_buffer s2 o a with
        | none => simp [hget] at h
        | some rr =>
          obtain ⟨rb, s3⟩ := rr
          cases rb with
          | none => simp [hget] at h
          | some sb =>
            obtain ⟨l3, h3x, c3⟩ := get_shm_buffer_log o o s2 a _ hget
            have h3 : s3.log = s2.log ++ l3 := h3x
            simp only [hget] at h
            cases hbd : wayland_output_update_shm_border s3 sb with
            | none => simp [hbd] at h
            | some s4 =>
              obtain ⟨l4, h4, c4⟩ := update_shm_border_log o s3 sb s4 hbd
              simp only [hbd] at h
              cases hbuf : s4.shm_buffers sb with
              | none => simp [hbuf] at h
              | some buf =>
                simp only [hbuf] at h
                cases hat : wayland_shm_buffer_attach
                    (emit (emit (set_buffer s4 sb { buf with cleared := false })
                      (host_call.pixman_set_buffer o sb))
                      (host_call.renderer_repaint_output o buf.damage)) sb with
                | none => simp [hat] at h
                | some s6 =>
                  obtain ⟨l6, h6, c6⟩ := shm_buffer_attach_log o _ sb s6 hat
                  simp only [hat] at h
                  cases hb7 : (emit (emit (emit s6 (host_call.surface_frame out.surface))
                      (host_call.surface_commit out.surface))
                      host_call.display_flush).shm_buffers sb with
                  | none => simp [hb7] at h
                  | some buf7 =>
                    simp only [hb7, Option.some.injEq] at h
                    subst h
                    refine ⟨l3 ++ l4 ++ [host_call.pixman_set_buffer o sb,
                      host_call.renderer_repaint_output o buf.damage] ++ l6
                      ++ [host_call.surface_frame out.surface,
                        host_call.surface_commit out.surface, host_call.display_flush],
                      ?_, ?_⟩
                    · simp only [set_buffer_log, emit_log, h6, h4, h3, h2, h1,
                        List.append_assoc, List.singleton_append, List.cons_append,
                        List.nil_append]
                    · simp only [in_flight_count_append, c3, c4, c6]
                      simp [in_flight_count, frame_event]

theorem repaint_gl_log (s : wayland_backend) (o : OutId) (damage : region)
    (r : Int × wayland_backend) (h : wayland_output_repaint_gl s o damage = some r) :
    ∃ l, r.2.log = s.log ++ l ∧ in_flight_count o l = 1 := by
  unfold wayland_output_repaint_gl wayland_output_update_gl_border at h
  cases ho : s.outputs o with
  | none => simp [ho] at h
  | some out =>
    simp only [ho, emit_outputs] at h
    cases hf : out.frame with
    | none =>
      simp only [hf, Option.some.injEq] at h
      subst h
      exact ⟨[host_call.surface_frame out.surface,
        host_call.renderer_repaint_output o damage], by simp,
        by simp [in_flight_count, frame_event]⟩
    | some f =>
      simp only [hf] at h
      by_cases hs : f.status_repaint = true
      · simp only [hs, if_true, Option.some.injEq] at h
        subst h
        exact ⟨[host_call.surface_frame out.surface,
          host_call.renderer_output_set_border o,
          host_call.renderer_repaint_output o damage], by simp,
          by simp [in_flight_count, frame_event]⟩
      · simp only [hs, Bool.false_eq_true, if_false, Option.some.injEq] at h
        subst h
        exact ⟨[host_call.surface_frame out.surface,
          host_call.renderer_repaint_output o damage], by simp,
          by simp [in_flight_count, frame_event]⟩

theorem in_flight_repaint_request (o : OutId) (s : wayland_backend) (damage : region)
    (a : shm_alloc) (s1 : wayland_backend) (h : repaint_request s o damage a = some s1)
    (hi : in_flight o s) : in_flight o s1 := by
  unfold repaint_request at h
  cases ho : s.outputs o with
  | none => simp [ho] at h
  | some out =>
    simp only [ho] at h
    by_cases hp : out.frame_pending = true
    · simp only [hp, if_true, Option.some.injEq] at h
      subst h
      intro x hx
      simp only [set_output_outputs, if_true, Option.some.injEq] at hx
      subst hx
      have h0 := hi out ho
      rw [hp] at h0
      exact h0
    · simp only [hp, Bool.false_eq_true, if_false] at h
      cases hr : (if s.use_pixman = true then wayland_output_repaint_pixman s o damage a
          else wayland_output_repaint_gl s o damage) with
      | none => simp [hr] at h
      | some r =>
        have hl : ∃ l, r.2.log = s.log ++ l ∧ in_flight_count o l = 1 := by
          by_cases hx : s.use_pixman = true
          · rw [if_pos hx] at hr
            exact repaint_pixman_log s o damage a r hr
          · rw [if_neg hx] at hr
            exact repaint_gl_log s o damage r hr
        obtain ⟨l, hl1, hl2⟩ := hl
        simp only [hr] at h
        cases ho1 : r.2.outputs o with
        | none => simp [ho1] at h
        | some out1 =>
          simp only [ho1, Option.some.injEq] at h
          subst h
          intro x hx
          simp only [set_output_outputs, if_true, Option.some.injEq] at hx
          subst hx
          have h0 := hi out ho
          simp only [hp, Bool.false_eq_true, if_false] at h0
          simp only [set_output_log, hl1, in_flight_count_append, h0, hl2, if_true]
          rfl

theorem in_flight_frame_done (o : OutId) (s : wayland_backend) (out : wayland_output)
    (s1 : wayland_backend) (ho : s.outputs o = some out) (hp : out.frame_pending = true)
    (h : frame_done s o = some s1) (hi : in_flight o s) : in_flight o s1 := by
  unfold frame_done weston_output_finish_frame at h
  simp only [emit_outputs, ho, Option.some.injEq] at h
  subst h
  intro x hx
  simp only [emit_outputs, set_output_outputs, if_true, Option.some.injEq] at hx
  subst hx
  have h0 := hi out ho
  simp only [hp, if_true] at h0
  simp only [emit_log, set_output_log, in_flight_count_append, h0]
  simp [in_flight_count, frame_event]

theorem in_flight_scheduled (o : OutId) (s0 s : wayland_backend) (h0 : in_flight o s0)
    (h : scheduled o s0 s) : in_flight o s := by
  induction h with
  | init => exact h0
  | request s damage a s1 _ hs ih => exact in_flight_repaint_request o s damage a s1 hs ih
  | done s out s1 _ ho hp hs ih => exact in_flight_frame_done o s out s1 ho hp hs ih

/-- C17: in every state reached by repaint requests for an output and by the
frame-complete signals of its pending frames, the number of frames of the output that
were painted and submitted and not yet finished is 1 when the output has a pending frame
and 0 otherwise; and while a frame is pending a repaint request returns, submits
nothing (the log and the buffers are as before) and is queued. -/
theorem one_repaint_in_flight (o : OutId) (s0 s : wayland_backend)
    (h0 : in_flight o s0) (hs : scheduled o s0 s) (out : wayland_output)
    (ho : s.outputs o = some out) :
    in_flight_count o s.log = (if out.frame_pending then 1 else 0)
    ∧ (out.frame_pending = true → ∀ damage a,
        ∃ s1, repaint_request s o damage a = some s1 ∧ s1.log = s.log
          ∧ s1.shm_buffers = s.shm_buffers
          ∧ s1.outputs o = some { out with repaint_needed := true }) := by
  refine ⟨in_flight_scheduled o s0 s h0 hs out ho, ?_⟩
  intro hp damage a
  refine ⟨set_output s o { out with repaint_needed := true }, ?_, rfl, rfl, by simp⟩
  unfold repaint_request
  simp [ho, hp]

theorem sample_backend_in_flight : in_flight 0 sample_backend := by
  intro out ho
  have h1 : out = sample_output := by
    have h2 : sample_backend.outputs 0 = some sample_output := rfl
    rw [h2] at ho
    cases ho
    rfl
  subst h1
  rfl

/-- Witness of C17: the sample output after one repaint request. -/
theorem one_repaint_in_flight_witness :
    in_flight_count 0 sample_requested.log
      = (if sample_requested_output.frame_pending then 1 else 0)
    ∧ (sample_requested_output.frame_pending = true → ∀ damage a,
        ∃ s1, repaint_request sample_requested 0 damage a = some s1
          ∧ s1.log = sample_requested.log
          ∧ s1.shm_buffers = sample_requested.shm_buffers
          ∧ s1.outputs 0 = some { sample_requested_output with repaint_needed := true }) :=
  one_repaint_in_flight 0 sample_backend sample_requested sample_backend_in_flight
    (scheduled.request sample_backend sample_damage alloc_ok sample_requested
      (scheduled.init) rfl)
    sample_requested_output rfl

/-! ## Host modes and the current flag -/

/-- C13 (refuted by the code): the host announces the mode 1024 by 768 of a host output
as current and preferred, and the output created for that host output is configured by
`wayland_output_configure_hotplug`.  Configure flags the own mode of the output, mode 0,
which is its current mode; the mode list is then replaced by the list of the host, whose
mode 1 still carries the flags of the announcement.  Two modes of the output carry the
current flag. -/
theorem hotplug_leaves_two_current_modes :
    ((wayland_parent_output_mode sample_hotplug 0 3 1024 768 60000 true).bind
        (fun s1 => wayland_output_configure_hotplug s1 0)).map
      (fun r => (r.1, (r.2.outputs 0).map
        (fun out => (out.current_mode, out.mode_list, current_flagged r.2 out,
          (r.2.modes 0).flags, (r.2.modes 1).flags))))
      = some (0, some (0, [1], [0, 1], 3, 3)) := by
  rfl

/-! ## Pointer enter -/

theorem input_set_cursor_log (s : wayland_backend) (input : wayland_input) :
    (input_set_cursor s input).log = s.log ++
      (if s.cursor = true ∧ s.cursor_buffer = true then
        [host_call.pointer_set_cursor input.enter_serial true,
          host_call.cursor_surface_commit]
      else []) := by
  unfold input_set_cursor
  cases hc : s.cursor <;> cases hb : s.cursor_buffer <;> simp [emit]

/-- C20 (counterexample): the sample backend has no cursor; a pointer enter on the
chrome of its decorated output emits the focus event that names no output and nothing
else: no cursor image is set. -/
theorem pointer_enter_chrome_without_cursor :
    sample_enable_result.cursor = false
    ∧ (sample_enable_result.outputs 0).map (fun out => out.frame.isSome) = some true
    ∧ (input_handle_pointer_enter sample_enable_result sample_input 9 (some 0) 2560 5120
          (theme_location.chrome 1) false identity_transform).map
        (fun r => (r.1.log.drop sample_enable_result.log.length, r.2.has_focus))
      = some ([host_call.notify_pointer_focus none 0 0], false) :=
  ⟨rfl, rfl, rfl⟩

/-- C20 (amended): a pointer enter on the surface of a live output returns; it emits a
focus event for the entered output if and only if the hit-test gives the client area
(always, when the output has no decoration); on chrome entry it emits the focus event
that names no output and no focus event naming an output, and it sets the cursor image
if and only if the backend has a cursor whose first image has a buffer; afterwards
`has_focus` is true exactly when the location was the client area, and the serial and
the output of the event are recorded. -/
theorem pointer_enter_focus (s : wayland_backend) (input : wayland_input) (serial : Nat)
    (o : OutId) (out : wayland_output) (fixed_x fixed_y : Int) (hit : theme_location)
    (repaint : Bool) (transform : OutId → Rat → Rat → Rat × Rat)
    (ho : s.outputs o = some out) :
    ∃ s1 input1 l,
      input_handle_pointer_enter s input serial (some o) fixed_x fixed_y hit repaint
        transform = some (s1, input1)
      ∧ s1.log = s.log ++ l
      ∧ ((∃ x y, host_call.notify_pointer_focus (some o) x y ∈ l)
          ↔ enter_location out hit = theme_location.THEME_LOCATION_CLIENT_AREA)
      ∧ (enter_location out hit ≠ theme_location.THEME_LOCATION_CLIENT_AREA →
          (∀ c ∈ l, ¬ names_output c)
          ∧ host_call.notify_pointer_focus none 0 0 ∈ l
          ∧ (host_call.pointer_set_cursor serial true ∈ l
              ↔ (s.cursor = true ∧ s.cursor_buffer = true)))
      ∧ (input1.has_focus = true
          ↔ enter_location out hit = theme_location.THEME_LOCATION_CLIENT_AREA)
      ∧ input1.enter_serial = serial ∧ input1.output = some o := by
  unfold input_handle_pointer_enter
  simp only [ho]
  cases hf : out.frame with
  | none =>
    simp only [enter_location, hf, if_true]
    refine ⟨_, _, [host_call.notify_pointer_focus (some o)
        (transform o ((fixed_x : Rat) / 256) ((fixed_y : Rat) / 256)).1
        (transform o ((fixed_x : Rat) / 256) ((fixed_y : Rat) / 256)).2,
      host_call.pointer_set_cursor serial false], rfl, by simp [emit], ?_, ?_, ?_, rfl, rfl⟩
    · exact ⟨fun _ => trivial, fun _ => ⟨_, _, List.mem_cons_self _ _⟩⟩
    · intro h
      exact absurd rfl h
    · exact ⟨fun _ => trivial, fun _ => rfl⟩
  | some f =>
    cases hit with
    | THEME_LOCATION_CLIENT_AREA =>
      simp only [enter_location, hf, if_true]
      refine ⟨_, _, (if repaint = true then [host_call.schedule_repaint o] else []) ++
        [host_call.notify_pointer_focus (some o)
          (transform o ((fixed_x : Rat) / 256 - f.interior_x)
            ((fixed_y : Rat) / 256 - f.interior_y)).1
          (transform o ((fixed_x : Rat) / 256 - f.interior_x)
            ((fixed_y : Rat) / 256 - f.interior_y)).2,
        host_call.pointer_set_cursor serial false], rfl, ?_, ?_, ?_, ?_, rfl, rfl⟩
      · cases repaint <;> simp [emit, set_output]
      · refine ⟨fun _ => trivial, fun _ =>
          ⟨(transform o ((fixed_x : Rat) / 256 - f.interior_x)
              ((fixed_y : Rat) / 256 - f.interior_y)).1,
            (transform o ((fixed_x : Rat) / 256 - f.interior_x)
              ((fixed_y : Rat) / 256 - f.interior_y)).2, ?_⟩⟩
        exact List.mem_append_right _ (List.mem_cons_self _ _)
      · intro h
        exact absurd rfl h
      · exact ⟨fun _ => trivial, fun _ => rfl⟩
    | chrome n =>
      have hne : theme_location.chrome n ≠ theme_location.THEME_LOCATION_CLIENT_AREA := by
        intro h
        cases h
      simp only [enter_location, hf, hne, if_false]
      refine ⟨_, _, (if repaint = true then [host_call.schedule_repaint o] else []) ++
        [host_call.notify_pointer_focus none 0 0] ++
        (if s.cursor = true ∧ s.cursor_buffer = true then
          [host_call.pointer_set_cursor serial true, host_call.cursor_surface_commit]
          else []), rfl, ?_, ?_, ?_, ?_, rfl, rfl⟩
      · rw [input_set_cursor_log]
        cases repaint <;> simp [emit, set_output]
      · constructor
        · rintro ⟨x, y, hm⟩
          exfalso
          cases repaint <;> cases hc : s.cursor <;> cases hb : s.cursor_buffer <;>
            simp [hc, hb] at hm
        · intro h
          cases h
      · intro _
        refine ⟨?_, ?_, ?_⟩
        · intro c hc
          cases repaint <;> cases hcu : s.cursor <;> cases hb : s.cursor_buffer <;>
            simp [hcu, hb] at hc <;> rcases hc with rfl | hc <;>
            first
              | exact fun h => h
              | (rcases hc with rfl | hc <;> first | exact fun h => h | skip)
          all_goals first
            | exact fun h => h
            | (rcases hc with rfl | rfl <;> exact fun h => h)
        · cases repaint <;> simp
        · cases repaint <;> cases hcu : s.cursor <;> cases hb : s.cursor_buffer <;> simp
      · constructor
        · intro h
          cases h
        · intro h
          cases h

/-- Witness of C20 (amended): a pointer enter on the chrome of the decorated sample
output. -/
theorem pointer_enter_focus_witness :
    ∃ s1 input1 l,
      input_handle_pointer_enter sample_enable_result sample_input 9 (some 0) 2560 5120
        (theme_location.chrome 1) false identity_transform = some (s1, input1)
      ∧ s1.log = sample_enable_result.log ++ l
      ∧ ((∃ x y, host_call.notify_pointer_focus (some 0) x y ∈ l)
          ↔ enter_location sample_enabled_output (theme_location.chrome 1)
            = theme_location.THEME_LOCATION_CLIENT_AREA)
      ∧ (enter_location sample_enabled_output (theme_location.chrome 1)
            ≠ theme_location.THEME_LOCATION_CLIENT_AREA →
          (∀ c ∈ l, ¬ names_output c)
          ∧ host_call.notify_pointer_focus none 0 0 ∈ l
          ∧ (host_call.pointer_set_cursor 9 true ∈ l
              ↔ (sample_enable_result.cursor = true
                ∧ sample_enable_result.cursor_buffer = true)))
      ∧ (input1.has_focus = true
          ↔ enter_location sample_enabled_output (theme_location.chrome 1)
            = theme_location.THEME_LOCATION_CLIENT_AREA)
      ∧ input1.enter_serial = 9 ∧ input1.output = some 0 :=
  pointer_enter_focus sample_enable_result sample_input 9 0 sample_enabled_output 2560 5120
    (theme_location.chrome 1) false identity_transform rfl

/-! ## Configure -/

/-- C28: on a live output, `wayland_output_configure` returns -1 and leaves the whole
state unchanged when the width or the height is less than 1; for a width and a height
of at least 1 whose products with the scale are values of `int`, it returns 0, the own
mode of the output has the width and the height times the scale, the refresh rate 60000
and the flags current and preferred, and it is the current mode and the only entry of
the mode list. -/
theorem wayland_output_configure_spec (s : wayland_backend) (o : OutId)
    (out : wayland_output) (width height : Int) (ho : s.outputs o = some out) :
    ((width < 1 ∨ height < 1) → wayland_output_configure s o width height = some (-1, s))
    ∧ (1 ≤ width → 1 ≤ height →
        -INT_MAX - 1 ≤ width * out.base_scale → width * out.base_scale ≤ INT_MAX →
        -INT_MAX - 1 ≤ height * out.base_scale → height * out.base_scale ≤ INT_MAX →
        ∃ s1 out1, wayland_output_configure s o width height = some (0, s1)
          ∧ s1.outputs o = some out1
          ∧ out1.current_mode = out.mode
          ∧ out1.mode_list = [out.mode]
          ∧ (s1.modes out.mode).width = width * out.base_scale
          ∧ (s1.modes out.mode).height = height * out.base_scale
          ∧ (s1.modes out.mode).refresh = 60000
          ∧ (s1.modes out.mode).flags = 3
          ∧ Nat.land (s1.modes out.mode).flags WL_OUTPUT_MODE_CURRENT ≠ 0
          ∧ Nat.land (s1.modes out.mode).flags WL_OUTPUT_MODE_PREFERRED ≠ 0) := by
  constructor
  · intro h
    unfold wayland_output_configure
    simp only [ho]
    rcases h with h | h
    · simp [h]
    · by_cases hw : width < 1
      · simp [hw]
      · simp [hw, h]
  · intro hw hh h1 h2 h3 h4
    have hw1 : ¬ width < 1 := not_lt.mpr hw
    have hh1 : ¬ height < 1 := not_lt.mpr hh
    have m1 : int_mul width out.base_scale = some (width * out.base_scale) := by
      simp [int_mul, h1, h2]
    have m2 : int_mul height out.base_scale = some (height * out.base_scale) := by
      simp [int_mul, h3, h4]
    unfold wayland_output_configure
    simp only [ho, hw1, hh1, if_false, m1, m2]
    exact ⟨_, _, rfl, Function.update_same _ _ _, rfl, rfl, by simp, by simp, by simp,
      by simp; rfl, by simp; decide, by simp; decide⟩

/-- Witness of C28: the created sample output, configured with 640 by 480. -/
theorem wayland_output_configure_spec_witness :
    ((640 < (1 : Int) ∨ 480 < (1 : Int)) →
        wayland_output_configure sample_created 0 640 480 = some (-1, sample_created))
    ∧ ((1 : Int) ≤ 640 → (1 : Int) ≤ 480 →
        -INT_MAX - 1 ≤ 640 * sample_created_output.base_scale →
        640 * sample_created_output.base_scale ≤ INT_MAX →
        -INT_MAX - 1 ≤ 480 * sample_created_output.base_scale →
        480 * sample_created_output.base_scale ≤ INT_MAX →
        ∃ s1 out1, wayland_output_configure sample_created 0 640 480 = some (0, s1)
          ∧ s1.outputs 0 = some out1
          ∧ out1.current_mode = sample_created_output.mode
          ∧ out1.mode_list = [sample_created_output.mode]
          ∧ (s1.modes sample_created_output.mode).width
            = 640 * sample_created_output.base_scale
          ∧ (s1.modes sample_created_output.mode).height
            = 480 * sample_created_output.base_scale
          ∧ (s1.modes sample_created_output.mode).refresh = 60000
          ∧ (s1.modes sample_created_output.mode).flags = 3
          ∧ Nat.land (s1.modes sample_created_output.mode).flags WL_OUTPUT_MODE_CURRENT ≠ 0
          ∧ Nat.land (s1.modes sample_created_output.mode).flags
              WL_OUTPUT_MODE_PREFERRED ≠ 0) :=
  wayland_output_configure_spec sample_created 0 sample_created_output 640 480 rfl

/-! ## The title of the decoration -/

/-- C27 (refuted by the code): `wayland_output_create` stores the name in `base.name` and
leaves the field `name` of the output null, for every name; `wayland_output_set_windowed`
reads the field `name`.  On the sample, output 0 is created with the name `W1`; the
decoration made by its enable, and the one made after a switch to fullscreen and back,
have the title `Weston Compositor`, without the name. -/
theorem windowed_title_ignores_name :
    (∀ (s : wayland_backend) (name : Option String) (o : OutId) (strdup_ok : Bool),
      (wayland_output_create s name (some o) strdup_ok).map
        (fun r => (r.2.outputs o).map (fun out => out.name)) = some (some none))
    ∧ sample_named.map (fun r => output_title r 0)
      = some (0, some (some "W1", none, some "Weston Compositor"))
    ∧ sample_named_again.map (fun r => output_title r 0)
      = some (0, some (some "W1", none, some "Weston Compositor")) := by
  refine ⟨?_, rfl, rfl⟩
  intro s name o strdup_ok
  simp [wayland_output_create]

/-! ## Removal of a host output -/

/-- C26 (refuted by the code): `wayland_output_create_for_parent_output` never writes the
descriptor, so that the field `output` of a descriptor is null for ever.  On the sample
the host announces the output global 3, for which descriptor 0 and output 0 are created,
and then removes the global: the host object is destroyed, but output 0 is still there
and nothing destroyed it. -/
theorem global_remove_keeps_output :
    (∀ (s : wayland_backend) (p : Nat) (o : OutId),
      (wayland_output_create_for_parent_output s p (some o)).map
        (fun r => r.2.parent_outputs) = some s.parent_outputs)
    ∧ ((wayland_backend_register_output sample_sprawl 3 (some 0) (some 7) (some 0)).bind
        (fun s => registry_handle_global_remove s 3)).map
      (fun s => ((s.outputs 0).map (fun out => out.user_data),
        (s.parent_outputs 0).map (fun d => d.output), s.log))
      = some (some (some 0), some none,
        [host_call.display_roundtrip, host_call.output_init_pending 0,
          host_call.wl_output_destroy (some 7)]) := by
  refine ⟨?_, rfl⟩
  intro s p o
  rfl

/-! ## Key and modifier serials -/

/-- C23: a key event records its serial in the device; a modifiers event on a seat with a keyboard returns; when its serial equals
the recorded one it asks for the current serial of the display, asks for no new serial,
and forwards the modifiers with the current serial; otherwise it asks for a new serial
and forwards the modifiers with it. -/
theorem modifiers_serial (s : wayland_backend) (input : wayland_input)
    (k time key state serial_in d l c g current_serial next_serial : Nat) :
    (input_handle_key s input k time key state).2.key_serial = k
    ∧ input_handle_modifiers s input serial_in d l c g current_serial next_serial true
      = some (emit (emit (emit s
          (host_call.seat (if serial_in = input.key_serial then seat_call.display_get_serial
            else seat_call.display_next_serial)))
          (host_call.seat (seat_call.xkb_state_update_mask d l c g)))
          (host_call.seat (seat_call.notify_modifiers
            (if serial_in = input.key_serial then current_serial else next_serial)))) := by
  refine ⟨rfl, ?_⟩
  unfold input_handle_modifiers
  by_cases h : serial_in = input.key_serial
  · simp [h]
  · simp [h]

/-! ## Pointer motion -/

theorem cursor_calls_focus_counts (o : OutId) (c : Prop) [Decidable c] (serial : Nat) :
    focus_counts o (if c then
        [host_call.pointer_set_cursor serial true, host_call.cursor_surface_commit]
      else []) = (0, 0, 0) := by
  split <;> rfl

theorem focus_counts_append (o : OutId) (l1 l2 : List host_call) :
    focus_counts o (l1 ++ l2) =
      ((focus_counts o l1).1 + (focus_counts o l2).1,
        (focus_counts o l1).2.1 + (focus_counts o l2).2.1,
        (focus_counts o l1).2.2 + (focus_counts o l2).2.2) := by
  simp [focus_counts]

/-- C21: a pointer motion event on a device whose pointer is on a live output returns.
When the device had no content focus and the location is the client area, the handler
emits one focus event, a focus-in for the output; when it had content focus and the
location is chrome, it emits one focus event, a focus-out; otherwise it emits no focus
event; afterwards `has_focus` is true exactly when the location is the client area. -/
theorem motion_focus (s : wayland_backend) (input : wayland_input) (time : Nat)
    (fixed_x fixed_y : Int) (hit : theme_location) (repaint : Bool)
    (transform : OutId → Rat → Rat → Rat × Rat) (o : OutId) (out : wayland_output)
    (hio : input.output = some o) (ho : s.outputs o = some out) :
    ∃ s1 input1 l,
      input_handle_motion s input time fixed_x fixed_y hit repaint transform
        = some (s1, input1)
      ∧ s1.log = s.log ++ l
      ∧ focus_counts o l =
        (if input.has_focus = false
            ∧ enter_location out hit = theme_location.THEME_LOCATION_CLIENT_AREA then
          (1, 1, 0)
        else if input.has_focus = true
            ∧ enter_location out hit ≠ theme_location.THEME_LOCATION_CLIENT_AREA then
          (1, 0, 1)
        else (0, 0, 0))
      ∧ (input1.has_focus = true
          ↔ enter_location out hit = theme_location.THEME_LOCATION_CLIENT_AREA) := by
  unfold input_handle_motion
  simp only [hio, ho]
  have hne : ∀ n, theme_location.chrome n ≠ theme_location.THEME_LOCATION_CLIENT_AREA := by
    intro n h
    cases h
  cases hf : out.frame with
  | none =>
    cases hfoc : input.has_focus <;>
      by_cases hv : input.seat_version < WL_POINTER_FRAME_SINCE_VERSION <;>
      simp only [enter_location, hf, hfoc, hv, if_true, if_false, and_true, true_and,
        and_false, false_and, ne_eq, not_true_eq_false, Bool.false_eq_true,
        Bool.true_eq_false, and_self] <;>
      exact ⟨_, _, _, rfl,
        by first
          | exact (List.append_nil _).symm
          | (simp only [emit_log, set_output_log, input_set_cursor_log, List.append_assoc]
             rfl),
        by simp [focus_counts, is_focus, is_focus_in, is_focus_out],
        by simp [hfoc]⟩
  | some f =>
    cases hit <;> cases hfoc : input.has_focus <;> cases repaint <;>
      by_cases hv : input.seat_version < WL_POINTER_FRAME_SINCE_VERSION <;>
      simp only [enter_location, hf, hfoc, hv, hne, if_true, if_false, and_true, true_and,
        and_false, false_and, ne_eq, not_true_eq_false, not_false_eq_true,
        Bool.false_eq_true, Bool.true_eq_false, and_self] <;>
      exact ⟨_, _, _, rfl,
        by first
          | exact (List.append_nil _).symm
          | (simp only [emit_log, set_output_log, input_set_cursor_log, List.append_assoc]
             rfl),
        by simp [focus_counts, is_focus, is_focus_in, is_focus_out,
          apply_ite (List.countP is_focus), apply_ite (List.countP (is_focus_in o)),
          apply_ite (List.countP is_focus_out)],
        by simp [hfoc]⟩

/-! ## The close button -/

theorem output_disable_eq (s : wayland_backend) (o : OutId) (out : wayland_output)
    (ho : s.outputs o = some out) :
    ∃ s1, wayland_output_disable s o = some (0, s1) ∧ s1.outputs = s.outputs
      ∧ s1.log = s.log ++ (if out.enabled = true then disable_calls out else []) := by
  unfold wayland_output_disable
  simp only [ho]
  cases hen : out.enabled with
  | false => exact ⟨s, by simp, rfl, by simp⟩
  | true =>
    simp only [Bool.true_eq_false, if_false, if_true]
    refine ⟨_, rfl, ?_, ?_⟩
    · cases hs : out.shell_surface <;> cases hf : out.frame <;> rfl
    · cases hs : out.shell_surface <;> cases hf : out.frame <;>
        simp [disable_calls, emit, hs, hf]

theorem disable_calls_plain (out : wayland_output) :
    (disable_calls out).countP is_button = 0
    ∧ host_call.compositor_exit ∉ disable_calls out
    ∧ (disable_calls out).countP is_touch = 0 := by
  cases hs : out.shell_surface <;> cases hf : out.frame <;>
    simp [disable_calls, hs, hf, is_button, is_touch]

theorem output_destroy_eq (s : wayland_backend) (o : OutId) (out : wayland_output)
    (ho : s.outputs o = some out) :
    ∃ s2 l, wayland_output_destroy s o = some s2 ∧ s2.outputs o = none
      ∧ s2.log = s.log ++ l ∧ host_call.output_free o ∈ l
      ∧ l.countP is_button = 0 ∧ host_call.compositor_exit ∉ l
      ∧ l.countP is_touch = 0 := by
  obtain ⟨s1, h1, -, h3⟩ := output_disable_eq s o out ho
  obtain ⟨hb, he, ht⟩ := disable_calls_plain out
  unfold wayland_output_destroy
  rw [h1]
  refine ⟨_, (if out.enabled = true then disable_calls out else [])
    ++ [host_call.output_free o], rfl, by simp, by simp [h3], by simp, ?_, ?_, ?_⟩
  · simp only [List.countP_append]
    split
    · rw [hb]
      rfl
    · rfl
  rotate_left
  · simp only [List.countP_append]
    split
    · rw [ht]
      rfl
    · rfl
  · simp only [List.mem_append, List.mem_singleton, not_or]
    refine ⟨?_, by simp⟩
    split
    · exact he
    · simp

/-- C22: on a device whose pointer is on a live, decorated output, a button event after
which the decoration reports a close and no move returns: the output is destroyed in the
handler (its record is freed), no button event is forwarded to the compositor, the
pointer-focus output of the device is cleared, and the exit of the compositor is
signalled if and only if its output list is then empty. -/
theorem button_close (s : wayland_backend) (input : wayland_input)
    (serial time button state_w : Nat) (hit : theme_location) (st : frame_status)
    (output_list_empty : Bool) (o : OutId) (out : wayland_output) (f : frame)
    (hio : input.output = some o) (ho : s.outputs o = some out)
    (hf : out.frame = some f) (hmove : st.move = false) (hclose : st.close = true) :
    ∃ s1 input1 l,
      input_handle_button s input serial time button state_w hit st output_list_empty
        = some (s1, input1)
      ∧ s1.log = s.log ++ l
      ∧ s1.outputs o = none
      ∧ host_call.output_free o ∈ l
      ∧ l.countP is_button = 0
      ∧ input1.output = none
      ∧ (host_call.compositor_exit ∈ l ↔ output_list_empty = true) := by
  unfold input_handle_button
  simp only [hio, ho, hf, hmove, hclose, Bool.false_eq_true, if_false, if_true]
  obtain ⟨s2, l2, h2, ho2, hl2, hfree, hb, he, -⟩ := output_destroy_eq
    (set_output s o { out with frame := some { f with status_repaint := st.repaint } }) o
    { out with frame := some { f with status_repaint := st.repaint } } (by simp)
  rw [h2]
  cases output_list_empty with
  | false =>
    refine ⟨s2, _, l2, rfl, hl2, ho2, hfree, hb, rfl, ?_⟩
    simp only [Bool.false_eq_true, iff_false]
    exact he
  | true =>
    refine ⟨emit s2 host_call.compositor_exit, _, l2 ++ [host_call.compositor_exit], rfl,
      ?_, ho2, ?_, ?_, rfl, ?_⟩
    · simp only [emit_log, hl2, set_output_log, List.append_assoc]
    · exact List.mem_append_left _ hfree
    · simp only [List.countP_append, hb]
      rfl
    · simp

/-! ## Touch down -/

/-- C29 (refuted by the code): the first touch-down of a device lands on the title bar
of the decorated sample output and the decoration asks for a move; the handler takes
the touch point off again, so that `touch_points` is 0 while one touch point is down,
and `touch_focus` is still set.  At the touch-up of that touch point `touch_points`
wraps below zero to 4294967295. -/
theorem touch_points_wrap :
    sample_input.touch_points = 0
    ∧ (input_handle_touch_down sample_enable_result sample_input 1 100 (some 0) 3 2560 2560
          (theme_location.chrome 1) status_move identity_transform).map
        (fun r => (r.2.touch_points, r.2.touch_focus)) = some (0, some 0)
    ∧ ((input_handle_touch_down sample_enable_result sample_input 1 100 (some 0) 3 2560 2560
          (theme_location.chrome 1) status_move identity_transform).bind
        (fun c => input_handle_touch_up c.1 c.2 2 200 3 status_none false)).map
        (fun r => (r.2.touch_points, r.2.touch_focus)) = some (4294967295, some 0) :=
  ⟨rfl, rfl, rfl⟩

theorem touch_quiet_step (transform : OutId → Rat → Rat → Rat × Rat)
    (c c1 : wayland_backend × wayland_input) (e : touch_event)
    (hact : c.2.touch_active = false) (hpts : c.2.touch_points ≠ 0)
    (h : touch_dispatch transform c e = some c1) :
    c1.2.touch_active = false ∧ ∃ l, c1.1.log = c.1.log ++ l ∧ l.countP is_touch = 0 := by
  obtain ⟨s, input⟩ := c
  simp only at hact hpts
  cases e with
  | down serial time surface_output id fixed_x fixed_y hit st =>
    simp only [touch_dispatch, input_handle_touch_down, hact, hpts, decide_False,
      and_self, if_true, Option.some.injEq] at h
    subst h
    exact ⟨rfl, [], by simp, rfl⟩
  | up serial time id st output_list_empty =>
    simp only [touch_dispatch, input_handle_touch_up] at h
    generalize uint32_decr input.touch_points = n at h
    obtain ⟨input1, hi1, h⟩ : ∃ input1 : wayland_input, input1.touch_active = false ∧
        (match input.touch_focus with
        | none => some (s, input1)
        | some o =>
          match s.outputs o with
          | none => none
          | some out =>
            match out.frame with
            | some f =>
              if st.close = true then
                match wayland_output_destroy (set_output s o
                  { out with frame := some { f with status_repaint := st.repaint } }) o with
                | none => none
                | some s2 =>
                  some (if output_list_empty = true then emit s2 host_call.compositor_exit
                    else s2, { input1 with touch_focus := none, keyboard_focus := none })
              else
                some (if st.repaint = true then
                    emit (set_output s o
                      { out with frame := some { f with status_repaint := st.repaint } })
                      (host_call.schedule_repaint o)
                  else set_output s o
                    { out with frame := some { f with status_repaint := st.repaint } },
                  input1)
            | none => some (s, input1)) = some c1 := by
      by_cases hn : n = 0
      · refine ⟨{ input with touch_points := n, touch_focus := none,
                             touch_active := false }, rfl, ?_⟩
        simpa only [hn, if_true, hact, Bool.false_eq_true, if_false] using h
      · refine ⟨{ input with touch_points := n, touch_active := false }, rfl, ?_⟩
        simpa only [hn, if_false, hact, Bool.false_eq_true] using h
    cases hfo : input.touch_focus with
    | none =>
      simp only [hfo, Option.some.injEq] at h
      subst h
      exact ⟨hi1, [], by simp, rfl⟩
    | some o =>
      simp only [hfo] at h
      cases ho : s.outputs o with
      | none => simp [ho] at h
      | some out =>
        simp only [ho] at h
        cases hf : out.frame with
        | none =>
          simp only [hf, Option.some.injEq] at h
          subst h
          exact ⟨hi1, [], by simp, rfl⟩
        | some f =>
          simp only [hf] at h
          cases hcl : st.close with
          | false =>
            simp only [hcl, Bool.false_eq_true, if_false, Option.some.injEq] at h
            subst h
            refine ⟨hi1,
              if st.repaint = true then [host_call.schedule_repaint o] else [], ?_, ?_⟩
            · cases st.repaint <;> simp
            · cases st.repaint <;> rfl
          | true =>
            simp only [hcl, if_true] at h
            obtain ⟨s2, l2, h2, -, hl2, -, -, -, ht⟩ := output_destroy_eq
              (set_output s o
                { out with frame := some { f with status_repaint := st.repaint } }) o
              { out with frame := some { f with status_repaint := st.repaint } } (by simp)
            rw [h2] at h
            simp only [Option.some.injEq] at h
            subst h
            refine ⟨hi1,
              if output_list_empty = true then l2 ++ [host_call.compositor_exit]
              else l2, ?_, ?_⟩
            · cases output_list_empty
              · simp only [Bool.false_eq_true, if_false]
                exact hl2
              · simp only [if_true, emit_log, hl2, set_output_log, List.append_assoc]
            · cases output_list_empty
              · simp only [Bool.false_eq_true, if_false]
                exact ht
              · simp only [if_true, List.countP_append, ht]
                rfl
  | motion time id fixed_x fixed_y =>
    simp only [touch_dispatch, input_handle_touch_motion, hact, if_true] at h
    cases hfo : input.touch_focus with
    | none =>
      simp only [hfo, Option.some.injEq] at h
      subst h
      exact ⟨hact, [], by simp, rfl⟩
    | some o =>
      simp only [hfo, Option.some.injEq] at h
      subst h
      exact ⟨hact, [], by simp, rfl⟩
  | frame =>
    simp only [touch_dispatch, input_handle_touch_frame, hact, or_true, if_true,
      Option.some.injEq] at h
    subst h
    exact ⟨hact, [], by simp, rfl⟩
  | cancel =>
    simp only [touch_dispatch, input_handle_touch_cancel, hact, or_true, if_true,
      Option.some.injEq] at h
    subst h
    exact ⟨hact, [], by simp, rfl⟩

theorem touch_quiet_sequence (transform : OutId → Rat → Rat → Rat × Rat)
    (c0 c : wayland_backend × wayland_input) (hact : c0.2.touch_active = false)
    (h : touch_sequence transform c0 c) :
    c.2.touch_active = false ∧ ∃ l, c.1.log = c0.1.log ++ l ∧ l.countP is_touch = 0 := by
  induction h with
  | init => exact ⟨hact, [], by simp, rfl⟩
  | step c1 c2 e _ hpts hstep ih =>
    obtain ⟨ha1, l1, hl1, hc1⟩ := ih
    obtain ⟨ha2, l2, hl2, hc2⟩ := touch_quiet_step transform c1 c2 e ha1 hpts hstep
    refine ⟨ha2, l1 ++ l2, ?_, ?_⟩
    · rw [hl2, hl1, List.append_assoc]
    · rw [List.countP_append, hc1, hc2]

/-- C25: on a device with no touch point and no active touch sequence, a first
touch-down on the chrome of a decorated output returns, and from then on, for every
sequence of touch-down, touch-up, touch-motion, touch-frame and touch-cancel events
each of which arrives while `touch_points` is not 0, no touch event is forwarded to the
compositor. -/
theorem chrome_touch_suppressed (transform : OutId → Rat → Rat → Rat × Rat)
    (s : wayland_backend) (input : wayland_input) (serial time : Nat) (o : OutId)
    (out : wayland_output) (f : frame) (id : Int) (fixed_x fixed_y : Int)
    (hit : theme_location) (st : frame_status)
    (hpts : input.touch_points = 0) (hact : input.touch_active = false)
    (ho : s.outputs o = some out) (hf : out.frame = some f)
    (hchrome : hit ≠ theme_location.THEME_LOCATION_CLIENT_AREA) :
    ∃ c1, input_handle_touch_down s input serial time (some o) id fixed_x fixed_y hit st
        transform = some c1
      ∧ ∀ c2, touch_sequence transform c1 c2 →
          ∃ l, c2.1.log = s.log ++ l ∧ l.countP is_touch = 0 := by
  have hfirst : ∃ c1 l1, input_handle_touch_down s input serial time (some o) id fixed_x
      fixed_y hit st transform = some c1 ∧ c1.2.touch_active = false
      ∧ c1.1.log = s.log ++ l1 ∧ l1.countP is_touch = 0 := by
    have h1 : uint32_incr 0 = 1 := rfl
    have h0 : uint32_decr 1 = 0 := rfl
    unfold input_handle_touch_down
    obtain ⟨repaint, move, close⟩ := st
    simp only [hpts, ho, hf, decide_True, Bool.true_eq_false, false_and, if_false,
      true_and, hchrome, ne_eq, not_false_eq_true, if_true, h1]
    cases repaint <;> cases move <;>
      simp only [if_true, if_false, Bool.false_eq_true, Bool.true_eq_false, h0] <;>
      exact ⟨_, _, rfl, hact,
        by first
          | exact (List.append_nil _).symm
          | (simp only [emit_log, set_output_log, List.append_assoc]
             rfl),
        by simp [is_touch]⟩
  obtain ⟨c1, l1, h1, ha1, hl1, hc1⟩ := hfirst
  refine ⟨c1, h1, ?_⟩
  intro c2 hseq
  obtain ⟨-, l2, hl2, hc2⟩ := touch_quiet_sequence transform c1 c2 ha1 hseq
  refine ⟨l1 ++ l2, ?_, ?_⟩
  · rw [hl2, hl1, List.append_assoc]
  · rw [List.countP_append, hc1, hc2]

/-! ## Witnesses of the input theorems -/

/-- Witness of C21: a motion into the client area of the decorated sample output. -/
theorem motion_focus_witness :
    ∃ s1 input1 l,
      input_handle_motion sample_enable_result sample_pointer 5 2560 5120
        theme_location.THEME_LOCATION_CLIENT_AREA false identity_transform
        = some (s1, input1)
      ∧ s1.log = sample_enable_result.log ++ l
      ∧ focus_counts 0 l =
        (if sample_pointer.has_focus = false
            ∧ enter_location sample_enabled_output theme_location.THEME_LOCATION_CLIENT_AREA
              = theme_location.THEME_LOCATION_CLIENT_AREA then
          (1, 1, 0)
        else if sample_pointer.has_focus = true
            ∧ enter_location sample_enabled_output theme_location.THEME_LOCATION_CLIENT_AREA
              ≠ theme_location.THEME_LOCATION_CLIENT_AREA then
          (1, 0, 1)
        else (0, 0, 0))
      ∧ (input1.has_focus = true
          ↔ enter_location sample_enabled_output theme_location.THEME_LOCATION_CLIENT_AREA
            = theme_location.THEME_LOCATION_CLIENT_AREA) :=
  motion_focus sample_enable_result sample_pointer 5 2560 5120
    theme_location.THEME_LOCATION_CLIENT_AREA false identity_transform 0
    sample_enabled_output rfl rfl

/-- Witness of C22: a release on the close button of the decorated sample output, the
only output of the compositor. -/
theorem button_close_witness :
    ∃ s1 input1 l,
      input_handle_button sample_enable_result sample_pointer 1 100 272 0
        (theme_location.chrome 2) status_close true = some (s1, input1)
      ∧ s1.log = sample_enable_result.log ++ l
      ∧ s1.outputs 0 = none
      ∧ host_call.output_free 0 ∈ l
      ∧ l.countP is_button = 0
      ∧ input1.output = none
      ∧ (host_call.compositor_exit ∈ l ↔ true = true) :=
  button_close sample_enable_result sample_pointer 1 100 272 0 (theme_location.chrome 2)
    status_close true 0 sample_enabled_output sample_enabled_frame rfl rfl rfl rfl rfl

/-- Witness of C25: a first touch-down on the chrome of the decorated sample output. -/
theorem chrome_touch_suppressed_witness :
    ∃ c1, input_handle_touch_down sample_enable_result sample_input 1 100 (some 0) 3 2560
        2560 (theme_location.chrome 1) status_none identity_transform = some c1
      ∧ ∀ c2, touch_sequence identity_transform c1 c2 →
          ∃ l, c2.1.log = sample_enable_result.log ++ l ∧ l.countP is_touch = 0 :=
  chrome_touch_suppressed identity_transform sample_enable_result sample_input 1 100 0
    sample_enabled_output sample_enabled_frame 3 2560 2560 (theme_location.chrome 1)
    status_none rfl rfl rfl rfl (by decide)

/-! ## Damage of the buffers in the software path -/

theorem pool_inv_of_owners (s s1 : wayland_backend) (h : pool_inv s)
    (h1 : s1.outputs = s.outputs) (h2 : s1.next_buffer = s.next_buffer)
    (h3 : ∀ x, buffer_owner s1 x = buffer_owner s x) : pool_inv s1 := by
  have live : ∀ x sb1, s1.shm_buffers x = some sb1 →
      ∃ sb, s.shm_buffers x = some sb ∧ sb.output = sb1.output := by
    intro x sb1 hx
    have hx3 := h3 x
    simp only [buffer_owner, hx, Option.map_some'] at hx3
    cases hs : s.shm_buffers x with
    | none => simp [hs] at hx3
    | some sb =>
      simp only [hs, Option.map_some', Option.some.injEq] at hx3
      exact ⟨sb, rfl, hx3.symm⟩
  have live1 : ∀ x sb, s.shm_buffers x = some sb →
      ∃ sb1, s1.shm_buffers x = some sb1 ∧ sb1.output = sb.output := by
    intro x sb hx
    have hx3 := h3 x
    simp only [buffer_owner, hx, Option.map_some'] at hx3
    cases hs : s1.shm_buffers x with
    | none => simp [hs] at hx3
    | some sb1 =>
      simp only [hs, Option.map_some', Option.some.injEq] at hx3
      exact ⟨sb1, rfl, hx3⟩
  refine ⟨?_, ?_, ?_, ?_, ?_⟩
  · intro b hb
    rw [h2] at hb
    have hx3 := h3 b
    simp only [buffer_owner, h.fresh b hb, Option.map_none'] at hx3
    cases hs : s1.shm_buffers b with
    | none => rfl
    | some sb1 => simp [hs] at hx3
  · intro o out ho b hb
    rw [h1] at ho
    obtain ⟨sb, hsb, hown⟩ := h.listed o out ho b hb
    obtain ⟨sb1, hsb1, hown1⟩ := live1 b sb hsb
    exact ⟨sb1, hsb1, by rw [hown1]; exact hown⟩
  · intro o out ho b hb
    rw [h1] at ho
    obtain ⟨hmem, sb, hsb, hown⟩ := h.free_owned o out ho b hb
    obtain ⟨sb1, hsb1, hown1⟩ := live1 b sb hsb
    exact ⟨hmem, sb1, hsb1, by rw [hown1]; exact hown⟩
  · intro o out ho
    rw [h1] at ho
    exact h.free_nodup o out ho
  · intro b sb1 o hb hown
    obtain ⟨sb, hsb, hown0⟩ := live b sb1 hb
    rw [h1]
    exact h.owner_live b sb o hsb (by rw [hown0]; exact hown)

theorem mark_frame_damaged_buffers (bs : List BufId) :
    ∀ (s s1 : wayland_backend), mark_frame_damaged s bs = some s1 →
      s1.outputs = s.outputs ∧ s1.next_buffer = s.next_buffer ∧ s1.log = s.log
      ∧ s1.modes = s.modes
      ∧ (∀ x, buffer_owner s1 x = buffer_owner s x)
      ∧ ∀ x, pending_damage s1 x = pending_damage s x := by
  induction bs with
  | nil =>
    intro s s1 h
    simp only [mark_frame_damaged, Option.some.injEq] at h
    subst h
    exact ⟨rfl, rfl, rfl, rfl, fun _ => rfl, fun _ => rfl⟩
  | cons b bs ih =>
    intro s s1 h
    simp only [mark_frame_damaged] at h
    cases hb : s.shm_buffers b with
    | none => simp [hb] at h
    | some sb =>
      simp only [hb] at h
      obtain ⟨h1, h2, h3, h4, h5, h6⟩ := ih _ s1 h
      refine ⟨h1, h2, h3, h4, fun x => ?_, fun x => ?_⟩
      · rw [h5 x]
        by_cases hx : x = b
        · subst hx
          simp [buffer_owner, hb]
        · simp [buffer_owner, hx]
      · rw [h6 x]
        by_cases hx : x = b
        · subst hx
          simp [pending_damage, hb]
        · simp [pending_damage, hx]

theorem union_damage_buffers (damage : region) (bs : List BufId) :
    ∀ (s s1 : wayland_backend), union_damage damage s bs = some s1 → bs.Nodup →
      s1.outputs = s.outputs ∧ s1.next_buffer = s.next_buffer ∧ s1.log = s.log
      ∧ s1.modes = s.modes
      ∧ (∀ x, buffer_owner s1 x = buffer_owner s x)
      ∧ (∀ x ∈ bs, pending_damage s1 x = (pending_damage s x).map (fun d => d ++ damage))
      ∧ ∀ x, x ∉ bs → s1.shm_buffers x = s.shm_buffers x := by
  induction bs with
  | nil =>
    intro s s1 h _
    simp only [union_damage, Option.some.injEq] at h
    subst h
    exact ⟨rfl, rfl, rfl, rfl, fun _ => rfl, fun x hx => absurd hx (List.not_mem_nil x),
      fun _ _ => rfl⟩
  | cons b bs ih =>
    intro s s1 h hnd
    simp only [union_damage] at h
    obtain ⟨hnb, hnd1⟩ := List.nodup_cons.mp hnd
    cases hb : s.shm_buffers b with
    | none => simp [hb] at h
    | some sb =>
      simp only [hb] at h
      obtain ⟨h1, h2, h3, h4, h5, h6, h7⟩ := ih _ s1 h hnd1
      refine ⟨h1, h2, h3, h4, fun x => ?_, fun x hx => ?_, fun x hx => ?_⟩
      · rw [h5 x]
        by_cases hxb : x = b
        · subst hxb
          simp [buffer_owner, hb]
        · simp [buffer_owner, hxb]
      · rcases List.mem_cons.mp hx with hxb | hxs
        · subst hxb
          have h8 := h7 x hnb
          simp [pending_damage, h8, hb]
        · have hxb : x ≠ b := fun e => hnb (e ▸ hxs)
          rw [h6 x hxs]
          simp [pending_damage, hxb]
      · have hxb : x ≠ b := fun e => hx (e ▸ List.mem_cons_self _ _)
        have hxs : x ∉ bs := fun e => hx (List.mem_cons_of_mem _ e)
        rw [h7 x hxs]
        simp [hxb]

theorem damage_calls_append (l1 l2 : List host_call) :
    damage_calls (l1 ++ l2) = damage_calls l1 ++ damage_calls l2 := by
  simp [damage_calls]

theorem update_shm_border_buffers (s : wayland_backend) (b : BufId)
    (s1 : wayland_backend) (h : wayland_output_update_shm_border s b = some s1) :
    s1.outputs = s.outputs ∧ s1.next_buffer = s.next_buffer
      ∧ s1.shm_buffers = s.shm_buffers
      ∧ ∃ l, s1.log = s.log ++ l ∧ damage_calls l = [] := by
  unfold wayland_output_update_shm_border at h
  cases hb : s.shm_buffers b with
  | none => simp [hb] at h
  | some sb =>
    cases hown : sb.output with
    | none => simp [hb, hown] at h
    | some o1 =>
      cases ho : s.outputs o1 with
      | none => simp [hb, hown, ho] at h
      | some out =>
        simp only [hb, hown, ho] at h
        split at h
        · cases h
          exact ⟨rfl, rfl, rfl, [], by simp, rfl⟩
        · cases h
          exact ⟨rfl, rfl, rfl, [host_call.frame_repaint b], rfl, rfl⟩

theorem shm_buffer_attach_buffers (s : wayland_backend) (b : BufId)
    (s1 : wayland_backend) (h : wayland_shm_buffer_attach s b = some s1) :
    s1.outputs = s.outputs ∧ s1.next_buffer = s.next_buffer
      ∧ s1.shm_buffers = s.shm_buffers
      ∧ ∃ sb o1 out, s.shm_buffers b = some sb ∧ sb.output = some o1
        ∧ s.outputs o1 = some out
        ∧ s1.log = s.log ++ [host_call.surface_attach out.surface b,
          host_call.surface_damage_buffer out.surface sb.damage
            (out.frame.isSome && sb.frame_damaged)] := by
  unfold wayland_shm_buffer_attach at h
  cases hb : s.shm_buffers b with
  | none => simp [hb] at h
  | some sb =>
    cases hown : sb.output with
    | none => simp [hb, hown] at h
    | some o1 =>
      cases ho : s.outputs o1 with
      | none => simp [hb, hown, ho] at h
      | some out =>
        simp only [hb, hown, ho, Option.some.injEq] at h
        subst h
        exact ⟨rfl, rfl, rfl, sb, o1, out, rfl, hown, ho, by simp⟩

/-- The stages of a repaint in the software path that returns. -/
theorem repaint_pixman_stages (s : wayland_backend) (o : OutId) (damage : region)
    (a : shm_alloc) (r : Int × wayland_backend)
    (h : wayland_output_repaint_pixman s o damage a = some r) :
    ∃ out s1 s2 sb s3 buf l,
      s.outputs o = some out ∧
      (s1 = s ∨ mark_frame_damaged s out.buffers = some s1) ∧
      union_damage damage s1 out.buffers = some s2 ∧
      wayland_output_get_shm_buffer s2 o a = some (some sb, s3) ∧
      s3.shm_buffers sb = some buf ∧
      r.2.outputs = s3.outputs ∧ r.2.next_buffer = s3.next_buffer ∧
      (∀ x, r.2.shm_buffers x = if x = sb then
        some { buf with cleared := false, damage := [], frame_damaged := false }
        else s3.shm_buffers x) ∧
      r.2.log = s3.log ++ l ∧
      ∃ ow outw chrome, buf.output = some ow ∧ s3.outputs ow = some outw ∧
        damage_calls l = [host_call.renderer_repaint_output o buf.damage,
          host_call.surface_attach outw.surface sb,
          host_call.surface_damage_buffer outw.surface buf.damage chrome] := by
  unfold wayland_output_repaint_pixman at h
  cases ho : s.outputs o with
  | none => simp [ho] at h
  | some out =>
    simp only [ho] at h
    cases hm : (match out.frame with
        | some f => if f.status_repaint = true then mark_frame_damaged s out.buffers
          else some s
        | none => some s) with
    | none => simp [hm] at h
    | some s1 =>
      have h1 : s1 = s ∨ mark_frame_damaged s out.buffers = some s1 := by
        cases hf : out.frame with
        | none =>
          simp only [hf, Option.some.injEq] at hm
          exact Or.inl hm.symm
        | some f =>
          simp only [hf] at hm
          by_cases hs : f.status_repaint = true
          · rw [if_pos hs] at hm
            exact Or.inr hm
          · rw [if_neg hs] at hm
            cases hm
            exact Or.inl rfl
      simp only [hm] at h
      cases hu : union_damage damage s1 out.buffers with
      | none => simp [hu] at h
      | some s2 =>
        simp only [hu] at h
        cases hget : wayland_output_get_shm_buffer s2 o a with
        | none => simp [hget] at h
        | some rr =>
          obtain ⟨rb, s3⟩ := rr
          cases rb with
          | none => simp [hget] at h
          | some sb =>
            simp only [hget] at h
            cases hbd : wayland_output_update_shm_border s3 sb with
            | none => simp [hbd] at h
            | some s4 =>
              obtain ⟨b1, b2, b3, l4, b4, c4⟩ := update_shm_border_buffers s3 sb s4 hbd
              simp only [hbd] at h
              cases hbuf : s4.shm_buffers sb with
              | none => simp [hbuf] at h
              | some buf =>
                simp only [hbuf] at h
                cases hat : wayland_shm_buffer_attach
                    (emit (emit (set_buffer s4 sb { buf with cleared := false })
                      (host_call.pixman_set_buffer o sb))
                      (host_call.renderer_repaint_output o buf.damage)) sb with
                | none => simp [hat] at h
                | some s6 =>
                  obtain ⟨a1, a2, a3, sbw, ow, outw, w1, w2, w3, a4⟩ :=
                    shm_buffer_attach_buffers _ sb s6 hat
                  simp only [hat] at h
                  have hb7 : (emit (emit (emit s6 (host_call.surface_frame out.surface))
                      (host_call.surface_commit out.surface))
                      host_call.display_flush).shm_buffers sb
                      = some { buf with cleared := false } := by
                    simp [a3]
                  simp only [hb7, Option.some.injEq] at h
                  subst h
                  have w1x : sbw = { buf with cleared := false } := by
                    simp at w1
                    exact w1.symm
                  subst w1x
                  refine ⟨out, s1, s2, sb, s3, buf, l4 ++ [host_call.pixman_set_buffer o sb,
                      host_call.renderer_repaint_output o buf.damage]
                      ++ [host_call.surface_attach outw.surface sb,
                        host_call.surface_damage_buffer outw.surface buf.damage
                          (outw.frame.isSome && buf.frame_damaged)]
                      ++ [host_call.surface_frame out.surface,
                        host_call.surface_commit out.surface, host_call.display_flush],
                    rfl, h1, hu, hget, by rw [← b3]; exact hbuf, ?_, ?_, ?_, ?_,
                    ow, outw, (outw.frame.isSome && buf.frame_damaged), w2, ?_, ?_⟩
                  · simp [a1, b1]
                  · simp [a2, b2]
                  · intro x
                    by_cases hx : x = sb
                    · simp [hx]
                    · simp [hx, a3, b3]
                  · simp only [set_buffer_log, emit_log, a4, b4, List.append_assoc,
                      List.singleton_append, List.cons_append, List.nil_append]
                  · rw [← b1]
                    exact w3
                  · simp only [damage_calls_append, c4, List.nil_append]
                    rfl

/-- One repaint in the software path on a well-formed pool: the buffer that is submitted,
the damage with which it is painted, and the damage that the buffers are left with. -/
theorem repaint_pixman_step (s : wayland_backend) (o : OutId) (damage : region)
    (a : shm_alloc) (r : Int × wayland_backend) (out : wayland_output) (hinv : pool_inv s)
    (ho : s.outputs o = some out) (hnd : out.buffers.Nodup)
    (h : wayland_output_repaint_pixman s o damage a = some r) :
    ∃ sb l painted out1 chrome, submitted_buffer s o = some sb ∧ r.2.log = s.log ++ l ∧
      damage_calls l = [host_call.renderer_repaint_output o painted,
        host_call.surface_attach out.surface sb,
        host_call.surface_damage_buffer out.surface painted chrome] ∧
      (out.free_buffers = [] → painted = whole_output out ∧ sb ∉ out.buffers ∧
        buffer_owner s sb = none) ∧
      (out.free_buffers ≠ [] → sb ∈ out.buffers ∧
        (pending_damage s sb).map (fun d => d ++ damage) = some painted ∧
        buffer_owner s sb = some (some o)) ∧
      pending_damage r.2 sb = some [] ∧ chrome_damaged r.2 sb = some false ∧
      buffer_owner r.2 sb = some (some o) ∧
      (∀ x ∈ out.buffers, x ≠ sb →
        pending_damage r.2 x = (pending_damage s x).map (fun d => d ++ damage)) ∧
      (∀ x, x ∉ out.buffers → x ≠ sb → pending_damage r.2 x = pending_damage s x) ∧
      (∀ x, x ≠ sb → buffer_owner r.2 x = buffer_owner s x) ∧
      pool_inv r.2 ∧ r.2.outputs o = some out1 ∧ out1.buffers.Nodup ∧
      sb ∈ out1.buffers ∧ (∀ x ∈ out.buffers, x ∈ out1.buffers) ∧
      (∀ o1, o1 ≠ o → r.2.outputs o1 = s.outputs o1) := by
  obtain ⟨out0, s1, s2, sb, s3, buf, l, ho0, hmark, hu, hget, hbuf, ro, rn, rb, rl,
    ow, outw, chrome, rw1, rw2, rp⟩ :=
    repaint_pixman_stages s o damage a r h
  rw [ho] at ho0
  cases ho0
  have m : s1.outputs = s.outputs ∧ s1.next_buffer = s.next_buffer ∧ s1.log = s.log
      ∧ s1.modes = s.modes ∧ (∀ x, buffer_owner s1 x = buffer_owner s x)
      ∧ ∀ x, pending_damage s1 x = pending_damage s x := by
    rcases hmark with rfl | hm
    · exact ⟨rfl, rfl, rfl, rfl, fun _ => rfl, fun _ => rfl⟩
    · exact mark_frame_damaged_buffers _ _ _ hm
  obtain ⟨m1, m2, m3, -, m5, m6⟩ := m
  obtain ⟨u1, u2, u3, -, u5, u6, u7⟩ := union_damage_buffers damage _ _ _ hu hnd
  have own2 : ∀ x, buffer_owner s2 x = buffer_owner s x := fun x => (u5 x).trans (m5 x)
  have inv2 : pool_inv s2 := pool_inv_of_owners s s2 hinv (u1.trans m1) (u2.trans m2) own2
  have ho2 : s2.outputs o = some out := by rw [u1, m1]; exact ho
  have pin : ∀ x ∈ out.buffers,
      pending_damage s2 x = (pending_damage s x).map (fun d => d ++ damage) := by
    intro x hx
    rw [u6 x hx, m6 x]
  have pout : ∀ x, x ∉ out.buffers → pending_damage s2 x = pending_damage s x := by
    intro x hx
    rw [← m6 x]
    simp only [pending_damage, u7 x hx]
  have hlog2 : s2.log = s.log := u3.trans m3
  have final_pending : pending_damage r.2 sb = some [] := by
    simp [pending_damage, rb sb]
  have final_chrome : chrome_damaged r.2 sb = some false := by
    simp [chrome_damaged, rb sb]
  have final_owner : buffer_owner r.2 sb = some buf.output := by
    simp [buffer_owner, rb sb]
  have other_pending : ∀ x, x ≠ sb → pending_damage r.2 x = pending_damage s3 x := by
    intro x hx
    simp [pending_damage, rb x, hx]
  have other_owner : ∀ x, buffer_owner r.2 x = buffer_owner s3 x := by
    intro x
    by_cases hx : x = sb
    · subst hx
      simp [buffer_owner, rb x, hbuf]
    · simp [buffer_owner, rb x, hx]
  obtain ⟨out2, ho2x, c⟩ := get_shm_buffer_cases s2 o a _ hget
  rw [ho2] at ho2x
  cases ho2x
  rcases c with ⟨sb1, rest, hf, heq⟩ | ⟨hf, heq⟩ | ⟨hf, heq⟩
  · cases heq
    have inv3 := pool_inv_pop s2 inv2 o out sb rest ho2 hf
    obtain ⟨hmem, sb0, hsb0, hown0⟩ :=
      hinv.free_owned o out ho sb (by rw [hf]; exact List.mem_cons_self _ _)
    have hbuf2 : s2.shm_buffers sb = some buf := hbuf
    have hown : buf.output = some o := by
      have := own2 sb
      simp only [buffer_owner, hbuf2, hsb0, Option.map_some', Option.some.injEq] at this
      rw [this]
      exact hown0
    rw [hown] at rw1
    cases rw1
    have hsurf : outw.surface = out.surface := by
      simp at rw2
      rw [← rw2]
    rw [hsurf] at rp
    refine ⟨sb, l, buf.damage, { out with free_buffers := rest }, chrome, ?_, ?_, rp, ?_, ?_,
      final_pending, final_chrome, ?_, ?_, ?_, ?_, ?_, ?_, hnd, hmem, fun x hx => hx, ?_⟩
    · simp [submitted_buffer, ho, hf]
    · rw [rl]
      simp [hlog2]
    · intro he
      rw [he] at hf
      cases hf
    · intro _
      refine ⟨hmem, ?_, ?_⟩
      · rw [← pin sb hmem]
        simp [pending_damage, hbuf2]
      · simp [buffer_owner, hsb0, hown0]
    · rw [final_owner, hown]
    · intro x hx hxs
      rw [other_pending x hxs]
      exact pin x hx
    · intro x hx hxs
      rw [other_pending x hxs]
      exact pout x hx
    · intro x _
      rw [other_owner x]
      exact own2 x
    · exact pool_inv_of_owners _ r.2 inv3 ro rn other_owner
    · rw [ro]
      simp
    · intro o1 ho1
      rw [ro]
      simp [ho1, u1, m1]
  · cases heq
  · cases heq
    have inv3 := pool_inv_acquired s2 inv2 o out ho2
    have hnew : s2.next_buffer ∉ out.buffers := by
      intro hx
      obtain ⟨sbx, hsbx, -⟩ := inv2.listed o out ho2 _ hx
      exact absurd (pool_inv_live_lt s2 inv2 _ sbx hsbx) (Nat.lt_irrefl _)
    have hbufeq : buf = acquired_buffer s2 o out := by
      have := acquired_state_shm_buffers s2 o out s2.next_buffer
      rw [hbuf, if_pos rfl] at this
      exact Option.some.inj this
    have hown : buf.output = some o := by rw [hbufeq]; rfl
    rw [hown] at rw1
    cases rw1
    have hsurf : outw.surface = out.surface := by
      rw [acquired_state_outputs, if_pos rfl] at rw2
      cases rw2
      rfl
    rw [hsurf] at rp
    refine ⟨s2.next_buffer,
      host_call.shm_create_buffer s2.next_buffer (acquired_buffer s2 o out).width
        (acquired_buffer s2 o out).height (acquired_buffer s2 o out).stride :: l,
      buf.damage,
      { out with buffers := s2.next_buffer :: out.buffers }, chrome, ?_, ?_, ?_, ?_, ?_,
      final_pending, final_chrome, ?_, ?_, ?_, ?_, ?_, ?_, ?_, ?_, ?_, ?_⟩
    · simp [submitted_buffer, ho, hf, u2, m2]
    · rw [rl]
      simp [acquired_state, hlog2]
    · have hc : damage_calls
          (host_call.shm_create_buffer s2.next_buffer (acquired_buffer s2 o out).width
            (acquired_buffer s2 o out).height (acquired_buffer s2 o out).stride :: l)
          = damage_calls l := rfl
      rw [hc]
      exact rp
    · intro _
      refine ⟨by rw [hbufeq]; rfl, hnew, ?_⟩
      rw [← own2]
      simp [buffer_owner, inv2.fresh s2.next_buffer (Nat.le_refl _)]
    · intro hne
      exact absurd hf hne
    · rw [final_owner, hbufeq]
      rfl
    · intro x hx hxs
      rw [other_pending x hxs]
      simp only [pending_damage, acquired_state_shm_buffers, if_neg hxs]
      exact pin x hx
    · intro x hx hxs
      rw [other_pending x hxs]
      simp only [pending_damage, acquired_state_shm_buffers, if_neg hxs]
      exact pout x hx
    · intro x hxs
      rw [other_owner x]
      simp only [buffer_owner, acquired_state_shm_buffers, if_neg hxs]
      exact own2 x
    · exact pool_inv_of_owners _ r.2 inv3 ro rn other_owner
    · rw [ro, acquired_state_outputs, if_pos rfl]
    · exact List.nodup_cons.mpr ⟨hnew, hnd⟩
    · exact List.mem_cons_self _ _
    · intro x hx
      exact List.mem_cons_of_mem _ hx
    · intro o1 ho1
      rw [ro, acquired_state_outputs, if_neg ho1, u1, m1]

theorem in_use_of_owner (s : wayland_backend) (h : pool_inv s) (b : BufId) (o : OutId)
    (out : wayland_output) (hown : buffer_owner s b = some (some o))
    (ho : s.outputs o = some out) (hnf : b ∉ out.free_buffers) : buffer_in_use s b := by
  cases hb : s.shm_buffers b with
  | none => simp [buffer_owner, hb] at hown
  | some sb =>
    simp only [buffer_owner, hb, Option.map_some', Option.some.injEq] at hown
    refine ⟨⟨sb, hb⟩, fun o1 out1 ho1 hmem => ?_⟩
    obtain ⟨-, sb1, hsb1, hown1⟩ := h.free_owned o1 out1 ho1 b hmem
    rw [hb] at hsb1
    cases hsb1
    rw [hown] at hown1
    cases hown1
    rw [ho] at ho1
    cases ho1
    exact hnf hmem

/-- A release of a buffer in use keeps the pools well formed and leaves the pending
damage of every buffer that an output lists and owns. -/
theorem buffer_release_keeps (s : wayland_backend) (b1 : BufId) (s1 : wayland_backend)
    (hinv : pool_inv s) (hnd : buffers_nodup s) (huse : buffer_in_use s b1)
    (hr : buffer_release s b1 = some s1) :
    pool_inv s1 ∧ buffers_nodup s1 ∧
      ∀ o b out, s.outputs o = some out → b ∈ out.buffers →
        buffer_owner s b = some (some o) →
        ∃ out1, s1.outputs o = some out1 ∧ b ∈ out1.buffers ∧
          buffer_owner s1 b = some (some o) ∧ pending_damage s1 b = pending_damage s b := by
  refine ⟨pool_inv_buffer_release s hinv b1 s1 huse hr, ?_⟩
  obtain ⟨⟨sb1, hsb1⟩, -⟩ := huse
  cases hown : sb1.output with
  | none =>
    rw [buffer_release_orphan s b1 sb1 hsb1 hown] at hr
    cases hr
    refine ⟨fun o out ho => ?_, fun o b out ho hb hob => ?_⟩
    · simp only [destroyed_state] at ho
      cases hso : s.outputs o with
      | none => simp [hso] at ho
      | some out0 =>
        simp only [hso, Option.map_some', Option.some.injEq] at ho
        subst ho
        exact (hnd o out0 hso).filter _
    · have hne : b ≠ b1 := by
        intro e
        subst e
        simp [buffer_owner, hsb1, hown] at hob
      refine ⟨unlink_buffer b1 out, by simp [destroyed_state, ho], ?_, ?_, ?_⟩
      · simp [unlink_buffer, hb, hne]
      · simp [buffer_owner, destroyed_state, Function.update_apply, hne] at hob ⊢
        exact hob
      · simp [pending_damage, destroyed_state, Function.update_apply, hne]
  | some o1 =>
    obtain ⟨out1, ho1, -⟩ := hinv.owner_live b1 sb1 o1 hsb1 hown
    rw [buffer_release_owned s b1 sb1 o1 out1 hsb1 hown ho1] at hr
    cases hr
    refine ⟨fun o out ho => ?_, fun o b out ho hb hob => ?_⟩
    · by_cases he : o = o1
      · rw [set_output_outputs, if_pos he] at ho
        cases ho
        exact hnd o1 out1 ho1
      · simp only [set_output_outputs, if_neg he] at ho
        exact hnd o out ho
    · by_cases he : o = o1
      · subst he
        rw [ho] at ho1
        cases ho1
        exact ⟨{ out1 with free_buffers := b1 :: out1.free_buffers },
          by rw [set_output_outputs, if_pos rfl], hb, hob, rfl⟩
      · exact ⟨out, by simp [he, ho], hb, hob, rfl⟩

/-- Along a run the pools stay well formed, and the buffer that the run follows is
listed and owned by its output and has the damage since its last submission pending. -/
theorem damage_since_pending (s0 : wayland_backend) (hinv0 : pool_inv s0)
    (hnd0 : buffers_nodup s0) (o : OutId) (b : BufId) (acc : Option region)
    (s : wayland_backend) (hrun : damage_since o b s0 acc s) :
    pool_inv s ∧ buffers_nodup s ∧
      ∀ d, acc = some d → ∃ out, s.outputs o = some out ∧ b ∈ out.buffers ∧
        buffer_owner s b = some (some o) ∧ pending_damage s b = some d := by
  induction hrun with
  | init => exact ⟨hinv0, hnd0, fun d hd => by cases hd⟩
  | paint acc s o1 damage a r _ hr ih =>
    obtain ⟨hinv, hnd, htrack⟩ := ih
    cases ho1 : s.outputs o1 with
    | none => simp [wayland_output_repaint_pixman, ho1] at hr
    | some out1 =>
      obtain ⟨sb, l, painted, out2, -, hsub, -, -, hnew, hold, hpend, -, hown, hin, hnotin,
        hother, hinv1, hout2, hnd2, hsb2, hkeep, hframe⟩ :=
        repaint_pixman_step s o1 damage a r out1 hinv ho1 (hnd o1 out1 ho1) hr
      have hnd1 : buffers_nodup r.2 := by
        intro o2 outx hx
        by_cases he : o2 = o1
        · subst he
          rw [hout2] at hx
          cases hx
          exact hnd2
        · rw [hframe o2 he] at hx
          exact hnd o2 outx hx
      refine ⟨hinv1, hnd1, fun d hd => ?_⟩
      by_cases he : o1 = o
      · subst he
        rw [if_pos rfl] at hd
        by_cases hs : submitted_buffer s o1 = some b
        · rw [if_pos hs] at hd
          cases hd
          rw [hsub] at hs
          cases hs
          exact ⟨out2, hout2, hsb2, hown, hpend⟩
        · rw [if_neg hs] at hd
          cases hacc : acc with
          | none => simp [hacc] at hd
          | some d0 =>
            simp only [hacc, Option.map_some', Option.some.injEq] at hd
            subst hd
            obtain ⟨out, ho, hb, hob, hp⟩ := htrack d0 hacc
            rw [ho1] at ho
            cases ho
            have hne : b ≠ sb := fun e => hs (by rw [hsub, e])
            refine ⟨out2, hout2, hkeep b hb, ?_, ?_⟩
            · rw [hother b hne]
              exact hob
            · rw [hin b hb hne, hp]
              rfl
      · rw [if_neg he] at hd
        obtain ⟨out, ho, hb, hob, hp⟩ := htrack d hd
        have hne : b ≠ sb := by
          intro e
          subst e
          by_cases hf : out1.free_buffers = []
          · rw [(hnew hf).2.2] at hob
            cases hob
          · rw [(hold hf).2.2] at hob
            cases hob
            exact he rfl
        have hnl : b ∉ out1.buffers := by
          intro hx
          obtain ⟨sbx, hsbx, hox⟩ := hinv.listed o1 out1 ho1 b hx
          simp only [buffer_owner, hsbx, Option.map_some', Option.some.injEq] at hob
          rcases hox with hox | hox
          · rw [hox] at hob
            cases hob
          · rw [hox] at hob
            cases hob
            exact he rfl
        refine ⟨out, ?_, hb, ?_, ?_⟩
        · rw [hframe o (fun e => he e.symm)]
          exact ho
        · rw [hother b hne]
          exact hob
        · rw [hnotin b hnl hne]
          exact hp
  | release acc s b1 s1 _ huse hr ih =>
    obtain ⟨hinv, hnd, htrack⟩ := ih
    obtain ⟨hinv1, hnd1, hkeep⟩ := buffer_release_keeps s b1 s1 hinv hnd huse hr
    refine ⟨hinv1, hnd1, fun d hd => ?_⟩
    obtain ⟨out, ho, hb, hob, hp⟩ := htrack d hd
    obtain ⟨out1, h1, h2, h3, h4⟩ := hkeep o b out ho hb hob
    exact ⟨out1, h1, h2, h3, h4.trans hp⟩

theorem sample_backend_nodup : buffers_nodup sample_backend := by
  intro o out ho
  rw [(sample_backend_empty.2 o out ho).1]
  exact List.nodup_nil

theorem sample_painted_twice_run :
    damage_since 0 0 sample_backend (some sample_damage_late) sample_painted_twice :=
  damage_since.paint (some []) sample_painted_once 0 sample_damage_late alloc_ok
    (0, sample_painted_twice)
    (damage_since.paint none sample_backend 0 sample_damage alloc_ok
      (0, sample_painted_once) damage_since.init rfl)
    rfl

theorem sample_painted_released_run :
    damage_since 0 0 sample_backend (some sample_damage_late) sample_painted_released :=
  damage_since.release (some sample_damage_late) sample_painted_twice 0
    sample_painted_released sample_painted_twice_run
    (in_use_of_owner sample_painted_twice
      (damage_since_pending sample_backend (pool_inv_of_empty _ sample_backend_empty)
        sample_backend_nodup 0 0 _ _ sample_painted_twice_run).1
      0 0 { sample_output with buffers := [1, 0] } rfl rfl (List.not_mem_nil _))
    rfl

/-- C30: in a run of repaints in the software path and of releases of buffers in use that
starts with well-formed buffer pools, a repaint of output `o` that returns paints one
buffer and hands that buffer to the host, both with the same damage region.  For a
newly allocated buffer (the free list is empty) the region is the whole output.  For a
buffer `b` that the run has submitted before, the region is the union of the damage of
every repaint of `o` since the last submission of `b`, the present repaint included.
After the repaint the pending damage of the submitted buffer is empty and its
`frame_damaged` is clear; every other buffer of the output has the damage of the repaint
added to its pending damage, which for a buffer that the run follows is the damage of
every repaint since its last submission. -/
theorem repaint_pixman_damage (s0 s : wayland_backend) (o : OutId) (b : BufId)
    (acc : Option region) (damage : region) (a : shm_alloc) (r : Int × wayland_backend)
    (hinv : pool_inv s0) (hnd : buffers_nodup s0) (hrun : damage_since o b s0 acc s)
    (hr : wayland_output_repaint_pixman s o damage a = some r) :
    ∃ out sb l painted chrome, s.outputs o = some out ∧ submitted_buffer s o = some sb ∧
      r.2.log = s.log ++ l ∧
      damage_calls l = [host_call.renderer_repaint_output o painted,
        host_call.surface_attach out.surface sb,
        host_call.surface_damage_buffer out.surface painted chrome] ∧
      (out.free_buffers = [] → sb = s.next_buffer ∧ painted = whole_output out) ∧
      (∀ d, acc = some d → sb = b → painted = d ++ damage) ∧
      pending_damage r.2 sb = some [] ∧ chrome_damaged r.2 sb = some false ∧
      (∀ x ∈ out.buffers, x ≠ sb →
        pending_damage r.2 x = (pending_damage s x).map (fun d => d ++ damage)) ∧
      (∀ d, acc = some d → sb ≠ b → pending_damage r.2 b = some (d ++ damage)) := by
  obtain ⟨hinv1, hnd1, htrack⟩ := damage_since_pending s0 hinv hnd o b acc s hrun
  cases ho : s.outputs o with
  | none => simp [wayland_output_repaint_pixman, ho] at hr
  | some out =>
    obtain ⟨sb, l, painted, out1, chrome, hsub, hlog, hcalls, hnew, hold, hpend, hchrome,
      -, hin, -, -, -, -, -, -, -, -⟩ :=
      repaint_pixman_step s o damage a r out hinv1 ho (hnd1 o out ho) hr
    refine ⟨out, sb, l, painted, chrome, rfl, hsub, hlog, hcalls, fun hf => ?_,
      fun d hd hb => ?_, hpend, hchrome, hin, fun d hd hb => ?_⟩
    · refine ⟨?_, (hnew hf).1⟩
      simp only [submitted_buffer, ho, hf, Option.some.injEq] at hsub
      exact hsub.symm
    · subst hb
      obtain ⟨out2, ho2, hmem, -, hp⟩ := htrack d hd
      rw [ho] at ho2
      cases ho2
      have hf : out.free_buffers ≠ [] := fun hf => (hnew hf).2.1 hmem
      have h2 := (hold hf).2.1
      rw [hp] at h2
      exact (Option.some.inj h2).symm
    · obtain ⟨out2, ho2, hmem, -, hp⟩ := htrack d hd
      rw [ho] at ho2
      cases ho2
      rw [hin b hmem (fun e => hb e.symm), hp]
      rfl

/-- Witness of C30: the sample output is repainted twice, which allocates buffers 0 and
1, buffer 0 is released and a third repaint recycles it; buffer 0 is painted and
submitted with the damage of the second and the third repaint, and buffer 1 keeps the
damage of the third repaint. -/
theorem repaint_pixman_damage_witness :
    pool_inv sample_backend ∧ buffers_nodup sample_backend ∧
    damage_since 0 0 sample_backend (some sample_damage_late) sample_painted_released ∧
    wayland_output_repaint_pixman sample_painted_released 0 sample_damage alloc_ok
      = some (0, sample_painted_thrice) ∧
    ∃ l chrome, sample_painted_thrice.log = sample_painted_released.log ++ l ∧
      damage_calls l = [host_call.renderer_repaint_output 0
          (sample_damage_late ++ sample_damage),
        host_call.surface_attach (some 1) 0,
        host_call.surface_damage_buffer (some 1) (sample_damage_late ++ sample_damage)
          chrome] ∧
      pending_damage sample_painted_thrice 0 = some [] ∧
      chrome_damaged sample_painted_thrice 0 = some false ∧
      pending_damage sample_painted_thrice 1 = some sample_damage := by
  refine ⟨pool_inv_of_empty _ sample_backend_empty, sample_backend_nodup,
    sample_painted_released_run, rfl, ?_⟩
  obtain ⟨out, sb, l, painted, chrome, ho, hsub, hlog, hcalls, -, hacc, hpend, hchrome,
    hothers, -⟩ :=
    repaint_pixman_damage sample_backend sample_painted_released 0 0
      (some sample_damage_late) sample_damage alloc_ok (0, sample_painted_thrice)
      (pool_inv_of_empty _ sample_backend_empty) sample_backend_nodup
      sample_painted_released_run rfl
  have ho1 : sample_painted_released.outputs 0
      = some { sample_output with buffers := [1, 0], free_buffers := [0] } := rfl
  rw [ho1] at ho
  cases ho
  have hsub1 : submitted_buffer sample_painted_released 0 = some 0 := rfl
  rw [hsub1] at hsub
  cases hsub
  have hp := hacc sample_damage_late rfl rfl
  subst hp
  exact ⟨l, chrome, hlog, hcalls, hpend, hchrome,
    hothers 1 (List.mem_cons_self _ _) (by decide)⟩

end Weston
